import Mathlib

/-!
# photon-controller-cli: command layer

A shallow embedding of the command functions of `photon/command/auth.go`,
`hosts.go`, `images.go` and `tenants.go`.

Every command is a Go function `func(c *cli.Context, w io.Writer) error` that
talks to collaborators (argument checker, prompter, remote API client, task
waiter, configuration store, formatter).  A command is embedded as a function
of a `World` (what every collaborator answers) and a `Context` (arguments and
flags) into a `Run`: the ordered list of observable events together with the
returned Go `error` (or a run-time panic).
-/

namespace Photon

/-! ## Values -/

/-- A Go `error` value, identified by its message. -/
structure Err where
  msg : String
  deriving DecidableEq, Repr

/-- How a Go function ends: normal return with a value (`nil` error), return of
an error, or a run-time panic. -/
inductive Res (α : Type) where
  | ok (a : α)
  | error (e : Err)
  | panic (msg : String)
  deriving DecidableEq, Repr

/-- The `photon.Task` handle returned by a mutating API call (only `ID` is read). -/
structure Task where
  ID : String
  deriving DecidableEq, Repr

/-- One `photon.SecurityGroup` of a tenant. -/
structure SecurityGroup where
  Name : String
  Inherited : Bool
  deriving DecidableEq, Repr

/-- The `photon.Tenant` fields read by the commands. -/
structure Tenant where
  ID : String
  Name : String
  SecurityGroups : List SecurityGroup
  deriving DecidableEq, Repr

/-- One `photon.ImageSetting`. -/
structure ImageSetting where
  Name : String
  DefaultValue : String
  deriving DecidableEq, Repr

/-- The `photon.Image` fields read by the commands. -/
structure Image where
  ID : String
  Name : String
  State : String
  Size : Int
  ReplicationType : String
  ReplicationProgress : String
  SeedingProgress : String
  Settings : List ImageSetting
  deriving DecidableEq, Repr

/-- The `photon.Host` fields read by the commands.  `Metadata` is the Go map,
as the list of its entries in the order `fmt` prints them. -/
structure Host where
  ID : String
  Username : String
  Password : String
  Address : String
  Tags : List String
  State : String
  Metadata : List (String × String)
  AvailabilityZone : String
  EsxVersion : String
  deriving DecidableEq, Repr

/-- The `photon.AuthInfo` fields read by `printAuthInfo`. -/
structure AuthInfo where
  Enabled : Bool
  Endpoint : String
  Port : Int
  deriving DecidableEq, Repr

/-- The `photon.TokenOptions` fields read by `getApiTokens`. -/
structure TokenOptions where
  AccessToken : String
  RefreshToken : String
  deriving DecidableEq, Repr

/-- The `photon.Deployment` field read by `listHosts`. -/
structure Deployment where
  ID : String
  deriving DecidableEq, Repr

/-- The `photon.HostCreateSpec` built by `createHost`. -/
structure HostCreateSpec where
  Username : String
  Password : String
  Address : String
  AvailabilityZone : String
  Tags : List String
  Metadata : List (String × String)
  deriving DecidableEq, Repr

/-- The `photon.TenantCreateSpec` built by `createTenant`. -/
structure TenantCreateSpec where
  Name : String
  SecurityGroups : List String
  deriving DecidableEq, Repr

/-- The `photon.ImageCreateOptions` built by `createImage`. -/
structure ImageCreateOptions where
  ReplicationType : String
  deriving DecidableEq, Repr

/-- The `configuration.TenantConfiguration` record. -/
structure TenantConfiguration where
  Name : String
  ID : String
  deriving DecidableEq, Repr

/-- The `configuration.Configuration` fields read or written by the commands. -/
structure Configuration where
  Token : String
  Tenant : Option TenantConfiguration
  deriving DecidableEq, Repr

/-- The `lightwave.JWTToken` fields read by `dumpTokenDetails`.  `Groups` is a
Go slice: `none` is the nil slice. -/
structure JWTToken where
  Subject : String
  Groups : Option (List String)
  IssuedAt : Int
  Expires : Int
  deriving DecidableEq, Repr

/-- The `*cli.Context` of one invocation, as far as the commands read it. -/
structure Context where
  /-- Positional arguments, `c.Args()`. -/
  args : List String
  /-- Result of `c.GlobalIsSet("non-interactive")`. -/
  nonInteractiveSet : Bool
  /-- Result of `c.String(name)`. -/
  stringFlag : String → String
  /-- Result of `c.Bool(name)`. -/
  boolFlag : String → Bool

/-- Go `c.Args().First()`: the first argument, or the empty string. -/
def Context.first (c : Context) : String :=
  c.args.headD ""

/-! ## Events -/

/-- A call on the remote API client `client.Esxclient`. -/
inductive ApiCall where
  | authGet
  | authGetTokensByPassword (username password : String)
  | deploymentsGetAll
  | deploymentsGetHosts (id : String)
  | hostsCreate (spec : HostCreateSpec) (deploymentID : String)
  | hostsDelete (id : String)
  | hostsGet (id : String)
  | hostsSetAvailabilityZone (id availabilityZoneId : String)
  | hostsGetTasks (id state : String)
  | hostsGetVMs (id : String)
  | hostsSuspend (id : String)
  | hostsResume (id : String)
  | hostsEnterMaintenanceMode (id : String)
  | hostsExitMaintenanceMode (id : String)
  | imagesCreate (file name : String) (options : Option ImageCreateOptions)
  | imagesDelete (id : String)
  | imagesGetAll (name : String)
  | imagesGet (id : String)
  | imagesGetTasks (id state : String)
  | tenantsCreate (spec : TenantCreateSpec)
  | tenantsGetAll
  | tenantsDelete (id : String)
  | tenantsGet (id : String)
  | tenantsGetTasks (id state : String)
  | tenantsSetSecurityGroups (id : String) (items : List String)
  deriving DecidableEq, Repr

/-- The entity re-fetches: `Hosts.Get`, `Tenants.Get`, `Images.Get`. -/
def ApiCall.isGet : ApiCall → Bool
  | .hostsGet _ => true
  | .tenantsGet _ => true
  | .imagesGet _ => true
  | _ => false

/-- An object handed to `utils.FormatObject` / `utils.FormatObjects`. -/
inductive Obj where
  | host (h : Host)
  | tenant (t : Tenant)
  | image (i : Image)
  | tenants (ts : List Tenant)
  | images (is : List Image)
  | tenantConfiguration (t : TenantConfiguration)
  deriving DecidableEq, Repr

/-- What a command does that is visible outside of it, in program order. -/
inductive Event where
  /-- Call `checkArgNum(args, num, usage)`. -/
  | checkArgNum (args : List String) (num : Nat) (usage : String)
  /-- Call `askForInput(prompt, value)`. -/
  | askForInput (prompt value : String)
  /-- Call `confirmed(isNonInteractive)`. -/
  | confirmed (isNonInteractive : Bool)
  /-- Call `client.GetClient(isNonInteractive)`. -/
  | getClient (isNonInteractive : Bool)
  /-- Call on the remote API. -/
  | api (call : ApiCall)
  /-- Call `waitOnTaskOperation(taskID, c)`. -/
  | waitOnTaskOperation (taskID : String)
  /-- Text printed on standard output by `fmt.Printf` / `fmt.Println`. -/
  | stdout (text : String)
  /-- Flush of a `tabwriter.Writer` on standard output: the cells written to it
  so far (`buffer`) appear on standard output as an aligned table. -/
  | tabFlush (buffer : String)
  /-- Call `utils.FormatObject(obj, w, c)` / `utils.FormatObjects(objs, w, c)`. -/
  | formatObject (obj : Obj)
  /-- Text written to the writer `w` by `fmt.Fprintf(w, ..)`. -/
  | write (text : String)
  /-- Call `printHostList(hosts, w, c)`. -/
  | printHostList (hosts : List Host)
  /-- Call `printVMList(vms, w, c, false)`, the virtual machines given by their IDs. -/
  | printVMList (vms : List String)
  /-- Call `printTaskList(tasks, c)`. -/
  | printTaskList (tasks : List Task)
  /-- Call `json.Unmarshal` of the host metadata. -/
  | jsonUnmarshal (text : String)
  /-- Call `filepath.Abs`, `os.Stat`, `os.Open`, `file.Close`. -/
  | file (op path : String)
  /-- Call `configuration.LoadConfig()`. -/
  | loadConfig
  /-- Call `configuration.SaveConfig(config)`. -/
  | saveConfig (config : Configuration)
  /-- Call `clearConfigTenant(id)`. -/
  | clearConfigTenant (id : String)
  /-- Call `clearConfigProject(id)`. -/
  | clearConfigProject (id : String)
  /-- Call `findTenantID(name)`. -/
  | findTenantID (name : String)
  deriving DecidableEq, Repr

/-- The event is a call that is handed the command's writer `w`: these are the
only writes to `w`. -/
def Event.isWriterOutput : Event → Bool
  | .formatObject _ => true
  | .write _ => true
  | .printHostList _ => true
  | .printVMList _ => true
  | _ => false

/-- The event is an entity re-fetch (`Get`) on the remote API. -/
def Event.isGet : Event → Bool
  | .api call => call.isGet
  | _ => false

/-- The event is a call of `client.GetClient` or of the remote API. -/
def Event.isRemote : Event → Bool
  | .getClient _ => true
  | .api _ => true
  | .waitOnTaskOperation _ => true
  | _ => false

/-- The event produces output of the command: standard output, a flushed
table, a structured dump or a list printed by a helper. -/
def Event.isOutput : Event → Bool
  | .stdout _ => true
  | .tabFlush _ => true
  | .formatObject _ => true
  | .write _ => true
  | .printHostList _ => true
  | .printVMList _ => true
  | .printTaskList _ => true
  | _ => false

/-! ## Runs -/

/-- The run of a Go function: its events in order and how it ended. -/
structure Run (α : Type) where
  trace : List Event
  result : Res α

/-- Go `return a` with no event. -/
def Run.pure {α : Type} (a : α) : Run α :=
  ⟨[], .ok a⟩

/-- Sequencing: the rest runs only after a normal return. -/
def Run.bind {α β : Type} (x : Run α) (f : α → Run β) : Run β :=
  match x.result with
  | .ok a => ⟨x.trace ++ (f a).trace, (f a).result⟩
  | .error e => ⟨x.trace, .error e⟩
  | .panic m => ⟨x.trace, .panic m⟩

instance : Monad Run where
  pure := Run.pure
  bind := Run.bind

/-- Go `return err`. -/
def fail {α : Type} (e : Err) : Run α :=
  ⟨[], .error e⟩

/-- A Go run-time panic (index out of range). -/
def goPanic {α : Type} (m : String) : Run α :=
  ⟨[], .panic m⟩

/-- An event that cannot fail. -/
def emit (ev : Event) : Run Unit :=
  ⟨[ev], .ok ()⟩

/-- A call `v, err := f(..); if err != nil { return err }`. -/
def call {α : Type} (ev : Event) (r : Except Err α) : Run α :=
  ⟨[ev], match r with
    | .ok a => .ok a
    | .error e => .error e⟩

/-- A call `err := f(..); if err != nil { return err }`. -/
def callErr (ev : Event) (r : Option Err) : Run Unit :=
  ⟨[ev], match r with
    | none => .ok ()
    | some e => .error e⟩

/-- Go `fmt.Printf` / `fmt.Println` on standard output. -/
def printf (text : String) : Run Unit :=
  emit (.stdout text)

/-! ## Collaborators -/

/-- What the collaborators of the command layer answer.  None of them is
defined in the four command files; each is a parameter of the embedding. -/
structure World where
  /-- Helper `checkArgNum(args, num, usage)`: `none` is the nil error. -/
  checkArgNum : List String → Nat → String → Option Err
  /-- Helper `utils.IsNonInteractive(c)`. -/
  isNonInteractive : Context → Bool
  /-- Helper `utils.NeedsFormatting(c)`: the format override is set. -/
  needsFormatting : Context → Bool
  /-- Helper `askForInput(prompt, value)`. -/
  askForInput : String → String → Except Err String
  /-- Helper `confirmed(isNonInteractive)`. -/
  confirmed : Bool → Bool
  /-- Call `client.GetClient(isNonInteractive)`: `none` is the nil error. -/
  getClient : Bool → Option Err
  /-- Helper `waitOnTaskOperation(taskID, c)`: the entity ID or an error. -/
  waitOnTaskOperation : String → Except Err String
  /-- Every remote call that returns a task. -/
  task : ApiCall → Except Err Task
  /-- Remote `Auth.Get()`. -/
  authGet : Except Err AuthInfo
  /-- Remote `Auth.GetTokensByPassword(username, password)`. -/
  authGetTokensByPassword : String → String → Except Err TokenOptions
  /-- Remote `Deployments.GetAll()`, the `Items` of the answer. -/
  deploymentsGetAll : Except Err (List Deployment)
  /-- Remote `Deployments.GetHosts(id)`, the `Items` of the answer. -/
  deploymentsGetHosts : String → Except Err (List Host)
  /-- Remote `Hosts.Get(id)`. -/
  hostsGet : String → Except Err Host
  /-- Remote `Hosts.GetVMs(id)`, the `Items` of the answer. -/
  hostsGetVMs : String → Except Err (List String)
  /-- Remote `Images.GetAll(options)`, the `Items` of the answer. -/
  imagesGetAll : String → Except Err (List Image)
  /-- Remote `Images.Get(id)`. -/
  imagesGet : String → Except Err Image
  /-- Remote `Tenants.GetAll()`, the `Items` of the answer. -/
  tenantsGetAll : Except Err (List Tenant)
  /-- Remote `Tenants.Get(id)`. -/
  tenantsGet : String → Except Err Tenant
  /-- Remote `GetTasks(id, options)` of hosts, images and tenants, the `Items`. -/
  getTasks : ApiCall → Except Err (List Task)
  /-- Helpers `printHostList`, `printVMList`, `printTaskList`. -/
  printHostList : List Host → Option Err
  printVMList : List String → Option Err
  printTaskList : List Task → Option Err
  /-- Library `w.Flush()` of the table writer holding `buffer`: `none` is the
  nil error. -/
  tabFlush : String → Option Err
  /-- Library `json.Unmarshal` into a `map[string]string`. -/
  jsonUnmarshal : String → Except Err (List (String × String))
  /-- Library `filepath.Abs`, `os.Stat`, `os.Open`, `file.Close`. -/
  filepathAbs : String → Except Err String
  osStat : String → Option Err
  osOpen : String → Except Err String
  fileClose : String → Option Err
  /-- Store `configuration.LoadConfig()`, `configuration.SaveConfig(config)`. -/
  loadConfig : Except Err Configuration
  saveConfig : Configuration → Option Err
  /-- Helpers `clearConfigTenant(id)`, `clearConfigProject(id)`, `findTenantID(name)`. -/
  clearConfigTenant : String → Option Err
  clearConfigProject : String → Option Err
  findTenantID : String → String × Option Err
  /-- Library `lightwave.ParseTokenDetails(token)`. -/
  parseTokenDetails : String → JWTToken
  /-- Library `lightwave.ParseRawTokenDetails(token)`: the strings and the error. -/
  parseRawTokenDetails : String → List String × Option Err
  /-- Library `json.Indent(&buf, text, "", "  ")`: the indented text, or `none`
  when it returns an error. -/
  jsonIndent : String → Option String
  /-- Helper `timestampToString(timestamp)`. -/
  timestampToString : Int → String

/-! ## Text -/

/-- Go `fmt.Println(a, b, ..)` on strings: operands separated by one space,
then a newline. -/
def println (parts : List String) : String :=
  " ".intercalate parts ++ "\n"

/-- Go `fmt.Sprint` of a `[]string` (verb `%v`): `[a b c]`. -/
def sprintSlice (xs : List String) : String :=
  "[" ++ " ".intercalate xs ++ "]"

/-- Go `fmt.Sprint` of a `map[string]string`: `map[k:v k:v]`. -/
def sprintMap (m : List (String × String)) : String :=
  "map[" ++ " ".intercalate (m.map fun kv => kv.1 ++ ":" ++ kv.2) ++ "]"

/-- Go `strings.TrimLeft(s, cutset)`. -/
def stringsTrimLeft (s cutset : String) : String :=
  String.mk (s.toList.dropWhile fun ch => cutset.toList.contains ch)

/-- Go `strings.TrimRight(s, cutset)`. -/
def stringsTrimRight (s cutset : String) : String :=
  String.mk (s.toList.reverse.dropWhile fun ch => cutset.toList.contains ch).reverse

/-- Go `strings.Trim(s, cutset)`. -/
def stringsTrim (s cutset : String) : String :=
  stringsTrimRight (stringsTrimLeft s cutset) cutset

/-- Go `strings.Replace(s, " ", ",", -1)`. -/
def replaceSpaces (s : String) : String :=
  String.mk (s.toList.map fun ch => if ch = ' ' then ',' else ch)

/-- The class `\s` of Go regular expressions: tab, newline, form feed,
carriage return, space. -/
def isSpace (ch : Char) : Bool :=
  ch = '\t' || ch = '\n' || ch = '\x0c' || ch = '\r' || ch = ' '

/-- The scan behind `regexp.MustCompile("\\s*,\\s*").Split(s, -1)`: `cur` is the
field read so far (reversed), `ws` the white space read after it (reversed,
part of the separator when a comma follows, part of the field otherwise), and
`skip` says that a separator has just been read and its trailing white space
is being consumed. -/
def splitScan : List Char → List Char → Bool → List Char → List String
  | cur, ws, _, [] => [String.mk (ws ++ cur).reverse]
  | cur, ws, skip, ch :: rest =>
    if ch = ',' then String.mk cur.reverse :: splitScan [] [] true rest
    else if isSpace ch then
      if skip then splitScan cur ws true rest
      else splitScan cur (ch :: ws) false rest
    else splitScan (ch :: (ws ++ cur)) [] false rest

/-- Go `regexp.MustCompile("\\s*,\\s*").Split(s, -1)`: the pieces of `s` between
the leftmost, longest runs of `white space, comma, white space`. -/
def splitCommaList (s : String) : List String :=
  splitScan [] [] false s.toList

/-- Go `int64` multiplication wraps around. -/
def wrapInt64 (x : Int) : Int :=
  (x + 2 ^ 63) % 2 ^ 64 - 2 ^ 63

/-! ## Calls shared by the commands -/

/-- The statement `err := checkArgNum(c.Args(), num, usage); if err != nil { return err }`. -/
def checkArgs (W : World) (c : Context) (num : Nat) (usage : String) : Run Unit :=
  callErr (.checkArgNum c.args num usage) (W.checkArgNum c.args num usage)

/-- The statement `v, err = askForInput(prompt, v); if err != nil { return err }`. -/
def ask (W : World) (prompt value : String) : Run String :=
  call (.askForInput prompt value) (W.askForInput prompt value)

/-- The statement `client.Esxclient, err = client.GetClient(b); if err != nil { return err }`. -/
def getClient (W : World) (b : Bool) : Run Unit :=
  callErr (.getClient b) (W.getClient b)

/-- A remote call that returns a task, followed by `if err != nil { return err }`. -/
def taskCall (W : World) (a : ApiCall) : Run Task :=
  call (.api a) (W.task a)

/-- The statement `id, err := waitOnTaskOperation(taskID, c); if err != nil { return err }`. -/
def wait (W : World) (taskID : String) : Run String :=
  call (.waitOnTaskOperation taskID) (W.waitOnTaskOperation taskID)

/-- Go `c.Args()[1]`: panics when there are fewer than two arguments. -/
def secondArg (c : Context) : Run String :=
  match c.args[1]? with
  | some a => Run.pure a
  | none => goPanic "index out of range"

/-- The statement `err = w.Flush(); if err != nil { return err }` of a table
writer that was given `buffer`. -/
def tabFlush (W : World) (buffer : String) : Run Unit :=
  callErr (.tabFlush buffer) (W.tabFlush buffer)

/-! ## auth.go -/

/-- Source `printAuthInfo(auth, isScripting)`. -/
def printAuthInfo (W : World) (auth : AuthInfo) (isScripting : Bool) : Run Unit :=
  if isScripting then
    printf (toString auth.Enabled ++ "\t" ++ auth.Endpoint ++ "\t" ++ toString auth.Port ++ "\n")
  else
    tabFlush W ("Enabled\tEndpoint\tPort\n"
      ++ (toString auth.Enabled ++ "\t" ++ auth.Endpoint ++ "\t" ++ toString auth.Port ++ "\n"))

/-- Source `show(c)`, the command `auth show` (`show` is a reserved word). -/
def showAuth (W : World) (c : Context) : Run Unit := do
  checkArgs W c 0 "auth show"
  getClient W c.nonInteractiveSet
  let auth ← call (.api .authGet) W.authGet
  printAuthInfo W auth c.nonInteractiveSet

/-- Source `dumpTokenDetails(w, name, encodedToken)`: the texts written to `w`,
one per `fmt.Fprintf`. -/
def dumpTokenDetails (W : World) (name encodedToken : String) : List String :=
  let jwtToken := W.parseTokenDetails encodedToken
  [ name ++ ":\n",
    "\tSubject: " ++ jwtToken.Subject ++ "\n",
    "\tGroups: ",
    (match jwtToken.Groups with
      | none => "<none>\n"
      | some groups => ", ".intercalate groups ++ "\n"),
    "\tIssued: " ++ W.timestampToString (wrapInt64 (jwtToken.IssuedAt * 1000)) ++ "\n",
    "\tExpires: " ++ W.timestampToString (wrapInt64 (jwtToken.Expires * 1000)) ++ "\n",
    "\tToken: " ++ encodedToken ++ "\n" ]

/-- Source `dumpTokenDetailsRaw(w, name, encodedToken)`: the texts written to
`w`, one per `fmt.Fprintf`. -/
def dumpTokenDetailsRaw (W : World) (name encodedToken : String) : List String :=
  (if (W.parseRawTokenDetails encodedToken).2.isSome then ["<unparseable>\n"] else [])
    ++ [name ++ ":\n"]
    ++ (W.parseRawTokenDetails encodedToken).1.filterMap (fun jsonString =>
        match W.jsonIndent jsonString with
        | some prettyJSON => some (prettyJSON ++ "\n")
        | none => none)
    ++ ["Token: " ++ encodedToken ++ "\n"]

/-- The texts `ts` written one after the other by `out`. -/
def writeAll (out : String → Event) (ts : List String) : Run Unit :=
  ⟨ts.map out, .ok ()⟩

/-- Source `showLoginTokenWriter(c, w, config)`; `config = none` is the nil pointer. -/
def showLoginTokenWriter (W : World) (c : Context) (config : Option Configuration) :
    Run Unit := do
  checkArgs W c 0 "auth show-login-token"
  let config ← match config with
    | some config => Run.pure config
    | none => call .loadConfig W.loadConfig
  if config.Token = "" then
    fail ⟨"No login token available"⟩
  else if !c.nonInteractiveSet then
    if c.boolFlag "raw" then
      writeAll .write (dumpTokenDetailsRaw W "Login Access Token" config.Token)
    else
      writeAll .write (dumpTokenDetails W "Login Access Token" config.Token)
  else
    emit (.write (config.Token ++ "\n"))

/-- Source `getApiTokens(c)`. -/
def getApiTokens (W : World) (c : Context) : Run Unit := do
  checkArgs W c 0 "auth get-tokens"
  let (username, password) ←
    (if !c.nonInteractiveSet then do
      let username ← ask W "User name (username@tenant): " (c.stringFlag "username")
      let password ← ask W "Password: " (c.stringFlag "password")
      Run.pure (username, password)
    else Run.pure (c.stringFlag "username", c.stringFlag "password"))
  if username.length = 0 || password.length = 0 then
    fail ⟨"Please provide username/password"⟩
  else
    getClient W c.nonInteractiveSet
    let tokens ← call (.api (.authGetTokensByPassword username password))
      (W.authGetTokensByPassword username password)
    if !c.nonInteractiveSet then
      if c.boolFlag "raw" then
        writeAll .stdout (dumpTokenDetailsRaw W "API Access Token" tokens.AccessToken)
        writeAll .stdout (dumpTokenDetailsRaw W "API Refresh Token" tokens.RefreshToken)
      else
        writeAll .stdout (dumpTokenDetails W "API Access Token" tokens.AccessToken)
        writeAll .stdout (dumpTokenDetails W "API Refresh Token" tokens.RefreshToken)
    else
      printf (tokens.AccessToken ++ "\t" ++ tokens.RefreshToken)

/-! ## hosts.go -/

/-- The values `createHost` works with after its prompts. -/
structure HostInput where
  username : String
  password : String
  address : String
  tags : String
  metadata : String
  deploymentID : String

/-- Source `createHost(c, w)`, the block `if !utils.IsNonInteractive(c) { .. }`:
every value is asked for in turn, with the flag value as the default. -/
def createHostPrompts (W : World) (c : Context) : Run HostInput := do
  if !W.isNonInteractive c then
    let username ← ask W "Username: " (c.stringFlag "username")
    let password ← ask W "Password: " (c.stringFlag "password")
    let address ← ask W "Host Address: " (c.stringFlag "address")
    let tags ← ask W "Host Tags (Options [CLOUD,MGMT]. ',' separated): " (c.stringFlag "tag")
    let metadata ← ask W "Host Metadata (\x7b'key':'value'\x7d. required by host of 'MGMT' tag): "
      (c.stringFlag "metadata")
    let deploymentID ← ask W "Deployment ID: " (c.stringFlag "deployment_id")
    Run.pure ⟨username, password, address, tags, metadata, deploymentID⟩
  else
    Run.pure ⟨c.stringFlag "username", c.stringFlag "password", c.stringFlag "address",
      c.stringFlag "tag", c.stringFlag "metadata", c.stringFlag "deployment_id"⟩

/-- Source `createHost(c, w)`. -/
def createHost (W : World) (c : Context) : Run Unit := do
  checkArgs W c 0 "host create [<options>]"
  let availabilityZone := c.stringFlag "availability_zone"
  let input ← createHostPrompts W c
  let data ←
    (if input.metadata.length = 0 then Run.pure []
    else call (.jsonUnmarshal input.metadata) (W.jsonUnmarshal input.metadata))
  let hostSpec : HostCreateSpec :=
    { Username := input.username, Password := input.password, Address := input.address,
      AvailabilityZone := availabilityZone, Tags := splitCommaList input.tags, Metadata := data }
  getClient W (W.isNonInteractive c)
  let createTask ← taskCall W (.hostsCreate hostSpec input.deploymentID)
  let id ← wait W createTask.ID
  if W.needsFormatting c then
    let host ← call (.api (.hostsGet id)) (W.hostsGet id)
    emit (.formatObject (.host host))

/-- Source `deleteHost(c, w)`. -/
def deleteHost (W : World) (c : Context) : Run Unit := do
  checkArgs W c 1 "host delete <id>"
  let id := c.first
  getClient W (W.isNonInteractive c)
  let deleteTask ← taskCall W (.hostsDelete id)
  let _ ← wait W deleteTask.ID

/-- Source `listHosts(c, w)`. -/
def listHosts (W : World) (c : Context) : Run Unit := do
  checkArgs W c 0 "host list"
  getClient W (W.isNonInteractive c)
  let deployments ← call (.api .deploymentsGetAll) W.deploymentsGetAll
  let numDeployments := deployments.length
  if numDeployments = 0 then
    fail ⟨"There are no deployments, so the hosts cannot be listed."⟩
  else if numDeployments > 1 then
    fail ⟨"There are multiple deployments, which normally should not happen. Use deployments list-hosts."⟩
  else
    let id ← match deployments[0]? with
      | some d => Run.pure d.ID
      | none => goPanic "index out of range"
    let hosts ← call (.api (.deploymentsGetHosts id)) (W.deploymentsGetHosts id)
    callErr (.printHostList hosts) (W.printHostList hosts)

/-- The line `showHost` prints in non-interactive mode. -/
def hostScriptLine (host : Host) : String :=
  let tag := stringsTrim (sprintSlice host.Tags) "[]"
  let scriptTag := replaceSpaces tag
  let metadata := stringsTrim (stringsTrimLeft (sprintMap host.Metadata) "map") "[]"
  let scriptMetadata := replaceSpaces metadata
  host.ID ++ "\t" ++ host.Username ++ "\t" ++ host.Password ++ "\t" ++ host.Address ++ "\t"
    ++ scriptTag ++ "\t" ++ host.State ++ "\t" ++ scriptMetadata ++ "\t"
    ++ host.AvailabilityZone ++ "\t" ++ host.EsxVersion ++ "\n"

/-- The lines `showHost` prints in interactive mode, one per `fmt.Println`. -/
def hostReport (host : Host) : List String :=
  [ println ["Host ID: ", host.ID],
    println ["  Username:          ", host.Username],
    println ["  Password:          ", host.Password],
    println ["  IP:                ", host.Address],
    println ["  Tags:              ", sprintSlice host.Tags],
    println ["  State:             ", host.State],
    println ["  Metadata:          ", sprintMap host.Metadata],
    println ["  AvailabilityZone:  ", host.AvailabilityZone],
    println ["  Version:           ", host.EsxVersion] ]

/-- Source `showHost(c, w)`. -/
def showHost (W : World) (c : Context) : Run Unit := do
  checkArgs W c 1 "host show <id>"
  let id := c.first
  getClient W (W.isNonInteractive c)
  let host ← call (.api (.hostsGet id)) (W.hostsGet id)
  if c.nonInteractiveSet then
    printf (hostScriptLine host)
  else if W.needsFormatting c then
    emit (.formatObject (.host host))
  else
    writeAll .stdout (hostReport host)

/-- Source `setHostAvailabilityZone(c, w)`. -/
def setHostAvailabilityZone (W : World) (c : Context) : Run Unit := do
  checkArgs W c 2 "host set-availability-zone <id> <availability-zone-id>"
  let id := c.first
  let availabilityZoneId ← secondArg c
  getClient W (W.isNonInteractive c)
  let setTask ← taskCall W (.hostsSetAvailabilityZone id availabilityZoneId)
  let id ← wait W setTask.ID
  if W.needsFormatting c then
    let host ← call (.api (.hostsGet id)) (W.hostsGet id)
    emit (.formatObject (.host host))

/-- Source `getHostTasks(c, w)`. -/
def getHostTasks (W : World) (c : Context) : Run Unit := do
  checkArgs W c 1 "host tasks <id> [<options>]"
  let id := c.first
  let state := c.stringFlag "state"
  getClient W (W.isNonInteractive c)
  let taskList ← call (.api (.hostsGetTasks id state)) (W.getTasks (.hostsGetTasks id state))
  callErr (.printTaskList taskList) (W.printTaskList taskList)

/-- Source `listHostVMs(c, w)`. -/
def listHostVMs (W : World) (c : Context) : Run Unit := do
  checkArgs W c 1 "host list-vms <id>"
  let id := c.first
  getClient W (W.isNonInteractive c)
  let vmList ← call (.api (.hostsGetVMs id)) (W.hostsGetVMs id)
  callErr (.printVMList vmList) (W.printVMList vmList)

/-- Source `suspendHost(c, w)`. -/
def suspendHost (W : World) (c : Context) : Run Unit := do
  checkArgs W c 1 "host suspend <id>"
  let id := c.first
  getClient W (W.isNonInteractive c)
  let suspendTask ← taskCall W (.hostsSuspend id)
  let _ ← wait W suspendTask.ID

/-- Source `resumeHost(c, w)`. -/
def resumeHost (W : World) (c : Context) : Run Unit := do
  checkArgs W c 1 "host resume <id>"
  let id := c.first
  getClient W (W.isNonInteractive c)
  let resumeTask ← taskCall W (.hostsResume id)
  let _ ← wait W resumeTask.ID

/-- Source `enterMaintenanceMode(c, w)`. -/
def enterMaintenanceMode (W : World) (c : Context) : Run Unit := do
  checkArgs W c 1 "host enter-maintenance <id>"
  let id := c.first
  getClient W (W.isNonInteractive c)
  let enterTask ← taskCall W (.hostsEnterMaintenanceMode id)
  let _ ← wait W enterTask.ID

/-- Source `exitMaintenanceMode(c, w)`. -/
def exitMaintenanceMode (W : World) (c : Context) : Run Unit := do
  checkArgs W c 1 "host exit-maintenance <id>"
  let id := c.first
  getClient W (W.isNonInteractive c)
  let exitTask ← taskCall W (.hostsExitMaintenanceMode id)
  let _ ← wait W exitTask.ID

/-! ## images.go -/

/-- Source `createImage(c, w)`, the block `if !c.GlobalIsSet("non-interactive") { .. }`:
the name (default: the path) and the replication type (default: `EAGER`). -/
def createImagePrompts (W : World) (c : Context) (path : String) : Run (String × String) := do
  if !c.nonInteractiveSet then
    let defaultName := path
    let name ← ask W ("Image name (default: " ++ defaultName ++ "): ") (c.stringFlag "name")
    let name := if name.length = 0 then defaultName else name
    let defaultReplication := "EAGER"
    let replicationType ← ask W
      ("Image replication type (default: " ++ defaultReplication ++ "): ")
      (c.stringFlag "image_replication")
    let replicationType :=
      if replicationType.length = 0 then defaultReplication else replicationType
    Run.pure (name, replicationType)
  else
    Run.pure (c.stringFlag "name", c.stringFlag "image_replication")

/-- Source `createImage(c, w)` from `filepath.Abs` on, `path` being non-empty. -/
def createImageUpload (W : World) (c : Context) (path : String) : Run Unit := do
  let path ← call (.file "filepath.Abs" path) (W.filepathAbs path)
  emit (.file "os.Stat" path)
  match W.osStat path with
  | some _ =>
    fail ⟨"No such image file at that path"⟩
  | none =>
    let (name, replicationType) ← createImagePrompts W c path
    let file ← call (.file "os.Open" path) (W.osOpen path)
    getClient W (W.isNonInteractive c)
    let options : Option ImageCreateOptions :=
      if replicationType.length = 0 then none
      else some { ReplicationType := replicationType }
    let uploadTask ← taskCall W (.imagesCreate file name options)
    let imageID ← wait W uploadTask.ID
    callErr (.file "file.Close" file) (W.fileClose file)
    if W.needsFormatting c then
      let image ← call (.api (.imagesGet imageID)) (W.imagesGet imageID)
      emit (.formatObject (.image image))

/-- Source `createImage(c, w)`. -/
def createImage (W : World) (c : Context) : Run Unit := do
  if c.args.length > 1 then
    fail ⟨"Unknown argument: " ++ sprintSlice (c.args.drop 1)⟩
  else
    let path ←
      (if !W.isNonInteractive c then ask W "Image path: " c.first
      else Run.pure c.first)
    if path.length = 0 then
      fail ⟨"Please provide image path"⟩
    else
      createImageUpload W c path

/-- Source `deleteImage(c)`. -/
def deleteImage (W : World) (c : Context) : Run Unit := do
  checkArgs W c 1 "image delete <path>"
  let id := c.first
  emit (.confirmed (W.isNonInteractive c))
  if W.confirmed (W.isNonInteractive c) then
    getClient W (W.isNonInteractive c)
    let deleteTask ← taskCall W (.imagesDelete id)
    let _ ← wait W deleteTask.ID
  else
    printf (println ["OK, canceled"])

/-- The row of one image, `"%s\t%s\t%s\t%d\t%s\t%s\t%s\n"`, in `listImages`. -/
def imageRow (image : Image) : String :=
  image.ID ++ "\t" ++ image.Name ++ "\t" ++ image.State ++ "\t" ++ toString image.Size ++ "\t"
    ++ image.ReplicationType ++ "\t" ++ image.ReplicationProgress ++ "\t"
    ++ image.SeedingProgress ++ "\n"

/-- The header given to the table writer by `listImages`. -/
def imageHeader : String :=
  "ID\tName\tState\tSize(Byte)\tReplication_type\tReplicationProgress\tSeedingProgress\n"

/-- Source `listImages(c, w)`. -/
def listImages (W : World) (c : Context) : Run Unit := do
  checkArgs W c 0 "image list [<options>]"
  getClient W (W.isNonInteractive c)
  let name := c.stringFlag "name"
  let images ← call (.api (.imagesGetAll name)) (W.imagesGetAll name)
  if c.nonInteractiveSet then
    writeAll .stdout (images.map imageRow)
  else if W.needsFormatting c then
    emit (.formatObject (.images images))
  else
    tabFlush W (imageHeader ++ String.join (images.map imageRow))
    printf ("\nTotal: " ++ toString images.length ++ "\n")

/-- The line `showImage` prints in non-interactive mode. -/
def imageScriptLine (image : Image) : String :=
  let settings := image.Settings.map fun setting => setting.Name ++ ":" ++ setting.DefaultValue
  let scriptSettings := ",".intercalate settings
  image.ID ++ "\t" ++ image.Name ++ "\t" ++ image.State ++ "\t" ++ toString image.Size ++ "\t"
    ++ image.ReplicationType ++ "\t" ++ image.ReplicationProgress ++ "\t"
    ++ image.SeedingProgress ++ "\t" ++ scriptSettings ++ "\n"

/-- The lines `showImage` prints in interactive mode, one per `fmt.Printf`. -/
def imageReport (image : Image) : List String :=
  [ "Image ID: " ++ image.ID ++ "\n",
    "  Name:                       " ++ image.Name ++ "\n",
    "  State:                      " ++ image.State ++ "\n",
    "  Size:                       " ++ toString image.Size ++ " Byte(s)\n",
    "  Image Replication Type:     " ++ image.ReplicationType ++ "\n",
    "  Image Replication Progress: " ++ image.ReplicationProgress ++ "\n",
    "  Image Seeding Progress:     " ++ image.SeedingProgress ++ "\n",
    "  Settings: \n" ]
    ++ image.Settings.map fun setting =>
        "    " ++ setting.Name ++ " : " ++ setting.DefaultValue ++ "\n"

/-- Source `showImage(c, w)`. -/
def showImage (W : World) (c : Context) : Run Unit := do
  let id ←
    (if !W.isNonInteractive c then ask W "Image id: " c.first
    else Run.pure c.first)
  if id.length = 0 then
    fail ⟨"Please provide image id"⟩
  else
    getClient W (W.isNonInteractive c)
    let image ← call (.api (.imagesGet id)) (W.imagesGet id)
    if c.nonInteractiveSet then
      printf (imageScriptLine image)
    else if W.needsFormatting c then
      emit (.formatObject (.image image))
    else
      writeAll .stdout (imageReport image)

/-- Source `getImageTasks(c)`. -/
def getImageTasks (W : World) (c : Context) : Run Unit := do
  checkArgs W c 1 "image tasks <id> [<options>]"
  let id := c.first
  let state := c.stringFlag "state"
  getClient W (W.isNonInteractive c)
  let taskList ← call (.api (.imagesGetTasks id state)) (W.getTasks (.imagesGetTasks id state))
  callErr (.printTaskList taskList) (W.printTaskList taskList)

/-! ## tenants.go -/

/-- Source `createTenant(c, w)`. -/
def createTenant (W : World) (c : Context) : Run Unit := do
  if c.args.length > 1 then
    fail ⟨"Unknown argument: " ++ sprintSlice (c.args.drop 1)⟩
  else
    let (name, securityGroups) ←
      (if !W.isNonInteractive c then do
        let name ← ask W "Tenant name: " c.first
        let securityGroups ← ask W
          "Comma-separated security group names, or hit enter for no security groups): "
          (c.stringFlag "security-groups")
        Run.pure (name, securityGroups)
      else Run.pure (c.first, c.stringFlag "security-groups"))
    if name.length = 0 then
      fail ⟨"Please provide tenant name"⟩
    else
      let securityGroupList :=
        if securityGroups ≠ "" then splitCommaList securityGroups else []
      let tenantSpec : TenantCreateSpec :=
        { Name := name, SecurityGroups := securityGroupList }
      getClient W (W.isNonInteractive c)
      let createTask ← taskCall W (.tenantsCreate tenantSpec)
      let id ← wait W createTask.ID
      if W.needsFormatting c then
        let tenant ← call (.api (.tenantsGet id)) (W.tenantsGet id)
        emit (.formatObject (.tenant tenant))

/-- The row of one tenant, `"%s\t%s\n"`, in `listTenants`. -/
def tenantRow (tenant : Tenant) : String :=
  tenant.ID ++ "\t" ++ tenant.Name ++ "\n"

/-- Source `listTenants(c, w)`. -/
def listTenants (W : World) (c : Context) : Run Unit := do
  checkArgs W c 0 "tenant list"
  getClient W (W.isNonInteractive c)
  let tenants ← call (.api .tenantsGetAll) W.tenantsGetAll
  if c.nonInteractiveSet then
    writeAll .stdout (tenants.map tenantRow)
  else if W.needsFormatting c then
    emit (.formatObject (.tenants tenants))
  else
    tabFlush W ("ID\tName\n" ++ String.join (tenants.map tenantRow))
    printf ("\nTotal: " ++ toString tenants.length ++ "\n")

/-- Source `deleteTenant(c)`. -/
def deleteTenant (W : World) (c : Context) : Run Unit := do
  checkArgs W c 1 "tenant delete <id>"
  let id := c.first
  getClient W (W.isNonInteractive c)
  let deleteTask ← taskCall W (.tenantsDelete id)
  let _ ← wait W deleteTask.ID
  callErr (.clearConfigTenant id) (W.clearConfigTenant id)

/-- The line `showTenant` prints in non-interactive mode. -/
def tenantScriptLine (tenant : Tenant) : String :=
  let securityGroups := tenant.SecurityGroups.map fun s => s.Name ++ ":" ++ toString s.Inherited
  let scriptSecurityGroups := ",".intercalate securityGroups
  tenant.ID ++ "\t" ++ tenant.Name ++ "\t" ++ scriptSecurityGroups ++ "\n"

/-- The lines `showTenant` prints for the security groups from number `i + 1` on. -/
def securityGroupReport : Nat → List SecurityGroup → List String
  | _, [] => []
  | i, s :: rest =>
    [ "    SecurityGroups " ++ toString (i + 1) ++ ":\n",
      println ["      Name:          ", s.Name],
      println ["      Inherited:     ", toString s.Inherited] ]
      ++ securityGroupReport (i + 1) rest

/-- The lines `showTenant` prints in interactive mode. -/
def tenantReport (tenant : Tenant) : List String :=
  [ println ["Tenant ID: ", tenant.ID],
    println ["  Name:              ", tenant.Name] ]
    ++ securityGroupReport 0 tenant.SecurityGroups

/-- Source `showTenant(c, w)`. -/
def showTenant (W : World) (c : Context) : Run Unit := do
  checkArgs W c 1 "tenant show <id>"
  let id := c.first
  getClient W (W.isNonInteractive c)
  let tenant ← call (.api (.tenantsGet id)) (W.tenantsGet id)
  if c.nonInteractiveSet then
    printf (tenantScriptLine tenant)
  else if W.needsFormatting c then
    emit (.formatObject (.tenant tenant))
  else
    writeAll .stdout (tenantReport tenant)

/-- Source `setTenant(c)`. -/
def setTenant (W : World) (c : Context) : Run Unit := do
  checkArgs W c 1 "tenant set <name>"
  let name := c.first
  getClient W (W.isNonInteractive c)
  emit (.findTenantID name)
  let (id, err) := W.findTenantID name
  if id.length = 0 || err.isSome then
    match err with
    | some e => fail e
    | none => Run.pure ()
  else
    let config ← call .loadConfig W.loadConfig
    let config := { config with Tenant := some { Name := name, ID := id } }
    callErr (.saveConfig config) (W.saveConfig config)
    callErr (.clearConfigProject "") (W.clearConfigProject "")
    if !W.isNonInteractive c then
      printf ("Tenant set to '" ++ name ++ "'\n")

/-- Source `getTenant(c, w)`. -/
def getTenant (W : World) (c : Context) : Run Unit := do
  checkArgs W c 0 "tenant get"
  let config ← call .loadConfig W.loadConfig
  match config.Tenant with
  | none => printf "No tenant selected\n"
  | some tenant =>
    if c.nonInteractiveSet then
      printf (tenant.ID ++ "\t" ++ tenant.Name ++ "\n")
    else if W.needsFormatting c then
      emit (.formatObject (.tenantConfiguration tenant))
    else
      printf ("Current tenant is '" ++ tenant.Name ++ "' with ID " ++ tenant.ID ++ "\n")

/-- Source `getTenantTasks(c, w)`. -/
def getTenantTasks (W : World) (c : Context) : Run Unit := do
  checkArgs W c 1 "tenant tasks <id> [<options>]"
  let id := c.first
  let state := c.stringFlag "state"
  getClient W (W.isNonInteractive c)
  let taskList ← call (.api (.tenantsGetTasks id state)) (W.getTasks (.tenantsGetTasks id state))
  callErr (.printTaskList taskList) (W.printTaskList taskList)

/-- Source `setSecurityGroups(c)`. -/
def setSecurityGroups (W : World) (c : Context) : Run Unit := do
  checkArgs W c 2 "tenant set_security_groups <id> <comma-separated security group names>"
  let id := c.first
  let groups ← secondArg c
  let items := if groups ≠ "" then splitCommaList groups else []
  getClient W (W.isNonInteractive c)
  let task ← taskCall W (.tenantsSetSecurityGroups id items)
  let _ ← wait W task.ID

/-! ## Mutating commands and the failed wait -/

/-- The event is a call of `waitOnTaskOperation`. -/
def Event.isWait : Event → Bool
  | .waitOnTaskOperation _ => true
  | _ => false

/-- The event is neither a wait, nor a re-fetch, nor a write to the writer. -/
def Event.quiet (ev : Event) : Bool :=
  !ev.isWait && !ev.isGet && !ev.isWriterOutput

/-- A run without wait, re-fetch or write to the writer. -/
def Quiet {α : Type} (x : Run α) : Prop :=
  ∀ ev ∈ x.trace, ev.quiet = true

/-- A run without wait. -/
def NoWait {α : Type} (x : Run α) : Prop :=
  ∀ ev ∈ x.trace, ev.isWait = false

/-- A run that stops at a failed wait: whenever it waits on a task and the wait
fails with `e`, it returns `e`, the wait is its last event, and it neither
re-fetches nor writes to the writer. -/
def WaitSafe {α : Type} (W : World) (x : Run α) : Prop :=
  ∀ tid e, Event.waitOnTaskOperation tid ∈ x.trace → W.waitOnTaskOperation tid = .error e →
    x.result = .error e ∧
    x.trace.getLast? = some (.waitOnTaskOperation tid) ∧
    (∀ ev ∈ x.trace, ev.isGet = false) ∧
    (∀ ev ∈ x.trace, ev.isWriterOutput = false)

/-- The commands that start a remote task and wait for it. -/
inductive MutatingCommand where
  | createHost | deleteHost | setHostAvailabilityZone | suspendHost | resumeHost
  | enterMaintenanceMode | exitMaintenanceMode
  | createTenant | deleteTenant | setSecurityGroups
  | createImage | deleteImage
  deriving DecidableEq, Repr

/-- The source function of a mutating command. -/
def MutatingCommand.run : MutatingCommand → World → Context → Run Unit
  | .createHost => Photon.createHost
  | .deleteHost => Photon.deleteHost
  | .setHostAvailabilityZone => Photon.setHostAvailabilityZone
  | .suspendHost => Photon.suspendHost
  | .resumeHost => Photon.resumeHost
  | .enterMaintenanceMode => Photon.enterMaintenanceMode
  | .exitMaintenanceMode => Photon.exitMaintenanceMode
  | .createTenant => Photon.createTenant
  | .deleteTenant => Photon.deleteTenant
  | .setSecurityGroups => Photon.setSecurityGroups
  | .createImage => Photon.createImage
  | .deleteImage => Photon.deleteImage

/-! ## Reading the output -/

/-- The output events of a run, in order. -/
def outputEvents (trace : List Event) : List Event :=
  trace.filter Event.isOutput

/-- The text a run puts on standard output with `fmt.Printf` / `fmt.Println`. -/
def stdoutText : List Event → String
  | [] => ""
  | .stdout text :: rest => text ++ stdoutText rest
  | _ :: rest => stdoutText rest

/-- The pieces of a text between its newlines; a text made of complete lines
ends with the empty piece. -/
def linesOf (text : String) : List String :=
  (text.toList.splitOn '\n').map String.mk

/-- The tab-separated fields of a line. -/
def fieldsOf (line : String) : List String :=
  (line.toList.splitOn '\t').map String.mk

/-- A text without tab and without newline. -/
def PlainText (s : String) : Prop :=
  '\t' ∉ s.toList ∧ '\n' ∉ s.toList

/-- A well-formed image: no string field contains a tab or a newline (the
fields may be empty). -/
def Image.WellFormed (image : Image) : Prop :=
  PlainText image.ID ∧ PlainText image.Name ∧ PlainText image.State ∧
  PlainText image.ReplicationType ∧ PlainText image.ReplicationProgress ∧
  PlainText image.SeedingProgress

instance (s : String) : Decidable (PlainText s) := by
  unfold PlainText
  infer_instance

instance (image : Image) : Decidable image.WellFormed := by
  unfold Image.WellFormed
  infer_instance

/-- The seven script fields of an image, in the documented order. -/
def imageFields (image : Image) : List String :=
  [image.ID, image.Name, image.State, toString image.Size, image.ReplicationType,
    image.ReplicationProgress, image.SeedingProgress]

/-! ## Tokens -/

/-- The dot-separated segments of an encoded token. -/
def segments (token : String) : List String :=
  (token.toList.splitOn '.').map String.mk

/-- The header segment of an encoded token: the first one. -/
def headerSegment (token : String) : String :=
  (segments token).getD 0 ""

/-- The payload segment of an encoded token: the second one. -/
def payloadSegment (token : String) : String :=
  (segments token).getD 1 ""

/-- Modelled from the spec: `lightwave.ParseTokenDetails`, of the vendored SDK,
is not among the sources.  The spec (data model, JWT token) says that a token
is three dot-separated Base64 segments (header, payload, signature), that only
header and payload are decoded into the structure {Subject, Groups, IssuedAt,
Expires}, and that the signature is never validated or displayed.  `decode`
stands for the Base64 and JSON decoding of the two segments. -/
def specParseTokenDetails (decode : String → String → JWTToken) (token : String) : JWTToken :=
  decode (headerSegment token) (payloadSegment token)

/-- Modelled from the spec: `lightwave.ParseRawTokenDetails`, of the vendored
SDK, is not among the sources.  The spec (response renderer, error handling,
testable properties) says that the raw variant shows the decoded JSON of the
segments, that the signature segment is never decoded or shown, and that a
token with a non-Base64 or non-JSON segment is a `MalformedToken` (a JWT decode
failure).  `base64Decode` and `validJSON` stand for the two library checks; on
a failure no string is returned with the error. -/
def specParseRawTokenDetails (base64Decode : String → Option String)
    (validJSON : String → Bool) (token : String) : List String × Option Err :=
  match base64Decode (headerSegment token), base64Decode (payloadSegment token) with
  | some header, some payload =>
    if validJSON header && validJSON payload then ([header, payload], none)
    else ([], some ⟨"MalformedToken"⟩)
  | _, _ => ([], some ⟨"MalformedToken"⟩)

/-- The groups text of the human summary of a token. -/
def groupsText (jwtToken : JWTToken) : String :=
  match jwtToken.Groups with
  | none => "<none>"
  | some groups => ", ".intercalate groups

/-! ## The three renderings -/

/-- The commands that render an entity or a list in one of three modes. -/
inductive RenderCommand where
  | showHost | showTenant | showImage | listTenants | listImages | getTenant
  deriving DecidableEq, Repr

/-- The source function of a rendering command. -/
def RenderCommand.run : RenderCommand → World → Context → Run Unit
  | .showHost => Photon.showHost
  | .showTenant => Photon.showTenant
  | .showImage => Photon.showImage
  | .listTenants => Photon.listTenants
  | .listImages => Photon.listImages
  | .getTenant => Photon.getTenant

/-- The object a rendering command can be given by its collaborators. -/
def RenderCommand.Receives (cmd : RenderCommand) (W : World) (c : Context) (o : Obj) : Prop :=
  match cmd with
  | .showHost => ∃ host, W.hostsGet c.first = .ok host ∧ o = .host host
  | .showTenant => ∃ tenant, W.tenantsGet c.first = .ok tenant ∧ o = .tenant tenant
  | .showImage => ∃ id image, W.imagesGet id = .ok image ∧ o = .image image
  | .listTenants => ∃ tenants, W.tenantsGetAll = .ok tenants ∧ o = .tenants tenants
  | .listImages => ∃ images, W.imagesGetAll (c.stringFlag "name") = .ok images ∧ o = .images images
  | .getTenant => ∃ config tenant, W.loadConfig = .ok config ∧ config.Tenant = some tenant ∧
      o = .tenantConfiguration tenant

/-- What the source prints on standard output for an object in its
non-interactive branch, by its own lines and rows. -/
def scriptRendering : Obj → List Event
  | .host host => [.stdout (hostScriptLine host)]
  | .tenant tenant => [.stdout (tenantScriptLine tenant)]
  | .image image => [.stdout (imageScriptLine image)]
  | .tenants tenants => tenants.map fun tenant => .stdout (tenantRow tenant)
  | .images images => images.map fun image => .stdout (imageRow image)
  | .tenantConfiguration tenant => [.stdout (tenant.ID ++ "\t" ++ tenant.Name ++ "\n")]

/-- What the source does for an object in its format-override branch: one call
of `utils.FormatObject` / `FormatObjects`. -/
def structuredRendering (o : Obj) : List Event :=
  [.formatObject o]

/-- What the source prints for an object in its last branch, by its own report
lines: a report, or a table handed to the table writer and a footer. -/
def humanRendering : Obj → List Event
  | .host host => (hostReport host).map .stdout
  | .tenant tenant => (tenantReport tenant).map .stdout
  | .image image => (imageReport image).map .stdout
  | .tenants tenants =>
    [ .tabFlush ("ID\tName\n" ++ String.join (tenants.map tenantRow)),
      .stdout ("\nTotal: " ++ toString tenants.length ++ "\n") ]
  | .images images =>
    [ .tabFlush (imageHeader ++ String.join (images.map imageRow)),
      .stdout ("\nTotal: " ++ toString images.length ++ "\n") ]
  | .tenantConfiguration tenant =>
    [.stdout ("Current tenant is '" ++ tenant.Name ++ "' with ID " ++ tenant.ID ++ "\n")]

/-- The branch the source takes by the two flags: the non-interactive branch
when non-interactive is set, else the format-override branch when the format
override is set, else the last branch. -/
def selectedRendering (nonInteractive formatOverride : Bool) (o : Obj) : List Event :=
  if nonInteractive then scriptRendering o
  else if formatOverride then structuredRendering o
  else humanRendering o

/-! ## All commands -/

/-- The commands of the auth, host, image and tenant families. -/
inductive Command where
  | showAuth | showLoginToken | getApiTokens | createHost | deleteHost | listHosts | showHost
  | setHostAvailabilityZone | getHostTasks | listHostVMs | suspendHost | resumeHost
  | enterMaintenanceMode | exitMaintenanceMode | createImage | deleteImage | listImages
  | showImage | getImageTasks | createTenant | listTenants | deleteTenant | showTenant
  | setTenant | getTenant | getTenantTasks | setSecurityGroups
  deriving DecidableEq, Repr

/-- The source function of a command; `showLoginToken` is `showLoginTokenWriter` with the
nil configuration, as the command table calls it. -/
def Command.run : Command → World → Context → Run Unit
  | .showAuth => Photon.showAuth
  | .showLoginToken => fun W c => Photon.showLoginTokenWriter W c none
  | .getApiTokens => Photon.getApiTokens
  | .createHost => Photon.createHost
  | .deleteHost => Photon.deleteHost
  | .listHosts => Photon.listHosts
  | .showHost => Photon.showHost
  | .setHostAvailabilityZone => Photon.setHostAvailabilityZone
  | .getHostTasks => Photon.getHostTasks
  | .listHostVMs => Photon.listHostVMs
  | .suspendHost => Photon.suspendHost
  | .resumeHost => Photon.resumeHost
  | .enterMaintenanceMode => Photon.enterMaintenanceMode
  | .exitMaintenanceMode => Photon.exitMaintenanceMode
  | .createImage => Photon.createImage
  | .deleteImage => Photon.deleteImage
  | .listImages => Photon.listImages
  | .showImage => Photon.showImage
  | .getImageTasks => Photon.getImageTasks
  | .createTenant => Photon.createTenant
  | .listTenants => Photon.listTenants
  | .deleteTenant => Photon.deleteTenant
  | .showTenant => Photon.showTenant
  | .setTenant => Photon.setTenant
  | .getTenant => Photon.getTenant
  | .getTenantTasks => Photon.getTenantTasks
  | .setSecurityGroups => Photon.setSecurityGroups

/-- The number of positional arguments in the usage string of a command. -/
def Command.usageArgs : Command → Nat
  | .showAuth => 0
  | .showLoginToken => 0
  | .getApiTokens => 0
  | .createHost => 0
  | .deleteHost => 1
  | .listHosts => 0
  | .showHost => 1
  | .setHostAvailabilityZone => 2
  | .getHostTasks => 1
  | .listHostVMs => 1
  | .suspendHost => 1
  | .resumeHost => 1
  | .enterMaintenanceMode => 1
  | .exitMaintenanceMode => 1
  | .createImage => 1
  | .deleteImage => 1
  | .listImages => 0
  | .showImage => 1
  | .getImageTasks => 1
  | .createTenant => 1
  | .listTenants => 0
  | .deleteTenant => 1
  | .showTenant => 1
  | .setTenant => 1
  | .getTenant => 0
  | .getTenantTasks => 1
  | .setSecurityGroups => 2

/-! ## Sample collaborators -/

/-- Two images: a complete one and one whose optional fields are empty. -/
def sampleImages : List Image :=
  [⟨"i1", "img", "READY", 10, "EAGER", "100%", "100%", []⟩, ⟨"i2", "", "", 0, "", "", "", []⟩]

/-- A world in which every collaborator succeeds: the remote holds the tenants
`1` and `2`, the images `i1` and `i2` and one deployment; every task is `t1`
and completes on the entity `e1`. -/
def sampleWorld : World where
  checkArgNum := fun args num _ => if args.length = num then none else some ⟨"wrong argument count"⟩
  isNonInteractive := fun c => c.nonInteractiveSet
  needsFormatting := fun c => c.stringFlag "output" ≠ ""
  askForInput := fun _ value => .ok value
  confirmed := fun _ => true
  getClient := fun _ => none
  waitOnTaskOperation := fun _ => .ok "e1"
  task := fun _ => .ok ⟨"t1"⟩
  authGet := .ok ⟨true, "10.0.0.1", 443⟩
  authGetTokensByPassword := fun _ _ => .ok ⟨"access", "refresh"⟩
  deploymentsGetAll := .ok [⟨"d1"⟩]
  deploymentsGetHosts := fun _ => .ok []
  hostsGet := fun id => .ok ⟨id, "root", "pw", "10.0.0.2", ["CLOUD"], "READY", [], "z1", "6.0"⟩
  hostsGetVMs := fun _ => .ok []
  imagesGetAll := fun _ => .ok sampleImages
  imagesGet := fun id => .ok ⟨id, "img", "READY", 10, "EAGER", "100%", "100%", []⟩
  tenantsGetAll := .ok [⟨"1", "a", []⟩, ⟨"2", "b", []⟩]
  tenantsGet := fun id => .ok ⟨id, "a", []⟩
  getTasks := fun _ => .ok []
  printHostList := fun _ => none
  printVMList := fun _ => none
  printTaskList := fun _ => none
  tabFlush := fun _ => none
  jsonUnmarshal := fun _ => .ok []
  filepathAbs := fun path => .ok path
  osStat := fun _ => none
  osOpen := fun path => .ok path
  fileClose := fun _ => none
  loadConfig := .ok ⟨"", some ⟨"a", "1"⟩⟩
  saveConfig := fun _ => none
  clearConfigTenant := fun _ => none
  clearConfigProject := fun _ => none
  findTenantID := fun _ => ("1", none)
  parseTokenDetails := fun _ => ⟨"admin", some ["g1", "g2"], 1, 2⟩
  parseRawTokenDetails := fun _ => ([], none)
  jsonIndent := fun text => some text
  timestampToString := fun t => toString t

/-- The sample world, except that every wait on a task fails with `disk full`. -/
def failedWaitWorld : World :=
  { sampleWorld with waitOnTaskOperation := fun _ => .error ⟨"disk full"⟩ }

/-- An invocation with the given arguments, non-interactive flag and value of
the `output` flag, every other flag being unset. -/
def sampleContext (args : List String) (nonInteractive : Bool) (output : String) : Context where
  args := args
  nonInteractiveSet := nonInteractive
  stringFlag := fun name => if name = "output" then output else ""
  boolFlag := fun _ => false

/-- A Base64 decoder that knows two segments: `e30` is `{}` and `bm8` is `no`. -/
def sampleBase64 (segment : String) : Option String :=
  if segment = "e30" then some "{}"
  else if segment = "bm8" then some "no"
  else none

/-- A JSON check that accepts the text `{}` only. -/
def sampleValidJSON (text : String) : Bool :=
  text = "{}"

/-- A token decoder that knows one payload: `e30` is the subject `admin` with
the groups `g1` and `g2`. -/
def sampleDecode (_header payload : String) : JWTToken :=
  if payload = "e30" then ⟨"admin", some ["g1", "g2"], 1, 2⟩ else ⟨"", none, 0, 0⟩

/-- The sample world with the token parsers modelled from the spec. -/
def tokenWorld : World :=
  { sampleWorld with
    parseTokenDetails := specParseTokenDetails sampleDecode
    parseRawTokenDetails := specParseRawTokenDetails sampleBase64 sampleValidJSON
    jsonIndent := fun text => if sampleValidJSON text then some text else none }

/-- A non-interactive invocation of `auth get-api-tokens` with the user name
`u@t` and the password `pw`. -/
def credentialsContext : Context where
  args := []
  nonInteractiveSet := true
  stringFlag := fun name =>
    if name = "username" then "u@t" else if name = "password" then "pw" else ""
  boolFlag := fun _ => false

/-! ## Runs that only dump -/

/-- A run without output event. -/
def Silent {α : Type} (x : Run α) : Prop :=
  ∀ ev ∈ x.trace, ev.isOutput = false

/-- A run whose output, when it returns normally, is exactly one structured
dump, of an object of the kind `K`. -/
def DumpsOnly {α : Type} (K : Obj → Prop) (x : Run α) : Prop :=
  ∀ a, x.result = .ok a → ∃ o, K o ∧ outputEvents x.trace = [.formatObject o]

/-! ## Comma-separated names -/

/-- A name of a comma-separated list: not empty, without comma and without
white space. -/
def IsListName (s : String) : Prop :=
  s ≠ "" ∧ ∀ ch ∈ s.toList, ch ≠ ',' ∧ isSpace ch = false

/-- A text made of white space only (possibly empty). -/
def IsBlank (s : String) : Prop :=
  ∀ ch ∈ s.toList, isSpace ch = true

instance (s : String) : Decidable (IsListName s) := by
  unfold IsListName
  infer_instance

instance (s : String) : Decidable (IsBlank s) := by
  unfold IsBlank
  infer_instance

/-- One more name of a comma-separated list, with the white space written
before and after the comma that precedes it. -/
structure SpacedName where
  before : String
  after : String
  name : String

/-- The names `first`, then `rest`, joined by commas that are surrounded by the
given white space. -/
def joinWithCommas (first : String) (rest : List SpacedName) : String :=
  first ++ String.join (rest.map fun r => r.before ++ "," ++ r.after ++ r.name)

/-! ## Hosts for scripts -/

/-- A text without tab, newline, space and square bracket. -/
def CleanText (s : String) : Prop :=
  ∀ ch ∈ s.toList, ch ≠ '\t' ∧ ch ≠ '\n' ∧ ch ≠ ' ' ∧ ch ≠ '[' ∧ ch ≠ ']'

/-- A host whose string fields, tags and metadata keys and values are clean. -/
def Host.Clean (host : Host) : Prop :=
  CleanText host.ID ∧ CleanText host.Username ∧ CleanText host.Password ∧
  CleanText host.Address ∧ CleanText host.State ∧ CleanText host.AvailabilityZone ∧
  CleanText host.EsxVersion ∧
  (∀ tag ∈ host.Tags, CleanText tag) ∧
  (∀ kv ∈ host.Metadata, CleanText kv.1 ∧ CleanText kv.2)

instance (s : String) : Decidable (CleanText s) := by
  unfold CleanText
  infer_instance

instance (host : Host) : Decidable host.Clean := by
  unfold Host.Clean
  infer_instance

/-- The nine script fields of a host, in the documented order: the tags joined
by commas, the metadata as `key:value` pairs joined by commas. -/
def hostFields (host : Host) : List String :=
  [ host.ID, host.Username, host.Password, host.Address,
    ",".intercalate host.Tags,
    host.State,
    ",".intercalate (host.Metadata.map fun kv => kv.1 ++ ":" ++ kv.2),
    host.AvailabilityZone, host.EsxVersion ]

/-- A clean host with two tags and two metadata entries. -/
def managementHost : Host :=
  ⟨"h9", "root", "pw", "10.0.0.9", ["CLOUD", "MGMT"], "READY",
    [("a", "b"), ("dns", "10.0.0.1")], "z1", "6.0"⟩

/-- The sample world, its remote holding the management host under every ID. -/
def managementWorld : World :=
  { sampleWorld with hostsGet := fun _ => .ok managementHost }

/-! ## The wait on a task -/

/-- Modelled from the spec: the state of a task.  `waitOnTaskOperation` and the
task type it polls are not among the sources; the spec (data model, Task) lists
the states QUEUED, STARTED, COMPLETED, ERROR "plus any transitional states the
remote defines". -/
inductive TaskState where
  | queued
  | started
  | completed
  | error
  | transitional (name : String)
  deriving DecidableEq, Repr

/-- Modelled from the spec: what one status query reads of a task (data model,
Task): its state, the associated entity identifier and the optional error
detail (empty when there is none). -/
structure TaskStatus where
  state : TaskState
  entityID : String
  detail : String
  deriving DecidableEq, Repr

/-- Modelled from the spec: the poll policy, "an explicit configuration struct
{interval, deadline}" (section on reimplementation notes), both in the same unit
of time. -/
structure PollPolicy where
  interval : Nat
  deadline : Nat
  deriving DecidableEq, Repr

/-- Modelled from the spec: the error kinds the wait can fail with (error
handling): `OperationFailed` carries the remote detail string, `PollTimeout`
the local wait exceeding the deadline, `RemoteUnavailable` a failed status
query. -/
inductive WaitError where
  | operationFailed (detail : String)
  | pollTimeout
  | remoteUnavailable (cause : Err)
  deriving DecidableEq, Repr

/-- Modelled from the spec: what the wait does that is visible outside of it: a
status query for the task, and a sleep between two queries. -/
inductive WaitEvent where
  | query (taskID : String)
  | sleep (duration : Nat)
  deriving DecidableEq, Repr

/-- Modelled from the spec: the answer `(entityID, error)` of the wait, with
the queries and sleeps that led to it, in order. -/
structure WaitOutcome where
  events : List WaitEvent
  entityID : String
  error : Option WaitError
  deriving DecidableEq, Repr

/-- The event is a status query. -/
def WaitEvent.isQuery : WaitEvent → Bool
  | .query _ => true
  | .sleep _ => false

/-- The number of status queries among the events. -/
def queryCount (events : List WaitEvent) : Nat :=
  (events.filter WaitEvent.isQuery).length

/-- The answer to a status query shows a task that is not terminal: the query
succeeded and the state is neither COMPLETED nor ERROR. -/
def pending : Except Err TaskStatus → Bool
  | .ok status => status.state != .completed && status.state != .error
  | .error _ => false

/-- Modelled from the spec: the polling loop of `waitOnTaskOperation`, which is
not among the sources.  Section 4.1 of the spec: "issue a status query for
taskID; if state is terminal-success, return the entity identifier recorded on
the task; if terminal-error, fail with `OperationFailed` carrying the
remote-supplied error detail; if non-terminal, sleep for the poll interval and
repeat", "if the deadline elapses while still non-terminal, fail with
`PollTimeout`", and a failed status query aborts immediately with
`RemoteUnavailable`.

`tasksGet taskID n` is the answer of the remote to the status query number `n`
(counted from 0).  Time passes in the sleeps only: before query number `n` the
wait has slept `n` times, so `n * interval` has elapsed, and the deadline has
elapsed once that exceeds `deadline`.  The first argument bounds the number of
queries: `none` says that the loop has not returned within that many. -/
def specWaitLoop (tasksGet : String → Nat → Except Err TaskStatus) (taskID : String)
    (policy : PollPolicy) : Nat → Nat → Option WaitOutcome
  | 0, _ => none
  | fuel + 1, n =>
    match tasksGet taskID n with
    | .error e => some ⟨[.query taskID], "", some (.remoteUnavailable e)⟩
    | .ok status =>
      if status.state = .completed then
        some ⟨[.query taskID], status.entityID, none⟩
      else if status.state = .error then
        some ⟨[.query taskID], "", some (.operationFailed status.detail)⟩
      else if policy.deadline < (n + 1) * policy.interval then
        some ⟨[.query taskID, .sleep policy.interval], "", some .pollTimeout⟩
      else
        (specWaitLoop tasksGet taskID policy fuel (n + 1)).map fun r =>
          { r with events := .query taskID :: .sleep policy.interval :: r.events }

/-- Modelled from the spec: `wait(taskID, pollPolicy) -> (entityID, error)`, the
polling loop from its first query, given the number of queries it may take. -/
def specWaitOnTaskOperation (tasksGet : String → Nat → Except Err TaskStatus)
    (taskID : String) (policy : PollPolicy) (fuel : Nat) : Option WaitOutcome :=
  specWaitLoop tasksGet taskID policy fuel 0

/-- The events of `k` polls that found the task not terminal: a query and a
sleep each. -/
def polls (taskID : String) (interval : Nat) : Nat → List WaitEvent
  | 0 => []
  | k + 1 => .query taskID :: .sleep interval :: polls taskID interval k

/-- The remote of the first scenario: task `t1` is STARTED at the first two
queries and COMPLETED with entity `e1` from the third on. -/
def startedTwice : String → Nat → Except Err TaskStatus :=
  fun _ n => if n < 2 then .ok ⟨.started, "", ""⟩ else .ok ⟨.completed, "e1", ""⟩

/-- The remote of the second scenario: the task is in ERROR with the detail
`disk full` at every query. -/
def diskFull : String → Nat → Except Err TaskStatus :=
  fun _ _ => .ok ⟨.error, "", "disk full"⟩

/-- A remote whose task stays QUEUED for ever. -/
def neverDone : String → Nat → Except Err TaskStatus :=
  fun _ _ => .ok ⟨.queued, "", ""⟩

/-- A poll policy: an interval of 2 and a deadline of 7 units of time. -/
def samplePolicy : PollPolicy :=
  ⟨2, 7⟩

/-- An invocation of `auth show-login-token` with no argument, the given
non-interactive flag and the given `raw` flag. -/
def tokenContext (nonInteractive raw : Bool) : Context where
  args := []
  nonInteractiveSet := nonInteractive
  stringFlag := fun _ => ""
  boolFlag := fun name => if name = "raw" then raw else false

/-- The event writes to the persisted configuration: `SaveConfig`,
`clearConfigTenant`, `clearConfigProject`. -/
def Event.touchesConfig : Event → Bool
  | .saveConfig _ => true
  | .clearConfigTenant _ => true
  | .clearConfigProject _ => true
  | _ => false

/-- How `deleteTenant` gets to its last step: the argument check, the client,
`Tenants.Delete` of the first argument and the wait on its task all succeed. -/
def DeleteConfirmed (W : World) (c : Context) : Prop :=
  W.checkArgNum c.args 1 "tenant delete <id>" = none ∧
  W.getClient (W.isNonInteractive c) = none ∧
  ∃ task entity, W.task (.tenantsDelete c.first) = .ok task ∧
    W.waitOnTaskOperation task.ID = .ok entity

/-- The sample world, except that the lookup of a tenant by name finds nothing
and reports no error: `findTenantID` returns the empty id and nil. -/
def emptyLookupWorld : World :=
  { sampleWorld with findTenantID := fun _ => ("", none) }

/-- A tag name: without comma and without white space (possibly empty). -/
def IsTagName (s : String) : Prop :=
  ∀ ch ∈ s.toList, ch ≠ ',' ∧ isSpace ch = false

instance (s : String) : Decidable (IsTagName s) := by
  unfold IsTagName
  infer_instance

/-- The tag string `createHost` splits: the `tag` flag in non-interactive mode,
the answer to the prompt for the tags otherwise. -/
def IsTagInput (W : World) (c : Context) (tags : String) : Prop :=
  (W.isNonInteractive c = true → tags = c.stringFlag "tag") ∧
  (W.isNonInteractive c = false →
    W.askForInput "Host Tags (Options [CLOUD,MGMT]. ',' separated): " (c.stringFlag "tag")
      = .ok tags)

/-- The sample world, except that the token parser finds the subject `admin`
with a list of groups that is empty but not nil (the JSON `"groups": []`). -/
def emptyGroupsWorld : World :=
  { sampleWorld with parseTokenDetails := fun _ => ⟨"admin", some [], 1, 2⟩ }

/-- The sample world, except that the token parser finds a subject of two
lines, `ad` and `min`, and no groups. -/
def newlineSubjectWorld : World :=
  { sampleWorld with parseTokenDetails := fun _ => ⟨"ad\nmin", none, 1, 2⟩ }

/-! ## The three renderings, in the words of the spec -/

/-- Spec side (response renderer, "a fixed, documented ordered list of
fields"): what is asked of one field of a script line, or of the value of one
line of a report: `some v` where the field selection fixes the text `v`, `none`
for a composite value (the tags and the metadata of a host, a size with its
unit) whose text is left open. -/
def FieldMatches (pattern : Option String) (text : String) : Prop :=
  ∀ v, pattern = some v → text = v

/-- Spec side: the fields of one record match, one by one and in order. -/
def RecordMatches (pattern : List (Option String)) (fields : List String) : Prop :=
  List.Forall₂ FieldMatches pattern fields

/-- Spec side: one tab-separated line: the fields joined by tabs, then a newline. -/
def recordLine (fields : List String) : String :=
  "\t".intercalate fields ++ "\n"

/-- Spec side: the records of an object, one per entity, each with its fields
in order: the identifier first, then the attributes. -/
def scriptRecords : Obj → List (List (Option String))
  | .host host =>
    [[ some host.ID, some host.Username, some host.Password, some host.Address, none,
       some host.State, none, some host.AvailabilityZone, some host.EsxVersion ]]
  | .tenant tenant =>
    [[ some tenant.ID, some tenant.Name,
       some (",".intercalate
        (tenant.SecurityGroups.map fun s => s.Name ++ ":" ++ toString s.Inherited)) ]]
  | .image image =>
    [[ some image.ID, some image.Name, some image.State, some (toString image.Size),
       some image.ReplicationType, some image.ReplicationProgress, some image.SeedingProgress,
       some (",".intercalate (image.Settings.map fun s => s.Name ++ ":" ++ s.DefaultValue)) ]]
  | .tenants tenants => tenants.map fun tenant => [some tenant.ID, some tenant.Name]
  | .images images => images.map fun image =>
    [ some image.ID, some image.Name, some image.State, some (toString image.Size),
      some image.ReplicationType, some image.ReplicationProgress, some image.SeedingProgress ]
  | .tenantConfiguration tenant => [[some tenant.ID, some tenant.Name]]

/-- Spec side, script mode: "exactly one tab-separated line per entity
containing a fixed, documented ordered list of fields.  No header row, no
summary line": the output is one printed record line per entity and nothing
else. -/
def IsScriptRendering (o : Obj) (out : List Event) : Prop :=
  ∃ records, List.Forall₂ RecordMatches (scriptRecords o) records ∧
    out = records.map fun fields => Event.stdout (recordLine fields)

/-- Spec side, structured-format mode: "serialize the entity/list faithfully":
the output is the one structured dump of the object. -/
def IsStructuredRendering (o : Obj) (out : List Event) : Prop :=
  out = [.formatObject o]

/-- Spec side: one line of a labelled report, "Label: value": a label with a
colon, the value, a newline. -/
def IsLabelledLine (value : Option String) (line : String) : Prop :=
  ∃ label text, ':' ∈ label.toList ∧ FieldMatches value text ∧ line = label ++ text ++ "\n"

/-- Spec side: the values of the report of a single entity, "one Label: value
per attribute", the nested groups after the attributes: each security group of a
tenant is a heading, its name and its inherited flag; the settings of an image
are a heading and one value per setting. -/
def reportValues : Obj → List (Option String)
  | .host host =>
    [ some host.ID, some host.Username, some host.Password, some host.Address, none,
      some host.State, none, some host.AvailabilityZone, some host.EsxVersion ]
  | .tenant tenant =>
    [some tenant.ID, some tenant.Name] ++
      (tenant.SecurityGroups.map fun s => [some "", some s.Name, some (toString s.Inherited)]).flatten
  | .image image =>
    [ some image.ID, some image.Name, some image.State, none, some image.ReplicationType,
      some image.ReplicationProgress, some image.SeedingProgress, some "" ] ++
      image.Settings.map fun s => some s.DefaultValue
  | _ => []

/-- Spec side, interactive mode for lists: "an aligned column table with a
header row and a trailing Total: N count line": the table handed to the table
writer is a header row of named columns and one record per entity, and the text
printed after it ends with the count line. -/
def IsTable (rows : List (List (Option String))) (columns : Nat) (out : List Event) : Prop :=
  ∃ header records pre, header.length = columns ∧ (∀ name ∈ header, name ≠ "") ∧
    List.Forall₂ RecordMatches rows records ∧
    out = [ .tabFlush (recordLine header ++ String.join (records.map recordLine)),
            .stdout (pre ++ "Total: " ++ toString rows.length ++ "\n") ]

/-- Spec side, interactive mode: for a single entity "a multi-line labeled
report", for a list the table with header and count line; the selected tenant
is shown in one sentence that names the tenant and then its identifier. -/
def IsHumanRendering (o : Obj) (out : List Event) : Prop :=
  match o with
  | .tenants tenants => IsTable (scriptRecords (.tenants tenants)) 2 out
  | .images images => IsTable (scriptRecords (.images images)) 7 out
  | .tenantConfiguration tenant =>
    ∃ pre mid, pre ≠ "" ∧ mid ≠ "" ∧
      out = [.stdout (pre ++ tenant.Name ++ mid ++ tenant.ID ++ "\n")]
  | .host host =>
    ∃ lines, List.Forall₂ IsLabelledLine (reportValues (.host host)) lines ∧
      out = lines.map Event.stdout
  | .tenant tenant =>
    ∃ lines, List.Forall₂ IsLabelledLine (reportValues (.tenant tenant)) lines ∧
      out = lines.map Event.stdout
  | .image image =>
    ∃ lines, List.Forall₂ IsLabelledLine (reportValues (.image image)) lines ∧
      out = lines.map Event.stdout

/-! # Theorems -/

theorem Run.bind_def {α β : Type} (x : Run α) (f : α → Run β) :
    (x >>= f) = Run.bind x f := rfl

theorem Run.pure_def {α : Type} (a : α) : (Pure.pure a : Run α) = Run.pure a := rfl

theorem Event.quiet_isWait {ev : Event} (h : ev.quiet = true) : ev.isWait = false := by
  simp only [Event.quiet, Bool.and_eq_true, Bool.not_eq_true'] at h
  exact h.1.1

theorem Event.quiet_isGet {ev : Event} (h : ev.quiet = true) : ev.isGet = false := by
  simp only [Event.quiet, Bool.and_eq_true, Bool.not_eq_true'] at h
  exact h.1.2

theorem Event.quiet_isWriterOutput {ev : Event} (h : ev.quiet = true) :
    ev.isWriterOutput = false := by
  simp only [Event.quiet, Bool.and_eq_true, Bool.not_eq_true'] at h
  exact h.2

theorem quiet_pure {α : Type} (a : α) : Quiet (pure a : Run α) := by
  intro ev h
  simp [Run.pure_def, Run.pure] at h

theorem quiet_runPure {α : Type} (a : α) : Quiet (Run.pure a) := by
  intro ev h
  simp [Run.pure] at h

theorem quiet_fail {α : Type} (e : Err) : Quiet (fail e : Run α) := by
  intro ev h
  simp [fail] at h

theorem quiet_goPanic {α : Type} (m : String) : Quiet (goPanic m : Run α) := by
  intro ev h
  simp [goPanic] at h

theorem quiet_call {α : Type} (ev : Event) (r : Except Err α) (h : ev.quiet = true) :
    Quiet (call ev r) := by
  intro ev' h'
  simp only [call, List.mem_singleton] at h'
  rw [h']
  exact h

theorem quiet_callErr (ev : Event) (r : Option Err) (h : ev.quiet = true) :
    Quiet (callErr ev r) := by
  intro ev' h'
  simp only [callErr, List.mem_singleton] at h'
  rw [h']
  exact h

theorem quiet_emit (ev : Event) (h : ev.quiet = true) : Quiet (emit ev) := by
  intro ev' h'
  simp only [emit, List.mem_singleton] at h'
  rw [h']
  exact h

theorem quiet_bind {α β : Type} {x : Run α} {f : α → Run β}
    (hx : Quiet x) (hf : ∀ a, Quiet (f a)) : Quiet (x >>= f) := by
  intro ev h
  rw [Run.bind_def] at h
  unfold Run.bind at h
  split at h
  · rcases List.mem_append.mp h with h | h
    · exact hx ev h
    · exact hf _ ev h
  · exact hx ev h
  · exact hx ev h

theorem noWait_of_quiet {α : Type} {x : Run α} (h : Quiet x) : NoWait x :=
  fun ev hev => Event.quiet_isWait (h ev hev)

theorem noWait_call {α : Type} (ev : Event) (r : Except Err α) (h : ev.isWait = false) :
    NoWait (call ev r) := by
  intro ev' h'
  simp only [call, List.mem_singleton] at h'
  rw [h']
  exact h

theorem noWait_callErr (ev : Event) (r : Option Err) (h : ev.isWait = false) :
    NoWait (callErr ev r) := by
  intro ev' h'
  simp only [callErr, List.mem_singleton] at h'
  rw [h']
  exact h

theorem noWait_emit (ev : Event) (h : ev.isWait = false) : NoWait (emit ev) := by
  intro ev' h'
  simp only [emit, List.mem_singleton] at h'
  rw [h']
  exact h

theorem noWait_bind {α β : Type} {x : Run α} {f : α → Run β}
    (hx : NoWait x) (hf : ∀ a, NoWait (f a)) : NoWait (x >>= f) := by
  intro ev h
  rw [Run.bind_def] at h
  unfold Run.bind at h
  split at h
  · rcases List.mem_append.mp h with h | h
    · exact hx ev h
    · exact hf _ ev h
  · exact hx ev h
  · exact hx ev h

theorem waitSafe_of_quiet {α : Type} (W : World) {x : Run α} (h : Quiet x) : WaitSafe W x := by
  intro tid e hin _
  have := Event.quiet_isWait (h _ hin)
  simp [Event.isWait] at this

theorem waitSafe_bind {α β : Type} (W : World) {x : Run α} {f : α → Run β}
    (hx : Quiet x) (hf : ∀ a, WaitSafe W (f a)) : WaitSafe W (x >>= f) := by
  intro tid e hin hw
  have hnot : Event.waitOnTaskOperation tid ∉ x.trace := by
    intro hmem
    have := Event.quiet_isWait (hx _ hmem)
    simp [Event.isWait] at this
  rw [Run.bind_def] at hin ⊢
  unfold Run.bind at hin ⊢
  split at hin
  · rename_i a _
    have hfa : Event.waitOnTaskOperation tid ∈ (f a).trace := by
      rcases List.mem_append.mp hin with h | h
      · exact absurd h hnot
      · exact h
    obtain ⟨h1, h2, h3, h4⟩ := hf a tid e hfa hw
    refine ⟨h1, ?_, ?_, ?_⟩
    · rw [List.getLast?_append_of_ne_nil _ (List.ne_nil_of_mem hfa)]
      exact h2
    · intro ev hev
      rcases List.mem_append.mp hev with h | h
      · exact Event.quiet_isGet (hx ev h)
      · exact h3 ev h
    · intro ev hev
      rcases List.mem_append.mp hev with h | h
      · exact Event.quiet_isWriterOutput (hx ev h)
      · exact h4 ev h
  · exact absurd hin hnot
  · exact absurd hin hnot

theorem waitSafe_wait {β : Type} (W : World) (taskID : String) {k : String → Run β}
    (hk : ∀ id, NoWait (k id)) : WaitSafe W (wait W taskID >>= k) := by
  intro tid e hin hw
  rw [Run.bind_def] at hin ⊢
  unfold Run.bind at hin ⊢
  simp only [wait, call] at hin ⊢
  cases hres : W.waitOnTaskOperation taskID with
  | error e' =>
    simp only [hres, List.mem_singleton, Event.waitOnTaskOperation.injEq] at hin ⊢
    subst hin
    rw [hres] at hw
    cases hw
    simp [Event.isGet, Event.isWriterOutput]
  | ok id =>
    simp only [hres, List.singleton_append, List.mem_cons, Event.waitOnTaskOperation.injEq] at hin
    rcases hin with h | h
    · subst h
      rw [hres] at hw
      cases hw
    · have := hk id _ h
      simp [Event.isWait] at this

attribute [irreducible] Quiet NoWait WaitSafe

set_option maxRecDepth 10000 in
theorem createHost_waitSafe (W : World) (c : Context) : WaitSafe W (createHost W c) := by
  unfold createHost createHostPrompts
  repeat (first
    | apply waitSafe_wait
    | apply waitSafe_bind
    | apply noWait_bind
    | apply quiet_bind
    | exact quiet_pure _
    | exact quiet_runPure _
    | exact quiet_fail _
    | exact quiet_goPanic _
    | exact quiet_call _ _ rfl
    | exact quiet_callErr _ _ rfl
    | exact quiet_emit _ rfl
    | exact noWait_call _ _ rfl
    | exact noWait_callErr _ _ rfl
    | exact noWait_emit _ rfl
    | exact noWait_of_quiet (quiet_pure _)
    | exact waitSafe_of_quiet W (quiet_fail _)
    | exact waitSafe_of_quiet W (quiet_pure _)
    | split
    | dsimp only
    | apply waitSafe_of_quiet
    | intro _)

set_option maxRecDepth 10000 in
theorem deleteHost_waitSafe (W : World) (c : Context) : WaitSafe W (deleteHost W c) := by
  unfold deleteHost
  repeat (first
    | apply waitSafe_wait
    | apply waitSafe_bind
    | apply noWait_bind
    | apply quiet_bind
    | exact quiet_pure _
    | exact quiet_runPure _
    | exact quiet_fail _
    | exact quiet_goPanic _
    | exact quiet_call _ _ rfl
    | exact quiet_callErr _ _ rfl
    | exact quiet_emit _ rfl
    | exact noWait_call _ _ rfl
    | exact noWait_callErr _ _ rfl
    | exact noWait_emit _ rfl
    | exact noWait_of_quiet (quiet_pure _)
    | exact waitSafe_of_quiet W (quiet_fail _)
    | exact waitSafe_of_quiet W (quiet_pure _)
    | split
    | dsimp only
    | apply waitSafe_of_quiet
    | intro _)

set_option maxRecDepth 10000 in
theorem setHostAvailabilityZone_waitSafe (W : World) (c : Context) : WaitSafe W (setHostAvailabilityZone W c) := by
  unfold setHostAvailabilityZone secondArg
  repeat (first
    | apply waitSafe_wait
    | apply waitSafe_bind
    | apply noWait_bind
    | apply quiet_bind
    | exact quiet_pure _
    | exact quiet_runPure _
    | exact quiet_fail _
    | exact quiet_goPanic _
    | exact quiet_call _ _ rfl
    | exact quiet_callErr _ _ rfl
    | exact quiet_emit _ rfl
    | exact noWait_call _ _ rfl
    | exact noWait_callErr _ _ rfl
    | exact noWait_emit _ rfl
    | exact noWait_of_quiet (quiet_pure _)
    | exact waitSafe_of_quiet W (quiet_fail _)
    | exact waitSafe_of_quiet W (quiet_pure _)
    | split
    | dsimp only
    | apply waitSafe_of_quiet
    | intro _)

set_option maxRecDepth 10000 in
theorem suspendHost_waitSafe (W : World) (c : Context) : WaitSafe W (suspendHost W c) := by
  unfold suspendHost
  repeat (first
    | apply waitSafe_wait
    | apply waitSafe_bind
    | apply noWait_bind
    | apply quiet_bind
    | exact quiet_pure _
    | exact quiet_runPure _
    | exact quiet_fail _
    | exact quiet_goPanic _
    | exact quiet_call _ _ rfl
    | exact quiet_callErr _ _ rfl
    | exact quiet_emit _ rfl
    | exact noWait_call _ _ rfl
    | exact noWait_callErr _ _ rfl
    | exact noWait_emit _ rfl
    | exact noWait_of_quiet (quiet_pure _)
    | exact waitSafe_of_quiet W (quiet_fail _)
    | exact waitSafe_of_quiet W (quiet_pure _)
    | split
    | dsimp only
    | apply waitSafe_of_quiet
    | intro _)

set_option maxRecDepth 10000 in
theorem resumeHost_waitSafe (W : World) (c : Context) : WaitSafe W (resumeHost W c) := by
  unfold resumeHost
  repeat (first
    | apply waitSafe_wait
    | apply waitSafe_bind
    | apply noWait_bind
    | apply quiet_bind
    | exact quiet_pure _
    | exact quiet_runPure _
    | exact quiet_fail _
    | exact quiet_goPanic _
    | exact quiet_call _ _ rfl
    | exact quiet_callErr _ _ rfl
    | exact quiet_emit _ rfl
    | exact noWait_call _ _ rfl
    | exact noWait_callErr _ _ rfl
    | exact noWait_emit _ rfl
    | exact noWait_of_quiet (quiet_pure _)
    | exact waitSafe_of_quiet W (quiet_fail _)
    | exact waitSafe_of_quiet W (quiet_pure _)
    | split
    | dsimp only
    | apply waitSafe_of_quiet
    | intro _)

set_option maxRecDepth 10000 in
theorem enterMaintenanceMode_waitSafe (W : World) (c : Context) : WaitSafe W (enterMaintenanceMode W c) := by
  unfold enterMaintenanceMode
  repeat (first
    | apply waitSafe_wait
    | apply waitSafe_bind
    | apply noWait_bind
    | apply quiet_bind
    | exact quiet_pure _
    | exact quiet_runPure _
    | exact quiet_fail _
    | exact quiet_goPanic _
    | exact quiet_call _ _ rfl
    | exact quiet_callErr _ _ rfl
    | exact quiet_emit _ rfl
    | exact noWait_call _ _ rfl
    | exact noWait_callErr _ _ rfl
    | exact noWait_emit _ rfl
    | exact noWait_of_quiet (quiet_pure _)
    | exact waitSafe_of_quiet W (quiet_fail _)
    | exact waitSafe_of_quiet W (quiet_pure _)
    | split
    | dsimp only
    | apply waitSafe_of_quiet
    | intro _)

set_option maxRecDepth 10000 in
theorem exitMaintenanceMode_waitSafe (W : World) (c : Context) : WaitSafe W (exitMaintenanceMode W c) := by
  unfold exitMaintenanceMode
  repeat (first
    | apply waitSafe_wait
    | apply waitSafe_bind
    | apply noWait_bind
    | apply quiet_bind
    | exact quiet_pure _
    | exact quiet_runPure _
    | exact quiet_fail _
    | exact quiet_goPanic _
    | exact quiet_call _ _ rfl
    | exact quiet_callErr _ _ rfl
    | exact quiet_emit _ rfl
    | exact noWait_call _ _ rfl
    | exact noWait_callErr _ _ rfl
    | exact noWait_emit _ rfl
    | exact noWait_of_quiet (quiet_pure _)
    | exact waitSafe_of_quiet W (quiet_fail _)
    | exact waitSafe_of_quiet W (quiet_pure _)
    | split
    | dsimp only
    | apply waitSafe_of_quiet
    | intro _)

set_option maxRecDepth 10000 in
theorem createTenant_waitSafe (W : World) (c : Context) : WaitSafe W (createTenant W c) := by
  unfold createTenant
  repeat (first
    | apply waitSafe_wait
    | apply waitSafe_bind
    | apply noWait_bind
    | apply quiet_bind
    | exact quiet_pure _
    | exact quiet_runPure _
    | exact quiet_fail _
    | exact quiet_goPanic _
    | exact quiet_call _ _ rfl
    | exact quiet_callErr _ _ rfl
    | exact quiet_emit _ rfl
    | exact noWait_call _ _ rfl
    | exact noWait_callErr _ _ rfl
    | exact noWait_emit _ rfl
    | exact noWait_of_quiet (quiet_pure _)
    | exact waitSafe_of_quiet W (quiet_fail _)
    | exact waitSafe_of_quiet W (quiet_pure _)
    | split
    | dsimp only
    | apply waitSafe_of_quiet
    | intro _)

set_option maxRecDepth 10000 in
theorem deleteTenant_waitSafe (W : World) (c : Context) : WaitSafe W (deleteTenant W c) := by
  unfold deleteTenant
  repeat (first
    | apply waitSafe_wait
    | apply waitSafe_bind
    | apply noWait_bind
    | apply quiet_bind
    | exact quiet_pure _
    | exact quiet_runPure _
    | exact quiet_fail _
    | exact quiet_goPanic _
    | exact quiet_call _ _ rfl
    | exact quiet_callErr _ _ rfl
    | exact quiet_emit _ rfl
    | exact noWait_call _ _ rfl
    | exact noWait_callErr _ _ rfl
    | exact noWait_emit _ rfl
    | exact noWait_of_quiet (quiet_pure _)
    | exact waitSafe_of_quiet W (quiet_fail _)
    | exact waitSafe_of_quiet W (quiet_pure _)
    | split
    | dsimp only
    | apply waitSafe_of_quiet
    | intro _)

set_option maxRecDepth 10000 in
theorem setSecurityGroups_waitSafe (W : World) (c : Context) : WaitSafe W (setSecurityGroups W c) := by
  unfold setSecurityGroups secondArg
  repeat (first
    | apply waitSafe_wait
    | apply waitSafe_bind
    | apply noWait_bind
    | apply quiet_bind
    | exact quiet_pure _
    | exact quiet_runPure _
    | exact quiet_fail _
    | exact quiet_goPanic _
    | exact quiet_call _ _ rfl
    | exact quiet_callErr _ _ rfl
    | exact quiet_emit _ rfl
    | exact noWait_call _ _ rfl
    | exact noWait_callErr _ _ rfl
    | exact noWait_emit _ rfl
    | exact noWait_of_quiet (quiet_pure _)
    | exact waitSafe_of_quiet W (quiet_fail _)
    | exact waitSafe_of_quiet W (quiet_pure _)
    | split
    | dsimp only
    | apply waitSafe_of_quiet
    | intro _)

set_option maxRecDepth 10000 in
theorem quiet_createImagePrompts (W : World) (c : Context) (path : String) :
    Quiet (createImagePrompts W c path) := by
  unfold createImagePrompts
  split
  · apply quiet_bind
    · exact quiet_call _ _ rfl
    · intro name
      apply quiet_bind
      · exact quiet_call _ _ rfl
      · intro replicationType
        exact quiet_runPure _
  · exact quiet_runPure _

set_option maxRecDepth 10000 in
theorem createImageUpload_waitSafe (W : World) (c : Context) (path : String) :
    WaitSafe W (createImageUpload W c path) := by
  unfold createImageUpload
  apply waitSafe_bind
  · exact quiet_call _ _ rfl
  intro path
  apply waitSafe_bind
  · exact quiet_emit _ rfl
  intro _
  split
  · exact waitSafe_of_quiet W (quiet_fail _)
  apply waitSafe_bind
  · exact quiet_createImagePrompts W c path
  intro r
  repeat (first
    | apply waitSafe_wait
    | apply waitSafe_bind
    | apply noWait_bind
    | apply quiet_bind
    | exact quiet_pure _
    | exact quiet_runPure _
    | exact quiet_fail _
    | exact quiet_goPanic _
    | exact quiet_call _ _ rfl
    | exact quiet_callErr _ _ rfl
    | exact quiet_emit _ rfl
    | exact noWait_call _ _ rfl
    | exact noWait_callErr _ _ rfl
    | exact noWait_emit _ rfl
    | exact noWait_of_quiet (quiet_pure _)
    | exact waitSafe_of_quiet W (quiet_fail _)
    | exact waitSafe_of_quiet W (quiet_pure _)
    | split
    | dsimp only
    | apply waitSafe_of_quiet
    | intro _)

set_option maxRecDepth 10000 in
theorem createImage_waitSafe (W : World) (c : Context) : WaitSafe W (createImage W c) := by
  unfold createImage
  split
  · exact waitSafe_of_quiet W (quiet_fail _)
  apply waitSafe_bind
  · split
    · exact quiet_call _ _ rfl
    · exact quiet_runPure _
  intro path
  split
  · exact waitSafe_of_quiet W (quiet_fail _)
  · exact createImageUpload_waitSafe W c path

set_option maxRecDepth 10000 in
theorem deleteImage_waitSafe (W : World) (c : Context) : WaitSafe W (deleteImage W c) := by
  unfold deleteImage
  repeat (first
    | apply waitSafe_wait
    | apply waitSafe_bind
    | apply noWait_bind
    | apply quiet_bind
    | exact quiet_pure _
    | exact quiet_runPure _
    | exact quiet_fail _
    | exact quiet_goPanic _
    | exact quiet_call _ _ rfl
    | exact quiet_callErr _ _ rfl
    | exact quiet_emit _ rfl
    | exact noWait_call _ _ rfl
    | exact noWait_callErr _ _ rfl
    | exact noWait_emit _ rfl
    | exact noWait_of_quiet (quiet_pure _)
    | exact waitSafe_of_quiet W (quiet_fail _)
    | exact waitSafe_of_quiet W (quiet_pure _)
    | split
    | dsimp only
    | apply waitSafe_of_quiet
    | intro _)

theorem WaitSafe.out {α : Type} {W : World} {x : Run α} (h : WaitSafe W x) :
    ∀ tid e, Event.waitOnTaskOperation tid ∈ x.trace → W.waitOnTaskOperation tid = .error e →
    x.result = .error e ∧
    x.trace.getLast? = some (.waitOnTaskOperation tid) ∧
    (∀ ev ∈ x.trace, ev.isGet = false) ∧
    (∀ ev ∈ x.trace, ev.isWriterOutput = false) := by
  unfold WaitSafe at h
  exact h

theorem mutatingCommand_waitSafe (cmd : MutatingCommand) (W : World) (c : Context) :
    WaitSafe W (cmd.run W c) := by
  cases cmd
  · exact createHost_waitSafe W c
  · exact deleteHost_waitSafe W c
  · exact setHostAvailabilityZone_waitSafe W c
  · exact suspendHost_waitSafe W c
  · exact resumeHost_waitSafe W c
  · exact enterMaintenanceMode_waitSafe W c
  · exact exitMaintenanceMode_waitSafe W c
  · exact createTenant_waitSafe W c
  · exact deleteTenant_waitSafe W c
  · exact setSecurityGroups_waitSafe W c
  · exact createImage_waitSafe W c
  · exact deleteImage_waitSafe W c

/-- C1: for each of the twelve mutating commands and every world and
invocation, if the command calls `waitOnTaskOperation` on a task and that call
returns the error `e`, then the command returns exactly `e` (so it does not
return nil), the wait is its last event (nothing is done after it, in
particular no re-fetch), and its run contains no `Get` and no write to the
writer. -/
theorem mutating_command_returns_wait_error (cmd : MutatingCommand) (W : World) (c : Context)
    (tid : String) (e : Err)
    (hin : Event.waitOnTaskOperation tid ∈ (cmd.run W c).trace)
    (hw : W.waitOnTaskOperation tid = .error e) :
    (cmd.run W c).result = .error e ∧
    (cmd.run W c).result ≠ .ok () ∧
    (cmd.run W c).trace.getLast? = some (.waitOnTaskOperation tid) ∧
    (∀ ev ∈ (cmd.run W c).trace, ev.isGet = false) ∧
    (∀ ev ∈ (cmd.run W c).trace, ev.isWriterOutput = false) := by
  obtain ⟨h1, h2, h3, h4⟩ := (mutatingCommand_waitSafe cmd W c).out tid e hin hw
  refine ⟨h1, ?_, h2, h3, h4⟩
  rw [h1]
  exact fun h => by cases h

/-- C1 at `host create` with the format override set, the wait failing with
`disk full`. -/
theorem mutating_command_returns_wait_error_witness :
    (MutatingCommand.createHost.run failedWaitWorld (sampleContext [] true "json")).result
        = .error ⟨"disk full"⟩ ∧
    (MutatingCommand.createHost.run failedWaitWorld (sampleContext [] true "json")).result
        ≠ .ok () ∧
    (MutatingCommand.createHost.run failedWaitWorld (sampleContext [] true "json")).trace.getLast?
        = some (.waitOnTaskOperation "t1") ∧
    (∀ ev ∈ (MutatingCommand.createHost.run failedWaitWorld (sampleContext [] true "json")).trace,
        ev.isGet = false) ∧
    (∀ ev ∈ (MutatingCommand.createHost.run failedWaitWorld (sampleContext [] true "json")).trace,
        ev.isWriterOutput = false) :=
  mutating_command_returns_wait_error .createHost failedWaitWorld (sampleContext [] true "json")
    "t1" ⟨"disk full"⟩ (by decide) rfl


theorem ite_mem_list {α : Type} (P : Prop) [Decidable P] (a b : α) (l : List α)
    (ha : a ∈ l) (hb : b ∈ l) : (if P then a else b) ∈ l := by
  split
  · exact ha
  · exact hb

theorem digitChar_mem (n : Nat) : Nat.digitChar n ∈ "0123456789abcdef*".toList := by
  unfold Nat.digitChar
  repeat (apply ite_mem_list _ _ _ _ (by decide))
  decide

theorem digitChar_plain (n : Nat) : Nat.digitChar n ≠ '\t' ∧ Nat.digitChar n ≠ '\n' := by
  have h := digitChar_mem n
  constructor
  · intro h'
    rw [h'] at h
    revert h
    decide
  · intro h'
    rw [h'] at h
    revert h
    decide

theorem toDigitsCore_plain (b : Nat) (ch : Char) (hch : ch = '\t' ∨ ch = '\n') :
    ∀ (fuel n : Nat) (ds : List Char), ch ∉ ds → ch ∉ Nat.toDigitsCore b fuel n ds := by
  intro fuel
  induction fuel with
  | zero => intro n ds h; simpa [Nat.toDigitsCore] using h
  | succ fuel ih =>
    intro n ds h
    have hd : ch ≠ Nat.digitChar (n % b) := by
      rcases hch with rfl | rfl
      · exact fun h => (digitChar_plain _).1 h.symm
      · exact fun h => (digitChar_plain _).2 h.symm
    have hcons : ch ∉ Nat.digitChar (n % b) :: ds := by
      simp [hd, h]
    unfold Nat.toDigitsCore
    dsimp only
    split
    · exact hcons
    · exact ih _ _ hcons

theorem natToString_plain (n : Nat) : PlainText (toString n) := by
  have h : (toString n).toList = Nat.toDigits 10 n := rfl
  unfold PlainText
  rw [h]
  exact ⟨toDigitsCore_plain 10 _ (Or.inl rfl) _ _ _ (by simp),
    toDigitsCore_plain 10 _ (Or.inr rfl) _ _ _ (by simp)⟩

theorem intToString_plain (n : Int) : PlainText (toString n) := by
  cases n with
  | ofNat m => exact natToString_plain m
  | negSucc m =>
    have h : (toString (Int.negSucc m)).toList = '-' :: (toString (m + 1)).toList := rfl
    have hp := natToString_plain (m + 1)
    unfold PlainText at hp ⊢
    rw [h]
    refine ⟨?_, ?_⟩
    · simp only [List.mem_cons, not_or]
      exact ⟨by decide, hp.1⟩
    · simp only [List.mem_cons, not_or]
      exact ⟨by decide, hp.2⟩


/-! ## Splitting text -/

theorem splitOn_first (ch : Char) (xs rest : List Char) (h : ch ∉ xs) :
    (xs ++ ch :: rest).splitOn ch = xs :: rest.splitOn ch := by
  unfold List.splitOn
  apply List.splitOnP_first
  · intro x hx hxc
    have : x = ch := by simpa using hxc
    exact h (this ▸ hx)
  · simp

theorem splitOn_single (ch : Char) (xs : List Char) (h : ch ∉ xs) :
    xs.splitOn ch = [xs] := by
  unfold List.splitOn
  apply List.splitOnP_eq_single
  intro x hx hxc
  have : x = ch := by simpa using hxc
  exact h (this ▸ hx)

theorem toList_join (ts : List String) :
    (String.join ts).toList = (ts.map String.toList).flatten := by
  have h : ∀ (acc : String) (ts : List String),
      (List.foldl (fun r s => r ++ s) acc ts).toList
        = acc.toList ++ (ts.map String.toList).flatten := by
    intro acc ts
    induction ts generalizing acc with
    | nil => simp
    | cons t ts ih =>
      rw [List.foldl_cons, ih]
      simp [String.toList]
  simpa [String.join] using h "" ts

/-- Complete lines split back into themselves, followed by the empty piece. -/
theorem linesOf_join (bodies : List String) (h : ∀ b ∈ bodies, '\n' ∉ b.toList) :
    linesOf (String.join (bodies.map fun b => b ++ "\n")) = bodies ++ [""] := by
  unfold linesOf
  rw [toList_join]
  induction bodies with
  | nil => rfl
  | cons b bs ih =>
    have hb : '\n' ∉ b.toList := h b (List.mem_cons_self _ _)
    have hbs : ∀ b' ∈ bs, '\n' ∉ b'.toList := fun b' hb' => h b' (List.mem_cons_of_mem _ hb')
    have e : (List.map String.toList (List.map (fun b => b ++ "\n") (b :: bs))).flatten
        = b.toList ++ '\n' :: (List.map String.toList (List.map (fun b => b ++ "\n") bs)).flatten := by
      simp [String.toList]
    rw [e, splitOn_first _ _ _ hb, List.map_cons, ih hbs]
    rfl

/-! ## Standard output of a run -/

theorem stdoutText_append (l₁ l₂ : List Event) :
    stdoutText (l₁ ++ l₂) = stdoutText l₁ ++ stdoutText l₂ := by
  induction l₁ with
  | nil => simp [stdoutText]
  | cons ev l ih =>
    cases ev <;> simp [stdoutText, ih, String.append_assoc]

theorem stdoutText_map_stdout (ts : List String) :
    stdoutText (ts.map Event.stdout) = String.join ts := by
  induction ts with
  | nil => rfl
  | cons t ts ih =>
    have : String.join (t :: ts) = t ++ String.join ts := by
      apply String.ext
      simp [toList_join, String.toList]
    simp [stdoutText, ih, this]

theorem outputEvents_map_stdout (ts : List String) :
    outputEvents (ts.map Event.stdout) = ts.map Event.stdout := by
  unfold outputEvents
  rw [List.filter_eq_self]
  intro ev hev
  obtain ⟨t, _, rfl⟩ := List.mem_map.mp hev
  rfl

/-- C2: for every list of tenants the remote returns, `listTenants` in
non-interactive mode returns nil and prints on standard output exactly the
rows `<ID>\t<Name>\n` of the tenants in list order; its only output events are
these prints (no header, no table, no total, nothing on the writer).  The two
tenants `1/a` and `2/b` give `1\ta\n2\tb\n` and the empty list gives the empty
text. -/
theorem listTenants_script_output (W : World) (c : Context) (tenants : List Tenant)
    (hargs : W.checkArgNum c.args 0 "tenant list" = none)
    (hclient : W.getClient (W.isNonInteractive c) = none)
    (hall : W.tenantsGetAll = .ok tenants)
    (hni : c.nonInteractiveSet = true) :
    (listTenants W c).result = .ok () ∧
    stdoutText (listTenants W c).trace
      = String.join (tenants.map fun t => t.ID ++ "\t" ++ t.Name ++ "\n") ∧
    outputEvents (listTenants W c).trace
      = tenants.map (fun t => Event.stdout (t.ID ++ "\t" ++ t.Name ++ "\n")) ∧
    (∀ g₁ g₂, tenants = [⟨"1", "a", g₁⟩, ⟨"2", "b", g₂⟩] →
      stdoutText (listTenants W c).trace = "1\ta\n2\tb\n") ∧
    (tenants = [] → stdoutText (listTenants W c).trace = "") := by
  have hrun : listTenants W c = ⟨[.checkArgNum c.args 0 "tenant list",
      .getClient (W.isNonInteractive c), .api .tenantsGetAll]
        ++ (tenants.map tenantRow).map Event.stdout, .ok ()⟩ := by
    simp [listTenants, checkArgs, getClient, callErr, call, writeAll, Run.bind_def, Run.bind,
      hargs, hclient, hall, hni]
  have htext : stdoutText (listTenants W c).trace
      = String.join (tenants.map fun t => t.ID ++ "\t" ++ t.Name ++ "\n") := by
    rw [hrun]
    show stdoutText (_ ++ _) = _
    rw [stdoutText_append, stdoutText_map_stdout]
    simp only [stdoutText, String.empty_append]
    rfl
  refine ⟨by rw [hrun], htext, ?_, ?_, ?_⟩
  · rw [hrun]
    have : outputEvents ([.checkArgNum c.args 0 "tenant list",
        .getClient (W.isNonInteractive c), .api .tenantsGetAll]
          ++ (tenants.map tenantRow).map Event.stdout)
        = outputEvents ((tenants.map tenantRow).map Event.stdout) := rfl
    rw [this, outputEvents_map_stdout, List.map_map]
    rfl
  · intro g₁ g₂ h
    rw [htext, h]
    rfl
  · intro h
    rw [htext, h]
    rfl

/-- C2 in the sample world, whose remote holds the tenants `1/a` and `2/b`. -/
theorem listTenants_script_output_witness :
    (listTenants sampleWorld (sampleContext [] true "")).result = .ok () ∧
    stdoutText (listTenants sampleWorld (sampleContext [] true "")).trace
      = String.join (([⟨"1", "a", []⟩, ⟨"2", "b", []⟩] : List Tenant).map
          fun t => t.ID ++ "\t" ++ t.Name ++ "\n") ∧
    outputEvents (listTenants sampleWorld (sampleContext [] true "")).trace
      = ([⟨"1", "a", []⟩, ⟨"2", "b", []⟩] : List Tenant).map
          (fun t => Event.stdout (t.ID ++ "\t" ++ t.Name ++ "\n")) ∧
    (∀ g₁ g₂, ([⟨"1", "a", []⟩, ⟨"2", "b", []⟩] : List Tenant)
        = [⟨"1", "a", g₁⟩, ⟨"2", "b", g₂⟩] →
      stdoutText (listTenants sampleWorld (sampleContext [] true "")).trace = "1\ta\n2\tb\n") ∧
    (([⟨"1", "a", []⟩, ⟨"2", "b", []⟩] : List Tenant) = [] →
      stdoutText (listTenants sampleWorld (sampleContext [] true "")).trace = "") :=
  listTenants_script_output sampleWorld (sampleContext [] true "")
    [⟨"1", "a", []⟩, ⟨"2", "b", []⟩] rfl rfl rfl rfl

/-! ## Listing images for scripts -/

/-- The row of an image without its final newline. -/
theorem imageRow_eq (image : Image) :
    imageRow image = "\t".intercalate (imageFields image) ++ "\n" := by
  apply String.ext
  simp [imageRow, imageFields, String.intercalate, String.intercalate.go, String.toList]

theorem fieldsOf_imageFields (image : Image) (h : image.WellFormed) :
    fieldsOf ("\t".intercalate (imageFields image)) = imageFields image := by
  obtain ⟨h1, h2, h3, h4, h5, h6⟩ := h
  have h0 := intToString_plain image.Size
  have e : ("\t".intercalate (imageFields image)).toList
      = image.ID.toList ++ '\t' :: (image.Name.toList ++ '\t' :: (image.State.toList ++ '\t' ::
        ((toString image.Size).toList ++ '\t' :: (image.ReplicationType.toList ++ '\t' ::
        (image.ReplicationProgress.toList ++ '\t' :: image.SeedingProgress.toList))))) := by
    simp [imageFields, String.intercalate, String.intercalate.go, String.toList]
  unfold fieldsOf
  rw [e, splitOn_first _ _ _ h1.1, splitOn_first _ _ _ h2.1, splitOn_first _ _ _ h3.1,
    splitOn_first _ _ _ h0.1, splitOn_first _ _ _ h4.1, splitOn_first _ _ _ h5.1,
    splitOn_single _ _ h6.1]
  rfl

theorem imageFields_no_newline (image : Image) (h : image.WellFormed) :
    '\n' ∉ ("\t".intercalate (imageFields image)).toList := by
  obtain ⟨h1, h2, h3, h4, h5, h6⟩ := h
  have h0 := intToString_plain image.Size
  have e : ("\t".intercalate (imageFields image)).toList
      = image.ID.toList ++ '\t' :: (image.Name.toList ++ '\t' :: (image.State.toList ++ '\t' ::
        ((toString image.Size).toList ++ '\t' :: (image.ReplicationType.toList ++ '\t' ::
        (image.ReplicationProgress.toList ++ '\t' :: image.SeedingProgress.toList))))) := by
    simp [imageFields, String.intercalate, String.intercalate.go, String.toList]
  rw [e]
  simp only [List.mem_append, List.mem_cons, not_or]
  exact ⟨h1.2, by decide, h2.2, by decide, h3.2, by decide, h0.2, by decide, h4.2, by decide,
    h5.2, by decide, h6.2⟩

/-- C3: for every list of well-formed images the remote returns (string fields
without tab and newline, possibly empty), `listImages` in non-interactive mode
returns nil; its only output events are one print per image in list order (no
header, no table, no total); the printed text consists of exactly one complete
line per image, in list order; and every line splits at its tabs into exactly
the seven fields ID, Name, State, Size in decimal, ReplicationType,
ReplicationProgress, SeedingProgress. -/
theorem listImages_script_output (W : World) (c : Context) (images : List Image)
    (hargs : W.checkArgNum c.args 0 "image list [<options>]" = none)
    (hclient : W.getClient (W.isNonInteractive c) = none)
    (hall : W.imagesGetAll (c.stringFlag "name") = .ok images)
    (hni : c.nonInteractiveSet = true)
    (hwf : ∀ image ∈ images, image.WellFormed) :
    (listImages W c).result = .ok () ∧
    outputEvents (listImages W c).trace
      = images.map (fun image => Event.stdout ("\t".intercalate (imageFields image) ++ "\n")) ∧
    linesOf (stdoutText (listImages W c).trace)
      = images.map (fun image => "\t".intercalate (imageFields image)) ++ [""] ∧
    (linesOf (stdoutText (listImages W c).trace)).length = images.length + 1 ∧
    (∀ image ∈ images,
      fieldsOf ("\t".intercalate (imageFields image)) =
        [image.ID, image.Name, image.State, toString image.Size, image.ReplicationType,
          image.ReplicationProgress, image.SeedingProgress]) := by
  have hrun : listImages W c = ⟨[.checkArgNum c.args 0 "image list [<options>]",
      .getClient (W.isNonInteractive c), .api (.imagesGetAll (c.stringFlag "name"))]
        ++ (images.map imageRow).map Event.stdout, .ok ()⟩ := by
    simp [listImages, checkArgs, getClient, callErr, call, writeAll, Run.bind_def, Run.bind,
      hargs, hclient, hall, hni]
  have hrows : images.map imageRow
      = (images.map fun image => "\t".intercalate (imageFields image)).map
          fun b => b ++ "\n" := by
    rw [List.map_map]
    exact List.map_congr_left fun image _ => imageRow_eq image
  have htext : stdoutText (listImages W c).trace
      = String.join ((images.map fun image => "\t".intercalate (imageFields image)).map
          fun b => b ++ "\n") := by
    rw [hrun]
    show stdoutText (_ ++ _) = _
    rw [stdoutText_append, stdoutText_map_stdout, hrows]
    simp only [stdoutText, String.empty_append]
  have hlines : linesOf (stdoutText (listImages W c).trace)
      = images.map (fun image => "\t".intercalate (imageFields image)) ++ [""] := by
    rw [htext]
    apply linesOf_join
    intro b hb
    obtain ⟨image, himage, rfl⟩ := List.mem_map.mp hb
    exact imageFields_no_newline image (hwf image himage)
  refine ⟨by rw [hrun], ?_, hlines, ?_, ?_⟩
  · rw [hrun]
    have : outputEvents ([.checkArgNum c.args 0 "image list [<options>]",
        .getClient (W.isNonInteractive c), .api (.imagesGetAll (c.stringFlag "name"))]
          ++ (images.map imageRow).map Event.stdout)
        = outputEvents ((images.map imageRow).map Event.stdout) := rfl
    rw [this, outputEvents_map_stdout, hrows, List.map_map, List.map_map]
    rfl
  · rw [hlines]
    simp
  · intro image himage
    exact fieldsOf_imageFields image (hwf image himage)

/-- C3 in the sample world, whose second image has empty optional fields: two
lines, the second one `i2`, five empty fields around the size `0`. -/
theorem listImages_script_output_witness :
    linesOf (stdoutText (listImages sampleWorld (sampleContext [] true "")).trace)
      = ["i1\timg\tREADY\t10\tEAGER\t100%\t100%", "i2\t\t\t0\t\t\t", ""] ∧
    fieldsOf "i2\t\t\t0\t\t\t" = ["i2", "", "", "0", "", "", ""] :=
  ⟨(listImages_script_output sampleWorld (sampleContext [] true "") sampleImages
      rfl rfl rfl rfl (by decide)).2.2.1,
   by decide⟩

/-! ## Listing in interactive mode -/

/-- C4: for every list of tenants and every list of images the remote returns,
in interactive mode (non-interactive unset, no format override, the table
writer flushing without error) `listTenants` and `listImages` return nil and
their output is, in this order: the table, whose first row is the header
(`ID`, `Name`; for images the seven column names) followed by exactly one row
per entity in list order, and then the footer `Total: N` on a line of its own,
`N` being the length of the list.  For the empty list the table is the header
alone and the footer is `Total: 0`. -/
theorem list_interactive_output (W : World) (c : Context) (tenants : List Tenant)
    (images : List Image)
    (hni : c.nonInteractiveSet = false)
    (hformat : W.needsFormatting c = false)
    (hclient : W.getClient (W.isNonInteractive c) = none)
    (hflush : ∀ buffer, W.tabFlush buffer = none)
    (hargsT : W.checkArgNum c.args 0 "tenant list" = none)
    (hallT : W.tenantsGetAll = .ok tenants)
    (hargsI : W.checkArgNum c.args 0 "image list [<options>]" = none)
    (hallI : W.imagesGetAll (c.stringFlag "name") = .ok images) :
    ((listTenants W c).result = .ok () ∧
      outputEvents (listTenants W c).trace =
        [ .tabFlush ("ID\tName\n"
            ++ String.join (tenants.map fun t => t.ID ++ "\t" ++ t.Name ++ "\n")),
          .stdout ("\n" ++ "Total: " ++ toString tenants.length ++ "\n") ] ∧
      (tenants = [] → outputEvents (listTenants W c).trace =
        [.tabFlush "ID\tName\n", .stdout "\nTotal: 0\n"])) ∧
    ((listImages W c).result = .ok () ∧
      outputEvents (listImages W c).trace =
        [ .tabFlush
            ("ID\tName\tState\tSize(Byte)\tReplication_type\tReplicationProgress\tSeedingProgress\n"
            ++ String.join (images.map fun image =>
                "\t".intercalate (imageFields image) ++ "\n")),
          .stdout ("\n" ++ "Total: " ++ toString images.length ++ "\n") ] ∧
      (images = [] → outputEvents (listImages W c).trace =
        [ .tabFlush
            "ID\tName\tState\tSize(Byte)\tReplication_type\tReplicationProgress\tSeedingProgress\n",
          .stdout "\nTotal: 0\n" ])) := by
  have hrunT : listTenants W c = ⟨[.checkArgNum c.args 0 "tenant list",
      .getClient (W.isNonInteractive c), .api .tenantsGetAll,
      .tabFlush ("ID\tName\n" ++ String.join (tenants.map tenantRow)),
      .stdout ("\nTotal: " ++ toString tenants.length ++ "\n")], .ok ()⟩ := by
    simp [listTenants, checkArgs, getClient, callErr, call, tabFlush, printf, emit,
      Run.bind_def, Run.bind, hargsT, hclient, hallT, hni, hformat, hflush]
  have hrunI : listImages W c = ⟨[.checkArgNum c.args 0 "image list [<options>]",
      .getClient (W.isNonInteractive c), .api (.imagesGetAll (c.stringFlag "name")),
      .tabFlush (imageHeader ++ String.join (images.map imageRow)),
      .stdout ("\nTotal: " ++ toString images.length ++ "\n")], .ok ()⟩ := by
    simp [listImages, checkArgs, getClient, callErr, call, tabFlush, printf, emit,
      Run.bind_def, Run.bind, hargsI, hclient, hallI, hni, hformat, hflush]
  have hrows : images.map imageRow
      = images.map fun image => "\t".intercalate (imageFields image) ++ "\n" :=
    List.map_congr_left fun image _ => imageRow_eq image
  refine ⟨⟨by rw [hrunT], ?_, ?_⟩, ⟨by rw [hrunI], ?_, ?_⟩⟩
  · rw [hrunT]
    rfl
  · intro h
    rw [hrunT, h]
    rfl
  · rw [hrunI, hrows]
    rfl
  · intro h
    rw [hrunI, h]
    rfl

/-- C4 in the sample world: two tenants and two images are listed with the
footers `Total: 2`. -/
theorem list_interactive_output_witness :
    outputEvents (listTenants sampleWorld (sampleContext [] false "")).trace =
      [.tabFlush "ID\tName\n1\ta\n2\tb\n", .stdout "\nTotal: 2\n"] ∧
    outputEvents (listImages sampleWorld (sampleContext [] false "")).trace =
      [ .tabFlush ("ID\tName\tState\tSize(Byte)\tReplication_type\tReplicationProgress\tSeedingProgress\n"
          ++ "i1\timg\tREADY\t10\tEAGER\t100%\t100%\n" ++ "i2\t\t\t0\t\t\t\n"),
        .stdout "\nTotal: 2\n" ] :=
  ⟨(list_interactive_output sampleWorld (sampleContext [] false "")
      [⟨"1", "a", []⟩, ⟨"2", "b", []⟩] sampleImages rfl rfl rfl (fun _ => rfl)
      rfl rfl rfl rfl).1.2.1,
   (list_interactive_output sampleWorld (sampleContext [] false "")
      [⟨"1", "a", []⟩, ⟨"2", "b", []⟩] sampleImages rfl rfl rfl (fun _ => rfl)
      rfl rfl rfl rfl).2.2.1⟩

/-! ## Authentication information for scripts -/

/-- C7: for every `AuthInfo`, `printAuthInfo` with `isScripting = true` returns
nil and its only event is the print of `<enabled>\t<endpoint>\t<port>\n`, with
`enabled` as `true` / `false` and the port in decimal; there is no header row
and no table. -/
theorem printAuthInfo_script_output (W : World) (auth : AuthInfo) :
    (printAuthInfo W auth true).result = .ok () ∧
    (printAuthInfo W auth true).trace =
      [.stdout ((if auth.Enabled then "true" else "false") ++ "\t" ++ auth.Endpoint ++ "\t"
        ++ toString auth.Port ++ "\n")] ∧
    stdoutText (printAuthInfo W auth true).trace =
      (if auth.Enabled then "true" else "false") ++ "\t" ++ auth.Endpoint ++ "\t"
        ++ toString auth.Port ++ "\n" ∧
    (printAuthInfo W ⟨true, "10.0.0.1", 443⟩ true).trace = [.stdout "true\t10.0.0.1\t443\n"] := by
  have hb : toString auth.Enabled = if auth.Enabled then "true" else "false" := by
    cases auth.Enabled <;> rfl
  refine ⟨rfl, ?_, ?_, rfl⟩
  · simp only [printAuthInfo, printf, emit, if_true, hb]
  · simp only [printAuthInfo, printf, emit, if_true, hb, stdoutText, String.append_empty]

/-! ## Token dumps -/

theorem dumpTokenDetailsRaw_getLast (W : World) (name token : String) :
    (dumpTokenDetailsRaw W name token).getLast? = some ("Token: " ++ token ++ "\n") := by
  unfold dumpTokenDetailsRaw
  rw [List.getLast?_append_of_ne_nil _ (by simp)]
  rfl

theorem specParseRawTokenDetails_error (base64Decode : String → Option String)
    (validJSON : String → Bool) (token : String)
    (hbad : ∀ payload, base64Decode (payloadSegment token) = some payload →
      validJSON payload = false) :
    specParseRawTokenDetails base64Decode validJSON token = ([], some ⟨"MalformedToken"⟩) := by
  unfold specParseRawTokenDetails
  split
  · rename_i header payload _ hpayload
    simp [hbad payload hpayload]
  · rfl

/-- C5: with `ParseRawTokenDetails` as the spec describes it, for every token
whose payload segment is not valid Base64 or does not decode to valid JSON,
`dumpTokenDetailsRaw` writes the marker `<unparseable>` first and still writes
`Token: <encodedToken>`, the raw token unchanged, as its last line.  And for
every parser and every input whatsoever the function returns its texts (it has
no error result), the last one is that `Token:` line, and the first one is the
marker exactly when the parser reports an error. -/
theorem dumpTokenDetailsRaw_unparseable (W : World) (base64Decode : String → Option String)
    (validJSON : String → Bool) (name token : String)
    (hparser : W.parseRawTokenDetails = specParseRawTokenDetails base64Decode validJSON)
    (hbad : ∀ payload, base64Decode (payloadSegment token) = some payload →
      validJSON payload = false) :
    dumpTokenDetailsRaw W name token
      = ["<unparseable>\n", name ++ ":\n", "Token: " ++ token ++ "\n"] ∧
    (dumpTokenDetailsRaw W name token).head? = some "<unparseable>\n" ∧
    (dumpTokenDetailsRaw W name token).getLast? = some ("Token: " ++ token ++ "\n") ∧
    (∀ (W' : World) (name' token' : String),
      (dumpTokenDetailsRaw W' name' token').getLast? = some ("Token: " ++ token' ++ "\n") ∧
      ((W'.parseRawTokenDetails token').2.isSome = true →
        (dumpTokenDetailsRaw W' name' token').head? = some "<unparseable>\n") ∧
      ((W'.parseRawTokenDetails token').2.isSome = false →
        (dumpTokenDetailsRaw W' name' token').head? = some (name' ++ ":\n"))) := by
  have h : dumpTokenDetailsRaw W name token
      = ["<unparseable>\n", name ++ ":\n", "Token: " ++ token ++ "\n"] := by
    unfold dumpTokenDetailsRaw
    rw [hparser, specParseRawTokenDetails_error base64Decode validJSON token hbad]
    rfl
  refine ⟨h, ?_, dumpTokenDetailsRaw_getLast W name token, ?_⟩
  · rw [h]
    rfl
  · intro W' name' token'
    refine ⟨dumpTokenDetailsRaw_getLast W' name' token', ?_, ?_⟩
    · intro herr
      simp [dumpTokenDetailsRaw, herr]
    · intro herr
      simp [dumpTokenDetailsRaw, herr]

/-- C5 on a token whose payload `bm8` decodes to the text `no`, which is not
JSON, and on a token whose payload `$$$` is not Base64. -/
theorem dumpTokenDetailsRaw_unparseable_witness :
    dumpTokenDetailsRaw tokenWorld "Login Access Token" "e30.bm8.sig"
      = ["<unparseable>\n", "Login Access Token:\n", "Token: e30.bm8.sig\n"] ∧
    dumpTokenDetailsRaw tokenWorld "Login Access Token" "e30.$$$.sig"
      = ["<unparseable>\n", "Login Access Token:\n", "Token: e30.$$$.sig\n"] :=
  ⟨(dumpTokenDetailsRaw_unparseable tokenWorld sampleBase64 sampleValidJSON
      "Login Access Token" "e30.bm8.sig" rfl (by decide)).1,
   (dumpTokenDetailsRaw_unparseable tokenWorld sampleBase64 sampleValidJSON
      "Login Access Token" "e30.$$$.sig" rfl (by decide)).1⟩

theorem segments_three (h p s : String) (hh : '.' ∉ h.toList) (hp : '.' ∉ p.toList) :
    segments (h ++ "." ++ p ++ "." ++ s) = h :: p :: segments s := by
  have e : (h ++ "." ++ p ++ "." ++ s).toList = h.toList ++ '.' :: (p.toList ++ '.' :: s.toList) := by
    simp [String.toList]
  unfold segments
  rw [e, splitOn_first _ _ _ hh, splitOn_first _ _ _ hp]
  rfl

theorem headerSegment_three (h p s : String) (hh : '.' ∉ h.toList) (hp : '.' ∉ p.toList) :
    headerSegment (h ++ "." ++ p ++ "." ++ s) = h := by
  unfold headerSegment
  rw [segments_three h p s hh hp]
  rfl

theorem payloadSegment_three (h p s : String) (hh : '.' ∉ h.toList) (hp : '.' ∉ p.toList) :
    payloadSegment (h ++ "." ++ p ++ "." ++ s) = p := by
  unfold payloadSegment
  rw [segments_three h p s hh hp]
  rfl

/-- C6 as stated fails: two tokens that differ in the signature segment only
give different texts, in the human summary and in the raw dump, because the
last line of both prints the whole encoded token, signature segment included. -/
theorem token_dump_shows_signature_segment :
    dumpTokenDetails tokenWorld "Login Access Token" "e30.e30.sig1"
      ≠ dumpTokenDetails tokenWorld "Login Access Token" "e30.e30.sig2" ∧
    dumpTokenDetailsRaw tokenWorld "Login Access Token" "e30.e30.sig1"
      ≠ dumpTokenDetailsRaw tokenWorld "Login Access Token" "e30.e30.sig2" ∧
    (dumpTokenDetails tokenWorld "Login Access Token" "e30.e30.sig1").getLast?
      = some "\tToken: e30.e30.sig1\n" ∧
    (dumpTokenDetailsRaw tokenWorld "Login Access Token" "e30.e30.sig1").getLast?
      = some "Token: e30.e30.sig1\n" := by
  decide

/-- C6 amended: with the token parsers as the spec describes them, two
three-segment tokens that agree on header and payload and differ in the
signature segment give texts that are identical except for the last one, the
`Token:` line, which is the raw encoded token; nothing decoded from the
signature segment is written. -/
theorem token_dump_signature_only_in_token_line (W : World)
    (decode : String → String → JWTToken) (base64Decode : String → Option String)
    (validJSON : String → Bool) (name h p s₁ s₂ : String)
    (hparse : W.parseTokenDetails = specParseTokenDetails decode)
    (hraw : W.parseRawTokenDetails = specParseRawTokenDetails base64Decode validJSON)
    (hh : '.' ∉ h.toList) (hp : '.' ∉ p.toList) :
    (dumpTokenDetails W name (h ++ "." ++ p ++ "." ++ s₁)).dropLast
      = (dumpTokenDetails W name (h ++ "." ++ p ++ "." ++ s₂)).dropLast ∧
    (dumpTokenDetailsRaw W name (h ++ "." ++ p ++ "." ++ s₁)).dropLast
      = (dumpTokenDetailsRaw W name (h ++ "." ++ p ++ "." ++ s₂)).dropLast ∧
    (dumpTokenDetails W name (h ++ "." ++ p ++ "." ++ s₁)).getLast?
      = some ("\tToken: " ++ (h ++ "." ++ p ++ "." ++ s₁) ++ "\n") ∧
    (dumpTokenDetailsRaw W name (h ++ "." ++ p ++ "." ++ s₁)).getLast?
      = some ("Token: " ++ (h ++ "." ++ p ++ "." ++ s₁) ++ "\n") := by
  have e1 : ∀ s, W.parseTokenDetails (h ++ "." ++ p ++ "." ++ s) = decode h p := by
    intro s
    rw [hparse]
    unfold specParseTokenDetails
    rw [headerSegment_three h p s hh hp, payloadSegment_three h p s hh hp]
  have e2 : ∀ s, W.parseRawTokenDetails (h ++ "." ++ p ++ "." ++ s)
      = W.parseRawTokenDetails (h ++ "." ++ p ++ "." ++ "") := by
    intro s
    rw [hraw]
    unfold specParseRawTokenDetails
    rw [headerSegment_three h p s hh hp, payloadSegment_three h p s hh hp,
      headerSegment_three h p "" hh hp, payloadSegment_three h p "" hh hp]
  have d : ∀ (l : List String) (x : String), (l ++ [x]).dropLast = l := by
    intro l x
    simp
  refine ⟨?_, ?_, ?_, dumpTokenDetailsRaw_getLast W name _⟩
  · simp only [dumpTokenDetails, e1, List.dropLast]
  · unfold dumpTokenDetailsRaw
    rw [d, d, e2 s₁, e2 s₂]
  · rfl

/-- C6 amended, on the tokens `e30.e30.sig1` and `e30.e30.sig2`. -/
theorem token_dump_signature_only_in_token_line_witness :
    (dumpTokenDetails tokenWorld "Login Access Token" ("e30" ++ "." ++ "e30" ++ "." ++ "sig1")).dropLast
      = (dumpTokenDetails tokenWorld "Login Access Token" ("e30" ++ "." ++ "e30" ++ "." ++ "sig2")).dropLast ∧
    (dumpTokenDetailsRaw tokenWorld "Login Access Token" ("e30" ++ "." ++ "e30" ++ "." ++ "sig1")).dropLast
      = (dumpTokenDetailsRaw tokenWorld "Login Access Token" ("e30" ++ "." ++ "e30" ++ "." ++ "sig2")).dropLast :=
  ⟨(token_dump_signature_only_in_token_line tokenWorld sampleDecode sampleBase64 sampleValidJSON
      "Login Access Token" "e30" "e30" "sig1" "sig2" rfl rfl (by decide) (by decide)).1,
   (token_dump_signature_only_in_token_line tokenWorld sampleDecode sampleBase64 sampleValidJSON
      "Login Access Token" "e30" "e30" "sig1" "sig2" rfl rfl (by decide) (by decide)).2.1⟩

/-! ## The human summary of a token -/

/-- C8, as amended: for every parsed token the text written by
`dumpTokenDetails` is six texts, each ended by a newline, in the order
`<name>:`, `Subject`, `Groups`, `Issued`, `Expires`, `Token`; the `Groups` text
is `<none>` when the groups of the token are nil, and otherwise the groups
joined with `, ` in their original order, which is the empty text for an empty
list; the `Token` text carries the raw encoded token unchanged.  When no part
contains a newline the text splits into exactly these six lines. -/
theorem dumpTokenDetails_six_lines (W : World) (name token : String) :
    String.join (dumpTokenDetails W name token) =
      String.join ([ name ++ ":",
        "\tSubject: " ++ (W.parseTokenDetails token).Subject,
        "\tGroups: " ++ groupsText (W.parseTokenDetails token),
        "\tIssued: " ++ W.timestampToString (wrapInt64 ((W.parseTokenDetails token).IssuedAt * 1000)),
        "\tExpires: " ++ W.timestampToString (wrapInt64 ((W.parseTokenDetails token).Expires * 1000)),
        "\tToken: " ++ token ].map fun line => line ++ "\n") ∧
    ((W.parseTokenDetails token).Groups = none →
      groupsText (W.parseTokenDetails token) = "<none>") ∧
    (∀ groups, (W.parseTokenDetails token).Groups = some groups →
      groupsText (W.parseTokenDetails token) = ", ".intercalate groups) ∧
    ((W.parseTokenDetails token).Groups = some [] →
      groupsText (W.parseTokenDetails token) = "") ∧
    ((∀ line ∈ [ name ++ ":",
        "\tSubject: " ++ (W.parseTokenDetails token).Subject,
        "\tGroups: " ++ groupsText (W.parseTokenDetails token),
        "\tIssued: " ++ W.timestampToString (wrapInt64 ((W.parseTokenDetails token).IssuedAt * 1000)),
        "\tExpires: " ++ W.timestampToString (wrapInt64 ((W.parseTokenDetails token).Expires * 1000)),
        "\tToken: " ++ token ], '\n' ∉ line.toList) →
      linesOf (String.join (dumpTokenDetails W name token)) =
        [ name ++ ":",
          "\tSubject: " ++ (W.parseTokenDetails token).Subject,
          "\tGroups: " ++ groupsText (W.parseTokenDetails token),
          "\tIssued: " ++ W.timestampToString (wrapInt64 ((W.parseTokenDetails token).IssuedAt * 1000)),
          "\tExpires: " ++ W.timestampToString (wrapInt64 ((W.parseTokenDetails token).Expires * 1000)),
          "\tToken: " ++ token, "" ]) := by
  have htext : String.join (dumpTokenDetails W name token) =
      String.join ([ name ++ ":",
        "\tSubject: " ++ (W.parseTokenDetails token).Subject,
        "\tGroups: " ++ groupsText (W.parseTokenDetails token),
        "\tIssued: " ++ W.timestampToString (wrapInt64 ((W.parseTokenDetails token).IssuedAt * 1000)),
        "\tExpires: " ++ W.timestampToString (wrapInt64 ((W.parseTokenDetails token).Expires * 1000)),
        "\tToken: " ++ token ].map fun line => line ++ "\n") := by
    apply String.ext
    show (String.join _).toList = (String.join _).toList
    rw [toList_join, toList_join]
    unfold dumpTokenDetails groupsText
    cases h : (W.parseTokenDetails token).Groups <;> simp [String.toList, h]
  refine ⟨htext, ?_, ?_, ?_, ?_⟩
  · intro h
    simp [groupsText, h]
  · intro groups h
    simp [groupsText, h]
  · intro h
    simp [groupsText, h, String.intercalate]
  · intro h
    rw [htext]
    exact linesOf_join _ h

/-- C8 on the token `e30.e30.sig` of the subject `admin` with the groups `g1`
and `g2`. -/
theorem dumpTokenDetails_six_lines_witness :
    linesOf (String.join (dumpTokenDetails tokenWorld "Login Access Token" "e30.e30.sig")) =
      [ "Login Access Token:", "\tSubject: admin", "\tGroups: g1, g2", "\tIssued: 1000",
        "\tExpires: 2000", "\tToken: e30.e30.sig", "" ] :=
  (dumpTokenDetails_six_lines tokenWorld "Login Access Token" "e30.e30.sig").2.2.2.2 (by decide)


/-! ## One rendering per invocation -/

theorem filter_isOutput_map_stdout {α : Type} (f : α → String) (l : List α) :
    List.filter Event.isOutput (l.map (Event.stdout ∘ f)) = l.map fun a => Event.stdout (f a) := by
  induction l with
  | nil => rfl
  | cons a l ih => simp [Event.isOutput, ih]

theorem showHost_selected (W : World) (c : Context)
    (hok : (showHost W c).result = .ok ()) :
    ∃ o, RenderCommand.Receives .showHost W c o ∧
      outputEvents (showHost W c).trace
        = selectedRendering c.nonInteractiveSet (W.needsFormatting c) o := by
  revert hok
  simp only [showHost, checkArgs, getClient, callErr, call, emit, printf, writeAll,
    Run.bind_def, Run.bind, RenderCommand.Receives, selectedRendering]
  cases W.checkArgNum c.args 1 "host show <id>" <;> simp
  cases W.getClient (W.isNonInteractive c) <;> simp
  cases h : W.hostsGet c.first <;> simp
  intro _
  cases c.nonInteractiveSet <;> cases W.needsFormatting c <;>
    simp [outputEvents, Event.isOutput, scriptRendering, structuredRendering, humanRendering]

theorem showTenant_selected (W : World) (c : Context)
    (hok : (showTenant W c).result = .ok ()) :
    ∃ o, RenderCommand.Receives .showTenant W c o ∧
      outputEvents (showTenant W c).trace
        = selectedRendering c.nonInteractiveSet (W.needsFormatting c) o := by
  revert hok
  simp only [showTenant, checkArgs, getClient, callErr, call, emit, printf, writeAll,
    Run.bind_def, Run.bind, RenderCommand.Receives, selectedRendering]
  cases W.checkArgNum c.args 1 "tenant show <id>" <;> simp
  cases W.getClient (W.isNonInteractive c) <;> simp
  cases h : W.tenantsGet c.first <;> simp
  intro _
  cases c.nonInteractiveSet <;> cases W.needsFormatting c <;>
    simp [outputEvents, Event.isOutput, scriptRendering, structuredRendering, humanRendering]

theorem showImage_selected (W : World) (c : Context)
    (hok : (showImage W c).result = .ok ()) :
    ∃ o, RenderCommand.Receives .showImage W c o ∧
      outputEvents (showImage W c).trace
        = selectedRendering c.nonInteractiveSet (W.needsFormatting c) o := by
  revert hok
  simp only [showImage, ask, getClient, callErr, call, emit, printf, writeAll, fail,
    Run.bind_def, Run.bind, Run.pure, RenderCommand.Receives, selectedRendering]
  cases W.isNonInteractive c <;> simp
  · cases W.askForInput "Image id: " c.first <;> simp
    rename_i id
    by_cases hid : id.length = 0
    · simp [hid]
    simp only [hid, if_false]
    cases W.getClient false <;> simp
    cases h : W.imagesGet id <;> simp
    rename_i image
    intro _
    refine ⟨_, ⟨id, image, h, rfl⟩, ?_⟩
    cases c.nonInteractiveSet <;> cases W.needsFormatting c <;>
      simp [outputEvents, Event.isOutput, scriptRendering, structuredRendering, humanRendering]
  · by_cases hid : c.first.length = 0
    · simp [hid]
    simp only [hid, if_false]
    cases W.getClient true <;> simp
    cases h : W.imagesGet c.first <;> simp
    rename_i image
    intro _
    refine ⟨_, ⟨c.first, image, h, rfl⟩, ?_⟩
    cases c.nonInteractiveSet <;> cases W.needsFormatting c <;>
      simp [outputEvents, Event.isOutput, scriptRendering, structuredRendering, humanRendering]

theorem listTenants_selected (W : World) (c : Context)
    (hok : (listTenants W c).result = .ok ()) :
    ∃ o, RenderCommand.Receives .listTenants W c o ∧
      outputEvents (listTenants W c).trace
        = selectedRendering c.nonInteractiveSet (W.needsFormatting c) o := by
  revert hok
  simp only [listTenants, checkArgs, getClient, callErr, call, emit, printf, writeAll, tabFlush,
    Run.bind_def, Run.bind, RenderCommand.Receives, selectedRendering]
  cases W.checkArgNum c.args 0 "tenant list" <;> simp
  cases W.getClient (W.isNonInteractive c) <;> simp
  cases h : W.tenantsGetAll <;> simp
  rename_i tenants
  cases c.nonInteractiveSet <;> cases W.needsFormatting c <;>
    simp [outputEvents, Event.isOutput, scriptRendering, structuredRendering, humanRendering,
      filter_isOutput_map_stdout]
  cases W.tabFlush ("ID\tName\n" ++ String.join (List.map tenantRow tenants)) <;>
    simp [Event.isOutput]

theorem listImages_selected (W : World) (c : Context)
    (hok : (listImages W c).result = .ok ()) :
    ∃ o, RenderCommand.Receives .listImages W c o ∧
      outputEvents (listImages W c).trace
        = selectedRendering c.nonInteractiveSet (W.needsFormatting c) o := by
  revert hok
  simp only [listImages, checkArgs, getClient, callErr, call, emit, printf, writeAll, tabFlush,
    Run.bind_def, Run.bind, RenderCommand.Receives, selectedRendering]
  cases W.checkArgNum c.args 0 "image list [<options>]" <;> simp
  cases W.getClient (W.isNonInteractive c) <;> simp
  cases h : W.imagesGetAll (c.stringFlag "name") <;> simp
  rename_i images
  cases c.nonInteractiveSet <;> cases W.needsFormatting c <;>
    simp [outputEvents, Event.isOutput, scriptRendering, structuredRendering, humanRendering,
      filter_isOutput_map_stdout]
  cases W.tabFlush (imageHeader ++ String.join (List.map imageRow images)) <;>
    simp [Event.isOutput]

theorem getTenant_selected (W : World) (c : Context)
    (hok : (getTenant W c).result = .ok ())
    (hsel : ∀ config, W.loadConfig = .ok config → config.Tenant ≠ none) :
    ∃ o, RenderCommand.Receives .getTenant W c o ∧
      outputEvents (getTenant W c).trace
        = selectedRendering c.nonInteractiveSet (W.needsFormatting c) o := by
  revert hok
  simp only [getTenant, checkArgs, getClient, callErr, call, emit, printf, writeAll,
    Run.bind_def, Run.bind, RenderCommand.Receives, selectedRendering]
  cases W.checkArgNum c.args 0 "tenant get" <;> simp
  cases h : W.loadConfig <;> simp
  rename_i config
  cases ht : config.Tenant with
  | none => exact absurd ht (hsel config h)
  | some tenant =>
    simp
    cases c.nonInteractiveSet <;> cases W.needsFormatting c <;>
      simp [outputEvents, Event.isOutput, scriptRendering, structuredRendering, humanRendering]


theorem script_ne_structured (o : Obj) : scriptRendering o ≠ structuredRendering o := by
  intro h
  cases o with
  | tenants ts => cases ts with
    | nil => simp [scriptRendering, structuredRendering] at h
    | cons t ts => simp [scriptRendering, structuredRendering] at h
  | images is => cases is with
    | nil => simp [scriptRendering, structuredRendering] at h
    | cons i is => simp [scriptRendering, structuredRendering] at h
  | _ => simp [scriptRendering, structuredRendering] at h

theorem human_ne_structured (o : Obj) : humanRendering o ≠ structuredRendering o := by
  intro h
  cases o <;>
    simp [humanRendering, structuredRendering, hostReport, tenantReport, imageReport] at h

theorem script_ne_human (o : Obj) : scriptRendering o ≠ humanRendering o := by
  intro h
  cases o with
  | host host => simp [scriptRendering, humanRendering, hostReport] at h
  | tenant tenant => simp [scriptRendering, humanRendering, tenantReport] at h
  | image image => simp [scriptRendering, humanRendering, imageReport] at h
  | tenants ts => cases ts with
    | nil => simp [scriptRendering, humanRendering] at h
    | cons t ts => simp [scriptRendering, humanRendering] at h
  | images is => cases is with
    | nil => simp [scriptRendering, humanRendering] at h
    | cons i is => simp [scriptRendering, humanRendering] at h
  | tenantConfiguration tenant =>
    simp only [scriptRendering, humanRendering, List.cons.injEq, Event.stdout.injEq,
      and_true] at h
    have hlen := congrArg String.length h
    simp only [String.length_append] at hlen
    have e1 : "\t".length = 1 := rfl
    have e2 : "\n".length = 1 := rfl
    have e3 : "Current tenant is '".length = 19 := rfl
    have e4 : "' with ID ".length = 10 := rfl
    omega

/-! ## Surplus arguments -/

theorem checkArgs_bind_fails {β : Type} (W : World) (c : Context) (num : Nat) (usage : String)
    (f : Unit → Run β)
    (hcheck : ∀ args n usage, (W.checkArgNum args n usage).isSome ↔ args.length ≠ n)
    (hmore : num < c.args.length) :
    (∃ e, (checkArgs W c num usage >>= f).result = .error e) ∧
    ∀ ev ∈ (checkArgs W c num usage >>= f).trace, ev.isRemote = false := by
  have hsome : (W.checkArgNum c.args num usage).isSome := (hcheck _ _ _).mpr (by omega)
  obtain ⟨e, he⟩ := Option.isSome_iff_exists.mp hsome
  simp [checkArgs, callErr, Run.bind_def, Run.bind, he, Event.isRemote]

/-- Every command of the four families other than `showImage` rejects surplus
arguments before any remote call: when `checkArgNum` fails exactly on a wrong
argument count and there are more arguments than the usage string names, the
command returns an error and its run contains no `GetClient`, no remote call
and no wait. -/
theorem surplus_arguments_rejected (cmd : Command) (W : World) (c : Context)
    (hcheck : ∀ args n usage, (W.checkArgNum args n usage).isSome ↔ args.length ≠ n)
    (hmore : cmd.usageArgs < c.args.length)
    (hcmd : cmd ≠ .showImage) :
    (∃ e, (cmd.run W c).result = .error e) ∧
    ∀ ev ∈ (cmd.run W c).trace, ev.isRemote = false := by
  cases cmd
  case showImage => exact absurd rfl hcmd
  case createImage =>
    have h : c.args.length > 1 := hmore
    simp [Command.run, createImage, fail, h]
  case createTenant =>
    have h : c.args.length > 1 := hmore
    simp [Command.run, createTenant, fail, h]
  all_goals exact checkArgs_bind_fails W c _ _ _ hcheck hmore

/-- In non-interactive mode `showImage`, whatever the number of arguments, goes
straight to `client.GetClient` as soon as the first argument is not empty. -/
theorem showImage_starts_with_getClient (W : World) (c : Context)
    (hni : W.isNonInteractive c = true) (hid : c.first.length ≠ 0) :
    (showImage W c).trace.head? = some (.getClient true) := by
  simp only [showImage, getClient, callErr, call, fail, Run.bind_def, Run.bind, Run.pure, hni,
    Bool.not_true, Bool.false_eq_true, if_false, hid]
  cases W.getClient true <;> simp

/-- C10 at its failing input: `image show i1 extra` in non-interactive mode.
`showImage` never looks at the number of arguments: it calls
`client.GetClient` and `Images.Get` and returns nil, although `checkArgNum`
rejects these two arguments for one expected.  Its siblings `showHost` and
`createImage`, given a surplus argument, return an error as their only step. -/
theorem showImage_surplus_argument_reaches_remote :
    (showImage sampleWorld (sampleContext ["i1", "extra"] true "")).trace
      = [ .getClient true, .api (.imagesGet "i1"),
          .stdout "i1\timg\tREADY\t10\tEAGER\t100%\t100%\t\n" ] ∧
    (showImage sampleWorld (sampleContext ["i1", "extra"] true "")).result = .ok () ∧
    sampleWorld.checkArgNum ["i1", "extra"] 1 "image show <id>" ≠ none ∧
    (showHost sampleWorld (sampleContext ["h1", "extra"] true "")).trace
      = [.checkArgNum ["h1", "extra"] 1 "host show <id>"] ∧
    (showHost sampleWorld (sampleContext ["h1", "extra"] true "")).result
      = .error ⟨"wrong argument count"⟩ ∧
    (createImage sampleWorld (sampleContext ["p1", "extra"] true "")).trace = [] ∧
    (createImage sampleWorld (sampleContext ["p1", "extra"] true "")).result
      = .error ⟨"Unknown argument: [extra]"⟩ := by
  decide

/-! ## Missing required values -/

/-- C11: in non-interactive mode a missing required value is rejected before
any remote call.  `createTenant` with an empty name returns `Please provide
tenant name`, `createImage` with an empty path returns `Please provide image
path`, `showImage` with an empty id returns `Please provide image id`, and
these three runs have no event at all; `getApiTokens` with an empty username
or an empty password returns `Please provide username/password` and its only
event is the argument check.  So neither `client.GetClient` nor a remote call
is made and nothing is rendered. -/
theorem missing_value_rejected_before_remote (W : World) (c : Context)
    (hni : W.isNonInteractive c = true)
    (hset : c.nonInteractiveSet = true)
    (hfirst : c.first = "")
    (hargs : c.args.length ≤ 1)
    (hcheck : W.checkArgNum c.args 0 "auth get-tokens" = none) :
    (createTenant W c).result = .error ⟨"Please provide tenant name"⟩ ∧
    (createTenant W c).trace = [] ∧
    (createImage W c).result = .error ⟨"Please provide image path"⟩ ∧
    (createImage W c).trace = [] ∧
    (showImage W c).result = .error ⟨"Please provide image id"⟩ ∧
    (showImage W c).trace = [] ∧
    ((c.stringFlag "username" = "" ∨ c.stringFlag "password" = "") →
      (getApiTokens W c).result = .error ⟨"Please provide username/password"⟩ ∧
      (getApiTokens W c).trace = [.checkArgNum c.args 0 "auth get-tokens"] ∧
      (∀ ev ∈ (getApiTokens W c).trace, ev.isRemote = false ∧ ev.isOutput = false)) := by
  have hlen : ¬ c.args.length > 1 := by omega
  have hT : createTenant W c = ⟨[], .error ⟨"Please provide tenant name"⟩⟩ := by
    simp [createTenant, fail, Run.bind_def, Run.bind, Run.pure, hni, hfirst, hlen]
  have hI : createImage W c = ⟨[], .error ⟨"Please provide image path"⟩⟩ := by
    simp [createImage, fail, Run.bind_def, Run.bind, Run.pure, hni, hfirst, hlen]
  have hS : showImage W c = ⟨[], .error ⟨"Please provide image id"⟩⟩ := by
    simp [showImage, fail, Run.bind_def, Run.bind, Run.pure, hni, hfirst]
  refine ⟨by rw [hT], by rw [hT], by rw [hI], by rw [hI], by rw [hS], by rw [hS], ?_⟩
  intro hempty
  have hA : getApiTokens W c = ⟨[.checkArgNum c.args 0 "auth get-tokens"],
      .error ⟨"Please provide username/password"⟩⟩ := by
    have hor : (c.stringFlag "username").length = 0 ∨ (c.stringFlag "password").length = 0 := by
      rcases hempty with h | h
      · exact Or.inl (by rw [h]; rfl)
      · exact Or.inr (by rw [h]; rfl)
    simp [getApiTokens, checkArgs, callErr, fail, Run.bind_def, Run.bind, Run.pure, hset, hcheck]
    rcases hor with h | h <;> simp [h]
  rw [hA]
  refine ⟨rfl, rfl, ?_⟩
  intro ev hev
  simp only [List.mem_singleton] at hev
  subst hev
  exact ⟨rfl, rfl⟩

/-- C11 in the sample world, non-interactive, without arguments and without
flags. -/
theorem missing_value_rejected_before_remote_witness :
    (createTenant sampleWorld (sampleContext [] true "")).result
      = .error ⟨"Please provide tenant name"⟩ ∧
    (createImage sampleWorld (sampleContext [] true "")).result
      = .error ⟨"Please provide image path"⟩ ∧
    (showImage sampleWorld (sampleContext [] true "")).result
      = .error ⟨"Please provide image id"⟩ ∧
    (getApiTokens sampleWorld (sampleContext [] true "")).result
      = .error ⟨"Please provide username/password"⟩ :=
  ⟨(missing_value_rejected_before_remote sampleWorld (sampleContext [] true "")
      rfl rfl rfl (by decide) rfl).1,
   (missing_value_rejected_before_remote sampleWorld (sampleContext [] true "")
      rfl rfl rfl (by decide) rfl).2.2.1,
   (missing_value_rejected_before_remote sampleWorld (sampleContext [] true "")
      rfl rfl rfl (by decide) rfl).2.2.2.2.1,
   ((missing_value_rejected_before_remote sampleWorld (sampleContext [] true "")
      rfl rfl rfl (by decide) rfl).2.2.2.2.2.2 (Or.inl rfl)).1⟩

/-! ## The hosts of the current deployment -/

theorem listHosts_run_none (W : World) (c : Context)
    (hargs : W.checkArgNum c.args 0 "host list" = none)
    (hclient : W.getClient (W.isNonInteractive c) = none)
    (hall : W.deploymentsGetAll = .ok []) :
    listHosts W c = ⟨[.checkArgNum c.args 0 "host list", .getClient (W.isNonInteractive c),
      .api .deploymentsGetAll],
      .error ⟨"There are no deployments, so the hosts cannot be listed."⟩⟩ := by
  simp [listHosts, checkArgs, getClient, callErr, call, fail, Run.bind_def, Run.bind,
    hargs, hclient, hall]

theorem listHosts_run_many (W : World) (c : Context) (d₁ d₂ : Deployment)
    (rest : List Deployment)
    (hargs : W.checkArgNum c.args 0 "host list" = none)
    (hclient : W.getClient (W.isNonInteractive c) = none)
    (hall : W.deploymentsGetAll = .ok (d₁ :: d₂ :: rest)) :
    listHosts W c = ⟨[.checkArgNum c.args 0 "host list", .getClient (W.isNonInteractive c),
      .api .deploymentsGetAll],
      .error ⟨"There are multiple deployments, which normally should not happen. Use deployments list-hosts."⟩⟩ := by
  simp [listHosts, checkArgs, getClient, callErr, call, fail, Run.bind_def, Run.bind,
    hargs, hclient, hall]

theorem listHosts_run_one (W : World) (c : Context) (d : Deployment)
    (hargs : W.checkArgNum c.args 0 "host list" = none)
    (hclient : W.getClient (W.isNonInteractive c) = none)
    (hall : W.deploymentsGetAll = .ok [d]) :
    ∃ tail, (listHosts W c).trace = [.checkArgNum c.args 0 "host list",
      .getClient (W.isNonInteractive c), .api .deploymentsGetAll,
      .api (.deploymentsGetHosts d.ID)] ++ tail ∧
      ∀ ev ∈ tail, ∃ hosts, ev = .printHostList hosts := by
  simp only [listHosts, checkArgs, getClient, callErr, call, fail, Run.bind_def, Run.bind,
    Run.pure, hargs, hclient, hall]
  cases h : W.deploymentsGetHosts d.ID with
  | error e => exact ⟨[], by simp [h], by simp⟩
  | ok hosts =>
    cases h' : W.printHostList hosts with
    | none => exact ⟨[.printHostList hosts], by simp [h], by simp⟩
    | some e => exact ⟨[.printHostList hosts], by simp [h], by simp⟩

theorem listHosts_no_panic (W : World) (c : Context) (m : String) :
    (listHosts W c).result ≠ .panic m := by
  simp only [listHosts, checkArgs, getClient, callErr, call, fail, goPanic, Run.bind_def,
    Run.bind, Run.pure]
  cases W.checkArgNum c.args 0 "host list" <;> simp
  cases W.getClient (W.isNonInteractive c) <;> simp
  cases W.deploymentsGetAll with
  | error e => simp
  | ok deployments =>
    cases deployments with
    | nil => simp
    | cons d rest =>
      cases rest with
      | cons d₂ rest => simp
      | nil =>
        simp
        cases W.deploymentsGetHosts d.ID with
        | error e => simp
        | ok hosts => cases h : W.printHostList hosts <;> simp [h]

/-- C19: `listHosts` looks up the current deployment.  For every list of
deployments the remote returns: with no deployment and with more than one it
returns an error (a different one in the two cases) and queries no hosts; with
exactly one deployment it queries the hosts of that deployment's ID and of no
other; so it returns an error without querying hosts if and only if the number
of deployments is not 1.  And no run of `listHosts` panics: `Items[0]` is never
out of range. -/
theorem listHosts_current_deployment (W : World) (c : Context) (deployments : List Deployment)
    (hargs : W.checkArgNum c.args 0 "host list" = none)
    (hclient : W.getClient (W.isNonInteractive c) = none)
    (hall : W.deploymentsGetAll = .ok deployments) :
    (deployments.length = 0 → (listHosts W c).result
      = .error ⟨"There are no deployments, so the hosts cannot be listed."⟩) ∧
    (deployments.length > 1 → (listHosts W c).result
      = .error ⟨"There are multiple deployments, which normally should not happen. Use deployments list-hosts."⟩) ∧
    (∀ d, deployments = [d] →
      Event.api (.deploymentsGetHosts d.ID) ∈ (listHosts W c).trace ∧
      ∀ id, Event.api (.deploymentsGetHosts id) ∈ (listHosts W c).trace → id = d.ID) ∧
    (((∃ e, (listHosts W c).result = .error e) ∧
        ∀ id, Event.api (.deploymentsGetHosts id) ∉ (listHosts W c).trace)
      ↔ deployments.length ≠ 1) ∧
    (∀ (W' : World) (c' : Context) (m : String), (listHosts W' c').result ≠ .panic m) := by
  refine ⟨?_, ?_, ?_, ?_, listHosts_no_panic⟩
  · intro h
    have : deployments = [] := List.length_eq_zero.mp h
    subst this
    rw [listHosts_run_none W c hargs hclient hall]
  · intro h
    match deployments, h with
    | d₁ :: d₂ :: rest, _ => rw [listHosts_run_many W c d₁ d₂ rest hargs hclient hall]
  · intro d hd
    subst hd
    obtain ⟨tail, htrace, htail⟩ := listHosts_run_one W c d hargs hclient hall
    rw [htrace]
    refine ⟨by simp, ?_⟩
    intro id hid
    simp only [List.cons_append, List.nil_append, List.mem_cons, Event.api.injEq,
      ApiCall.deploymentsGetHosts.injEq, reduceCtorEq, false_or] at hid
    rcases hid with h | h
    · exact h
    · obtain ⟨hosts, hev⟩ := htail _ h
      cases hev
  · match deployments, hall with
    | [], hall =>
      rw [listHosts_run_none W c hargs hclient hall]
      simp
    | [d], hall =>
      obtain ⟨tail, htrace, _⟩ := listHosts_run_one W c d hargs hclient hall
      rw [htrace]
      simp only [List.length_singleton, ne_eq, not_true_eq_false, iff_false, not_and,
        not_forall, not_not]
      intro _
      exact ⟨d.ID, by simp⟩
    | d₁ :: d₂ :: rest, hall =>
      rw [listHosts_run_many W c d₁ d₂ rest hargs hclient hall]
      simp

/-- C19 in the sample world, whose remote has the single deployment `d1`. -/
theorem listHosts_current_deployment_witness :
    Event.api (.deploymentsGetHosts "d1") ∈ (listHosts sampleWorld (sampleContext [] true "")).trace :=
  ((listHosts_current_deployment sampleWorld (sampleContext [] true "") [⟨"d1"⟩]
    rfl rfl rfl).2.2.1 ⟨"d1"⟩ rfl).1

/-! ## The tokens line for scripts -/

/-- In non-interactive mode, whenever `getApiTokens` obtains the tokens, what it
prints is the access token, a tab and the refresh token, and nothing after the
refresh token. -/
theorem getApiTokens_script_text (W : World) (c : Context) (tokens : TokenOptions)
    (hset : c.nonInteractiveSet = true)
    (hargs : W.checkArgNum c.args 0 "auth get-tokens" = none)
    (huser : (c.stringFlag "username").length ≠ 0)
    (hpass : (c.stringFlag "password").length ≠ 0)
    (hclient : W.getClient true = none)
    (htokens : W.authGetTokensByPassword (c.stringFlag "username") (c.stringFlag "password")
      = .ok tokens) :
    (getApiTokens W c).result = .ok () ∧
    outputEvents (getApiTokens W c).trace
      = [.stdout (tokens.AccessToken ++ "\t" ++ tokens.RefreshToken)] ∧
    stdoutText (getApiTokens W c).trace = tokens.AccessToken ++ "\t" ++ tokens.RefreshToken := by
  have hrun : getApiTokens W c = ⟨[.checkArgNum c.args 0 "auth get-tokens", .getClient true,
      .api (.authGetTokensByPassword (c.stringFlag "username") (c.stringFlag "password")),
      .stdout (tokens.AccessToken ++ "\t" ++ tokens.RefreshToken)], .ok ()⟩ := by
    simp [getApiTokens, checkArgs, getClient, callErr, call, printf, emit, fail, Run.bind_def,
      Run.bind, Run.pure, hset, hargs, huser, hpass, hclient, htokens]
  rw [hrun]
  refine ⟨rfl, rfl, ?_⟩
  simp [stdoutText]

/-- C20 at its failing input: `auth get-api-tokens` in non-interactive mode with
the user name `u@t` and the password `pw`, the remote answering the tokens
`access` and `refresh`.  The command prints `access\trefresh` and stops: the
line is not terminated by a newline, unlike the script line of
`showLoginTokenWriter` and of `printAuthInfo`. -/
theorem getApiTokens_line_not_terminated :
    (getApiTokens sampleWorld credentialsContext).trace
      = [ .checkArgNum [] 0 "auth get-tokens", .getClient true,
          .api (.authGetTokensByPassword "u@t" "pw"), .stdout "access\trefresh" ] ∧
    (getApiTokens sampleWorld credentialsContext).result = .ok () ∧
    stdoutText (getApiTokens sampleWorld credentialsContext).trace = "access\trefresh" ∧
    stdoutText (getApiTokens sampleWorld credentialsContext).trace ≠ "access\trefresh\n" ∧
    (showLoginTokenWriter sampleWorld (sampleContext [] true "") (some ⟨"tok", none⟩)).trace
      = [.checkArgNum [] 0 "auth show-login-token", .write "tok\n"] ∧
    (printAuthInfo sampleWorld ⟨true, "10.0.0.1", 443⟩ true).trace
      = [.stdout "true\t10.0.0.1\t443\n"] := by
  decide

/-! ## Both flags set -/

theorem silent_runPure {α : Type} (a : α) : Silent (Run.pure a) := by
  intro ev h
  simp [Run.pure] at h

theorem silent_fail {α : Type} (e : Err) : Silent (fail e : Run α) := by
  intro ev h
  simp [fail] at h

theorem silent_goPanic {α : Type} (m : String) : Silent (goPanic m : Run α) := by
  intro ev h
  simp [goPanic] at h

theorem silent_call {α : Type} (ev : Event) (r : Except Err α) (h : ev.isOutput = false) :
    Silent (call ev r) := by
  intro ev' h'
  simp only [call, List.mem_singleton] at h'
  rw [h']
  exact h

theorem silent_callErr (ev : Event) (r : Option Err) (h : ev.isOutput = false) :
    Silent (callErr ev r) := by
  intro ev' h'
  simp only [callErr, List.mem_singleton] at h'
  rw [h']
  exact h

theorem silent_emit (ev : Event) (h : ev.isOutput = false) : Silent (emit ev) := by
  intro ev' h'
  simp only [emit, List.mem_singleton] at h'
  rw [h']
  exact h

theorem silent_bind {α β : Type} {x : Run α} {f : α → Run β}
    (hx : Silent x) (hf : ∀ a, Silent (f a)) : Silent (x >>= f) := by
  intro ev h
  rw [Run.bind_def] at h
  unfold Run.bind at h
  split at h
  · rcases List.mem_append.mp h with h | h
    · exact hx ev h
    · exact hf _ ev h
  · exact hx ev h
  · exact hx ev h

theorem outputEvents_silent {α : Type} {x : Run α} (h : Silent x) : outputEvents x.trace = [] := by
  unfold outputEvents
  rw [List.filter_eq_nil_iff]
  intro ev hev
  simp [h ev hev]

theorem dumpsOnly_of_error {α : Type} (K : Obj → Prop) (e : Err) :
    DumpsOnly K (fail e : Run α) := by
  intro a h
  simp [fail] at h

theorem dumpsOnly_of_panic {α : Type} (K : Obj → Prop) (m : String) :
    DumpsOnly K (goPanic m : Run α) := by
  intro a h
  simp [goPanic] at h

theorem dumpsOnly_bind {α β : Type} (K : Obj → Prop) {x : Run α} {f : α → Run β}
    (hx : Silent x) (hf : ∀ a, DumpsOnly K (f a)) : DumpsOnly K (x >>= f) := by
  intro b hb
  rw [Run.bind_def] at hb ⊢
  unfold Run.bind at hb ⊢
  split at hb
  · rename_i a hxa
    obtain ⟨o, hK, ho⟩ := hf a b hb
    refine ⟨o, hK, ?_⟩
    simp only [hxa]
    show outputEvents (x.trace ++ (f a).trace) = _
    unfold outputEvents at ho ⊢
    rw [List.filter_append, ho]
    have := outputEvents_silent hx
    unfold outputEvents at this
    rw [this]
    rfl
  · cases hb
  · cases hb

theorem dumpsOnly_call_emit {α : Type} (K : Obj → Prop) (ev : Event) (r : Except Err α)
    (g : α → Obj) (hev : ev.isOutput = false) (hK : ∀ v, r = .ok v → K (g v)) :
    DumpsOnly K (call ev r >>= fun v => emit (.formatObject (g v))) := by
  intro b hb
  rw [Run.bind_def] at hb ⊢
  unfold Run.bind at hb ⊢
  cases hr : r with
  | error e => simp [call, hr] at hb
  | ok v =>
    refine ⟨g v, hK v hr, ?_⟩
    have hf : (Event.formatObject (g v)).isOutput = true := rfl
    simp [call, emit, hr, outputEvents, List.filter_cons, hev, hf]

attribute [irreducible] Silent DumpsOnly

set_option maxRecDepth 10000 in
theorem createHost_dumpsOnly (W : World) (c : Context) (hformat : W.needsFormatting c = true) :
    DumpsOnly (fun o => ∃ id host, W.hostsGet id = .ok host ∧ o = .host host)
      (createHost W c) := by
  unfold createHost createHostPrompts
  simp only [hformat, if_true]
  repeat (first
    | exact dumpsOnly_call_emit _ _ _ _ rfl (fun v h => ⟨_, v, h, rfl⟩)
    | apply dumpsOnly_bind
    | apply silent_bind
    | exact silent_runPure _
    | exact silent_fail _
    | exact silent_goPanic _
    | exact silent_call _ _ rfl
    | exact silent_callErr _ _ rfl
    | exact silent_emit _ rfl
    | exact dumpsOnly_of_error _ _
    | exact dumpsOnly_of_panic _ _
    | split
    | dsimp only
    | intro _)

set_option maxRecDepth 10000 in
theorem setHostAvailabilityZone_dumpsOnly (W : World) (c : Context) (hformat : W.needsFormatting c = true) :
    DumpsOnly (fun o => ∃ id host, W.hostsGet id = .ok host ∧ o = .host host)
      (setHostAvailabilityZone W c) := by
  unfold setHostAvailabilityZone secondArg
  simp only [hformat, if_true]
  repeat (first
    | exact dumpsOnly_call_emit _ _ _ _ rfl (fun v h => ⟨_, v, h, rfl⟩)
    | apply dumpsOnly_bind
    | apply silent_bind
    | exact silent_runPure _
    | exact silent_fail _
    | exact silent_goPanic _
    | exact silent_call _ _ rfl
    | exact silent_callErr _ _ rfl
    | exact silent_emit _ rfl
    | exact dumpsOnly_of_error _ _
    | exact dumpsOnly_of_panic _ _
    | split
    | dsimp only
    | intro _)

set_option maxRecDepth 10000 in
theorem createTenant_dumpsOnly (W : World) (c : Context) (hformat : W.needsFormatting c = true) :
    DumpsOnly (fun o => ∃ id tenant, W.tenantsGet id = .ok tenant ∧ o = .tenant tenant)
      (createTenant W c) := by
  unfold createTenant
  simp only [hformat, if_true]
  repeat (first
    | exact dumpsOnly_call_emit _ _ _ _ rfl (fun v h => ⟨_, v, h, rfl⟩)
    | apply dumpsOnly_bind
    | apply silent_bind
    | exact silent_runPure _
    | exact silent_fail _
    | exact silent_goPanic _
    | exact silent_call _ _ rfl
    | exact silent_callErr _ _ rfl
    | exact silent_emit _ rfl
    | exact dumpsOnly_of_error _ _
    | exact dumpsOnly_of_panic _ _
    | split
    | dsimp only
    | intro _)

set_option maxRecDepth 10000 in
theorem createImage_dumpsOnly (W : World) (c : Context) (hformat : W.needsFormatting c = true) :
    DumpsOnly (fun o => ∃ id image, W.imagesGet id = .ok image ∧ o = .image image)
      (createImage W c) := by
  unfold createImage createImageUpload createImagePrompts
  simp only [hformat, if_true]
  repeat (first
    | exact dumpsOnly_call_emit _ _ _ _ rfl (fun v h => ⟨_, v, h, rfl⟩)
    | apply dumpsOnly_bind
    | apply silent_bind
    | exact silent_runPure _
    | exact silent_fail _
    | exact silent_goPanic _
    | exact silent_call _ _ rfl
    | exact silent_callErr _ _ rfl
    | exact silent_emit _ rfl
    | exact dumpsOnly_of_error _ _
    | exact dumpsOnly_of_panic _ _
    | split
    | dsimp only
    | intro _)

theorem DumpsOnly.dump {α : Type} {K : Obj → Prop} {x : Run α} (h : DumpsOnly K x) :
    ∀ a, x.result = .ok a → ∃ o, K o ∧ outputEvents x.trace = [.formatObject o] := by
  unfold DumpsOnly at h
  exact h

set_option linter.unusedVariables false in
/-- C18: with both the non-interactive flag and the format override set, the
commands do not select the same output mode.  A `showHost` that returns nil
prints the tab-separated script line of the host and makes no structured dump,
whereas `createHost`, `createTenant`, `createImage` and
`setHostAvailabilityZone`, when they return nil, make the structured dump of
the entity they fetch again, and print no script line.  So the outputs of
`showHost` and of `createHost` under the same two flags differ. -/
theorem both_flags_select_different_modes (W : World) (c c' : Context)
    (hset : c.nonInteractiveSet = true) (hformat : W.needsFormatting c = true)
    (hset' : c'.nonInteractiveSet = true) (hformat' : W.needsFormatting c' = true)
    (hshow : (showHost W c).result = .ok ()) :
    (∃ host, W.hostsGet c.first = .ok host ∧
      outputEvents (showHost W c).trace = [.stdout (hostScriptLine host)] ∧
      ∀ o, Event.formatObject o ∉ (showHost W c).trace) ∧
    ((createHost W c').result = .ok () → ∃ id host, W.hostsGet id = .ok host ∧
      outputEvents (createHost W c').trace = [.formatObject (.host host)]) ∧
    ((createTenant W c').result = .ok () → ∃ id tenant, W.tenantsGet id = .ok tenant ∧
      outputEvents (createTenant W c').trace = [.formatObject (.tenant tenant)]) ∧
    ((createImage W c').result = .ok () → ∃ id image, W.imagesGet id = .ok image ∧
      outputEvents (createImage W c').trace = [.formatObject (.image image)]) ∧
    ((setHostAvailabilityZone W c').result = .ok () → ∃ id host, W.hostsGet id = .ok host ∧
      outputEvents (setHostAvailabilityZone W c').trace = [.formatObject (.host host)]) ∧
    ((createHost W c').result = .ok () →
      outputEvents (showHost W c).trace ≠ outputEvents (createHost W c').trace) := by
  have hS : ∃ host, W.hostsGet c.first = .ok host ∧
      outputEvents (showHost W c).trace = [.stdout (hostScriptLine host)] ∧
      ∀ o, Event.formatObject o ∉ (showHost W c).trace := by
    revert hshow
    simp only [showHost, checkArgs, getClient, callErr, call, emit, printf, writeAll,
      Run.bind_def, Run.bind, hset, if_true]
    cases W.checkArgNum c.args 1 "host show <id>" <;> simp
    cases W.getClient (W.isNonInteractive c) <;> simp
    cases h : W.hostsGet c.first <;> simp [outputEvents, Event.isOutput]
  have hH := fun h => (createHost_dumpsOnly W c' hformat').dump () h
  have hT := fun h => (createTenant_dumpsOnly W c' hformat').dump () h
  have hI := fun h => (createImage_dumpsOnly W c' hformat').dump () h
  have hZ := fun h => (setHostAvailabilityZone_dumpsOnly W c' hformat').dump () h
  refine ⟨hS, ?_, ?_, ?_, ?_, ?_⟩
  · intro h
    obtain ⟨o, ⟨id, host, hget, rfl⟩, hout⟩ := hH h
    exact ⟨id, host, hget, hout⟩
  · intro h
    obtain ⟨o, ⟨id, tenant, hget, rfl⟩, hout⟩ := hT h
    exact ⟨id, tenant, hget, hout⟩
  · intro h
    obtain ⟨o, ⟨id, image, hget, rfl⟩, hout⟩ := hI h
    exact ⟨id, image, hget, hout⟩
  · intro h
    obtain ⟨o, ⟨id, host, hget, rfl⟩, hout⟩ := hZ h
    exact ⟨id, host, hget, hout⟩
  · intro h
    obtain ⟨o, _, hout⟩ := hH h
    obtain ⟨host, _, hs, _⟩ := hS
    rw [hs, hout]
    simp

/-- C18 in the sample world with `--non-interactive` and the format override
`json`: `host show h1` prints the script line, `host create` dumps the host
`e1` it fetched again. -/
theorem both_flags_select_different_modes_witness :
    outputEvents (showHost sampleWorld (sampleContext ["h1"] true "json")).trace
      = [.stdout "h1\troot\tpw\t10.0.0.2\tCLOUD\tREADY\t\tz1\t6.0\n"] ∧
    outputEvents (createHost sampleWorld (sampleContext [] true "json")).trace
      = [.formatObject (.host ⟨"e1", "root", "pw", "10.0.0.2", ["CLOUD"], "READY", [], "z1", "6.0"⟩)] ∧
    outputEvents (showHost sampleWorld (sampleContext ["h1"] true "json")).trace
      ≠ outputEvents (createHost sampleWorld (sampleContext [] true "json")).trace :=
  ⟨by decide, by decide,
   (both_flags_select_different_modes sampleWorld (sampleContext ["h1"] true "json")
      (sampleContext [] true "json") rfl rfl rfl rfl rfl).2.2.2.2.2 rfl⟩

/-! ## Parsing comma-separated names -/

theorem isSpace_ne_comma {ch : Char} (h : isSpace ch = true) : ch ≠ ',' := by
  intro hc
  subst hc
  revert h
  decide

theorem splitScan_comma (cur ws : List Char) (skip : Bool) (rest : List Char) :
    splitScan cur ws skip (',' :: rest) = String.mk cur.reverse :: splitScan [] [] true rest := by
  simp [splitScan]

theorem splitScan_letter (cur ws : List Char) (skip : Bool) (ch : Char) (rest : List Char)
    (hc : ch ≠ ',') (hs : isSpace ch = false) :
    splitScan cur ws skip (ch :: rest) = splitScan (ch :: (ws ++ cur)) [] false rest := by
  simp [splitScan, hc, hs]

theorem splitScan_letters (n : List Char) (hn : ∀ ch ∈ n, ch ≠ ',' ∧ isSpace ch = false) :
    ∀ (cur rest : List Char),
      splitScan cur [] false (n ++ rest) = splitScan (n.reverse ++ cur) [] false rest := by
  induction n with
  | nil => intro cur rest; rfl
  | cons ch n ih =>
    intro cur rest
    have hch := hn ch (List.mem_cons_self _ _)
    rw [List.cons_append, splitScan_letter _ _ _ _ _ hch.1 hch.2,
      ih (fun ch' h => hn ch' (List.mem_cons_of_mem _ h))]
    simp

theorem splitScan_blank (w : List Char) (hw : ∀ ch ∈ w, isSpace ch = true) :
    ∀ (cur ws rest : List Char),
      splitScan cur ws false (w ++ rest) = splitScan cur (w.reverse ++ ws) false rest := by
  induction w with
  | nil => intro cur ws rest; rfl
  | cons ch w ih =>
    intro cur ws rest
    have hch := hw ch (List.mem_cons_self _ _)
    have hne := isSpace_ne_comma hch
    rw [List.cons_append]
    have step : splitScan cur ws false (ch :: (w ++ rest))
        = splitScan cur (ch :: ws) false (w ++ rest) := by
      simp [splitScan, hne, hch]
    rw [step, ih (fun ch' h => hw ch' (List.mem_cons_of_mem _ h))]
    simp

theorem splitScan_blank_skip (w : List Char) (hw : ∀ ch ∈ w, isSpace ch = true) :
    ∀ (cur ws rest : List Char),
      splitScan cur ws true (w ++ rest) = splitScan cur ws true rest := by
  induction w with
  | nil => intro cur ws rest; rfl
  | cons ch w ih =>
    intro cur ws rest
    have hch := hw ch (List.mem_cons_self _ _)
    have hne := isSpace_ne_comma hch
    rw [List.cons_append]
    have step : splitScan cur ws true (ch :: (w ++ rest)) = splitScan cur ws true (w ++ rest) := by
      simp [splitScan, hne, hch]
    rw [step, ih (fun ch' h => hw ch' (List.mem_cons_of_mem _ h))]

theorem splitScan_name (n : List Char) (hne : n ≠ [])
    (hn : ∀ ch ∈ n, ch ≠ ',' ∧ isSpace ch = false) (cur ws : List Char) (skip : Bool)
    (rest : List Char) :
    splitScan cur ws skip (n ++ rest) = splitScan (n.reverse ++ (ws ++ cur)) [] false rest := by
  cases n with
  | nil => exact absurd rfl hne
  | cons ch n =>
    have hch := hn ch (List.mem_cons_self _ _)
    rw [List.cons_append, splitScan_letter _ _ _ _ _ hch.1 hch.2,
      splitScan_letters n (fun ch' h => hn ch' (List.mem_cons_of_mem _ h))]
    simp

theorem toList_ne_nil {s : String} (h : s ≠ "") : s.toList ≠ [] := by
  intro hl
  apply h
  apply String.ext
  exact hl

theorem splitScan_spaced (rest : List SpacedName)
    (hrest : ∀ r ∈ rest, IsBlank r.before ∧ IsBlank r.after ∧ IsListName r.name) :
    ∀ cur : List Char,
      splitScan cur [] false
          (String.join (rest.map fun r => r.before ++ "," ++ r.after ++ r.name)).toList
        = String.mk cur.reverse :: rest.map fun r => r.name := by
  induction rest with
  | nil => intro cur; simp [String.join, splitScan]
  | cons r rest ih =>
    intro cur
    obtain ⟨hb, ha, hname, hn⟩ := hrest r (List.mem_cons_self _ _)
    have e : (String.join ((r :: rest).map fun r => r.before ++ "," ++ r.after ++ r.name)).toList
        = r.before.toList ++ (',' :: (r.after.toList ++ (r.name.toList ++
            (String.join (rest.map fun r => r.before ++ "," ++ r.after ++ r.name)).toList))) := by
      rw [toList_join, toList_join]
      simp [String.toList]
    rw [e, splitScan_blank _ hb, splitScan_comma, splitScan_blank_skip _ ha,
      splitScan_name _ (toList_ne_nil hname) hn,
      ih (fun r' h => hrest r' (List.mem_cons_of_mem _ h))]
    simp [String.toList]

/-- Splitting at the commas undoes the joining with commas and white space. -/
theorem splitCommaList_joinWithCommas (first : String) (rest : List SpacedName)
    (hfirst : IsListName first)
    (hrest : ∀ r ∈ rest, IsBlank r.before ∧ IsBlank r.after ∧ IsListName r.name) :
    splitCommaList (joinWithCommas first rest) = first :: rest.map fun r => r.name := by
  unfold splitCommaList joinWithCommas
  have e : (first ++ String.join (rest.map fun r => r.before ++ "," ++ r.after ++ r.name)).toList
      = first.toList ++
        (String.join (rest.map fun r => r.before ++ "," ++ r.after ++ r.name)).toList := by
    simp [String.toList]
  rw [e, splitScan_name _ (toList_ne_nil hfirst.1) hfirst.2, splitScan_spaced rest hrest]
  simp [String.toList]

theorem joinWithCommas_ne_empty (first : String) (rest : List SpacedName)
    (hfirst : first ≠ "") : joinWithCommas first rest ≠ "" := by
  intro h
  have hl := congrArg String.length h
  unfold joinWithCommas at hl
  have hpos : 0 < first.length := by
    rcases Nat.eq_zero_or_pos first.length with h0 | h0
    · exact absurd (String.ext (List.length_eq_zero.mp h0)) hfirst
    · exact h0
  simp only [String.length_append] at hl
  have : "".length = 0 := rfl
  omega

theorem mem_bind_left {α β : Type} {x : Run α} (f : α → Run β) {ev : Event}
    (h : ev ∈ x.trace) : ev ∈ (x >>= f).trace := by
  rw [Run.bind_def]
  unfold Run.bind
  split
  · exact List.mem_append_left _ h
  · exact h
  · exact h

theorem mem_bind_right {α β : Type} {x : Run α} {f : α → Run β} {ev : Event} {a : α}
    (hx : x.result = .ok a) (h : ev ∈ (f a).trace) : ev ∈ (x >>= f).trace := by
  rw [Run.bind_def]
  unfold Run.bind
  simp only [hx]
  exact List.mem_append_right _ h

theorem createTenant_sends_groups (W : World) (c : Context)
    (hni : W.isNonInteractive c = true) (hargs : c.args.length ≤ 1)
    (hname : c.first ≠ "") (hclient : W.getClient true = none) :
    Event.api (.tenantsCreate ⟨c.first,
        if c.stringFlag "security-groups" ≠ "" then splitCommaList (c.stringFlag "security-groups")
        else []⟩)
      ∈ (createTenant W c).trace := by
  have hlen : ¬ c.args.length > 1 := by omega
  have hne : ¬ c.first.length = 0 := fun h => hname (String.ext (List.length_eq_zero.mp h))
  unfold createTenant
  simp only [hlen, hni, if_false, Bool.not_true, Bool.false_eq_true]
  show _ ∈ (if c.first.length = 0 then _ else _ : Run Unit).trace
  rw [if_neg hne]
  apply mem_bind_right (a := ()) (by simp [getClient, callErr, hclient])
  apply mem_bind_left
  simp [taskCall, call]

theorem setSecurityGroups_sends_groups (W : World) (c : Context) (id groups : String)
    (hargs : c.args = [id, groups])
    (hcheck : W.checkArgNum c.args 2
      "tenant set_security_groups <id> <comma-separated security group names>" = none)
    (hclient : W.getClient (W.isNonInteractive c) = none) :
    Event.api (.tenantsSetSecurityGroups id
        (if groups ≠ "" then splitCommaList groups else []))
      ∈ (setSecurityGroups W c).trace := by
  unfold setSecurityGroups
  apply mem_bind_right (a := ()) (by simp [checkArgs, callErr, hcheck])
  apply mem_bind_right (a := groups) (by simp [secondArg, hargs, Run.pure])
  apply mem_bind_right (a := ()) (by simp [getClient, callErr, hclient])
  apply mem_bind_left
  simp [taskCall, call, Context.first, hargs]

/-- C17: the parsing of security groups in `createTenant` and
`setSecurityGroups` undoes the joining with commas.  For every list of one or
more names, each not empty and without comma and white space, joined by commas
with any amount of white space around them, the parsed list is exactly these
names in the same order, and this is the list the two commands send to the
remote; the empty string gives the empty list, not a list with one empty
name. -/
theorem security_groups_parse_inverts_join (W : World) (c : Context) (first : String)
    (rest : List SpacedName)
    (hfirst : IsListName first)
    (hrest : ∀ r ∈ rest, IsBlank r.before ∧ IsBlank r.after ∧ IsListName r.name) :
    (if joinWithCommas first rest ≠ "" then splitCommaList (joinWithCommas first rest) else [])
      = first :: rest.map (fun r => r.name) ∧
    (if ("" : String) ≠ "" then splitCommaList "" else []) = ([] : List String) ∧
    (W.isNonInteractive c = true → c.args.length ≤ 1 → c.first ≠ "" →
      W.getClient true = none →
      (c.stringFlag "security-groups" = joinWithCommas first rest →
        Event.api (.tenantsCreate ⟨c.first, first :: rest.map (fun r => r.name)⟩)
          ∈ (createTenant W c).trace) ∧
      (c.stringFlag "security-groups" = "" →
        Event.api (.tenantsCreate ⟨c.first, []⟩) ∈ (createTenant W c).trace)) ∧
    (∀ id groups, c.args = [id, groups] →
      W.checkArgNum c.args 2
        "tenant set_security_groups <id> <comma-separated security group names>" = none →
      W.getClient (W.isNonInteractive c) = none →
      (groups = joinWithCommas first rest →
        Event.api (.tenantsSetSecurityGroups id (first :: rest.map (fun r => r.name)))
          ∈ (setSecurityGroups W c).trace) ∧
      (groups = "" →
        Event.api (.tenantsSetSecurityGroups id []) ∈ (setSecurityGroups W c).trace)) := by
  have hparse : (if joinWithCommas first rest ≠ "" then
      splitCommaList (joinWithCommas first rest) else [])
      = first :: rest.map (fun r => r.name) := by
    rw [if_pos (joinWithCommas_ne_empty first rest hfirst.1)]
    exact splitCommaList_joinWithCommas first rest hfirst hrest
  refine ⟨hparse, by simp, ?_, ?_⟩
  · intro hni hargs hname hclient
    have h := createTenant_sends_groups W c hni hargs hname hclient
    constructor
    · intro hflag
      rw [hflag, hparse] at h
      exact h
    · intro hflag
      rw [hflag] at h
      simpa using h
  · intro id groups hargs hcheck hclient
    have h := setSecurityGroups_sends_groups W c id groups hargs hcheck hclient
    constructor
    · intro hg
      rw [hg, hparse] at h
      exact h
    · intro hg
      rw [hg] at h
      simpa using h

/-- C17 on the text `a , b,c`. -/
theorem security_groups_parse_inverts_join_witness :
    (if joinWithCommas "a" [⟨" ", " ", "b"⟩, ⟨"", "", "c"⟩] ≠ "" then
        splitCommaList (joinWithCommas "a" [⟨" ", " ", "b"⟩, ⟨"", "", "c"⟩]) else [])
      = ["a", "b", "c"] ∧
    joinWithCommas "a" [⟨" ", " ", "b"⟩, ⟨"", "", "c"⟩] = "a , b,c" :=
  ⟨(security_groups_parse_inverts_join sampleWorld (sampleContext [] true "") "a"
      [⟨" ", " ", "b"⟩, ⟨"", "", "c"⟩] (by decide) (by decide)).1,
   by decide⟩

/-! ## The script line of a host -/

theorem intercalate_go_toList (sep : String) (xs : List String) :
    ∀ acc : String, (String.intercalate.go acc sep xs).toList
      = acc.toList ++ (xs.map fun x => sep.toList ++ x.toList).flatten := by
  induction xs with
  | nil => intro acc; simp [String.intercalate.go]
  | cons x xs ih =>
    intro acc
    rw [String.intercalate.go, ih]
    simp [String.toList]

theorem intercalate_cons_toList (sep x : String) (xs : List String) :
    (sep.intercalate (x :: xs)).toList
      = x.toList ++ (xs.map fun y => sep.toList ++ y.toList).flatten := by
  rw [String.intercalate, intercalate_go_toList]

theorem not_mem_intercalate (ch : Char) (sep : String) (xs : List String)
    (hsep : ch ∉ sep.toList) (hxs : ∀ x ∈ xs, ch ∉ x.toList) :
    ch ∉ (sep.intercalate xs).toList := by
  cases xs with
  | nil => simp [String.intercalate, String.toList]
  | cons x xs =>
    rw [intercalate_cons_toList]
    simp only [List.mem_append, List.mem_flatten, List.mem_map, not_or, not_exists, not_and]
    refine ⟨hxs x (List.mem_cons_self _ _), ?_⟩
    intro l hl hmem
    obtain ⟨y, hy, rfl⟩ := hl
    rcases List.mem_append.mp hmem with h | h
    · exact hsep h
    · exact hxs y (List.mem_cons_of_mem _ hy) h

/-- Replacing the spaces of space-joined texts gives the comma-joined texts. -/
theorem replaceSpaces_intercalate (xs : List String) (hxs : ∀ x ∈ xs, ' ' ∉ x.toList) :
    replaceSpaces (" ".intercalate xs) = ",".intercalate xs := by
  have hmap : ∀ l : List Char, ' ' ∉ l → l.map (fun ch => if ch = ' ' then ',' else ch) = l := by
    intro l hl
    induction l with
    | nil => rfl
    | cons a l ih =>
      have ha : a ≠ ' ' := fun h => hl (h ▸ List.mem_cons_self _ _)
      simp only [List.map_cons, ha, if_false]
      rw [ih (fun h => hl (List.mem_cons_of_mem _ h))]
  apply String.ext
  cases xs with
  | nil => rfl
  | cons x xs =>
    show ((" ".intercalate (x :: xs)).toList.map _) = (",".intercalate (x :: xs)).toList
    rw [intercalate_cons_toList, intercalate_cons_toList, List.map_append,
      hmap _ (hxs x (List.mem_cons_self _ _))]
    congr 1
    induction xs with
    | nil => rfl
    | cons y ys ih =>
      have hy : ' ' ∉ y.toList := hxs y (List.mem_cons_of_mem _ (List.mem_cons_self _ _))
      simp only [List.map_cons, List.flatten_cons, List.map_append]
      rw [ih (fun z hz => by
        rcases List.mem_cons.mp hz with h | h
        · exact hxs z (h ▸ List.mem_cons_self _ _)
        · exact hxs z (List.mem_cons_of_mem _ (List.mem_cons_of_mem _ h)))]
      rw [hmap _ hy]
      rfl

theorem dropWhile_of_head (p : Char → Bool) (l : List Char)
    (h : ∀ a, l.head? = some a → p a = false) : l.dropWhile p = l := by
  cases l with
  | nil => rfl
  | cons a l => simp [List.dropWhile, h a rfl]

/-- Trimming the square brackets of a bracketed text without inner bracket
gives the text. -/
theorem stringsTrim_brackets (content : String)
    (h : ∀ ch ∈ content.toList, ch ≠ '[' ∧ ch ≠ ']') :
    stringsTrim ("[" ++ content ++ "]") "[]" = content := by
  have hp : ∀ ch ∈ content.toList, "[]".toList.contains ch = false := by
    intro ch hch
    obtain ⟨h1, h2⟩ := h ch hch
    simp [String.toList, h1, h2]
  apply String.ext
  show (((("[" ++ content ++ "]").toList.dropWhile fun ch => "[]".toList.contains ch).reverse.dropWhile
    fun ch => "[]".toList.contains ch).reverse) = content.toList
  have e : ("[" ++ content ++ "]").toList = '[' :: (content.toList ++ [']']) := by
    simp [String.toList]
  rw [e]
  have e1 : ('[' :: (content.toList ++ [']'])).dropWhile (fun ch => "[]".toList.contains ch)
      = (content.toList ++ [']']).dropWhile (fun ch => "[]".toList.contains ch) := by
    rw [List.dropWhile_cons_of_pos]
    decide
  rw [e1]
  cases hc : content.toList with
  | nil => decide
  | cons a l =>
    have ha : "[]".toList.contains a = false := hp a (hc ▸ List.mem_cons_self _ _)
    have e2 : ((a :: l) ++ [']']).dropWhile (fun ch => "[]".toList.contains ch)
        = (a :: l) ++ [']'] := by
      rw [List.cons_append, List.dropWhile_cons_of_neg]
      rw [ha]
      exact Bool.false_ne_true
    rw [e2, List.reverse_append]
    have e3 : ([']'].reverse ++ (a :: l).reverse).dropWhile (fun ch => "[]".toList.contains ch)
        = (a :: l).reverse.dropWhile (fun ch => "[]".toList.contains ch) := by
      show (']' :: (a :: l).reverse).dropWhile _ = _
      rw [List.dropWhile_cons_of_pos]
      decide
    rw [e3, dropWhile_of_head, List.reverse_reverse]
    intro b hb
    have hmem : b ∈ (a :: l).reverse := List.mem_of_mem_head? hb
    rw [List.mem_reverse, ← hc] at hmem
    exact hp b hmem

theorem stringsTrimLeft_map (content : String) :
    stringsTrimLeft ("map[" ++ content ++ "]") "map" = "[" ++ content ++ "]" := by
  apply String.ext
  show (("map[" ++ content ++ "]").toList.dropWhile fun ch => "map".toList.contains ch)
    = ("[" ++ content ++ "]").toList
  have e : ("map[" ++ content ++ "]").toList = 'm' :: 'a' :: 'p' :: '[' :: (content.toList ++ [']']) := by
    simp [String.toList]
  have e' : ("[" ++ content ++ "]").toList = '[' :: (content.toList ++ [']']) := by
    simp [String.toList]
  rw [e, e', List.dropWhile_cons_of_pos (by decide), List.dropWhile_cons_of_pos (by decide),
    List.dropWhile_cons_of_pos (by decide), List.dropWhile_cons_of_neg (by decide)]

theorem cleanText_pair (kv : String × String) (h1 : CleanText kv.1) (h2 : CleanText kv.2) :
    ∀ ch ∈ (kv.1 ++ ":" ++ kv.2).toList,
      ch ≠ '\t' ∧ ch ≠ '\n' ∧ ch ≠ ' ' ∧ ch ≠ '[' ∧ ch ≠ ']' := by
  intro ch hch
  have e : (kv.1 ++ ":" ++ kv.2).toList = kv.1.toList ++ ':' :: kv.2.toList := by
    simp [String.toList]
  rw [e] at hch
  rcases List.mem_append.mp hch with h | h
  · exact h1 ch h
  · rcases List.mem_cons.mp h with h | h
    · subst h
      decide
    · exact h2 ch h

/-- The script fields of the tags and of the metadata of a clean host, as the
source computes them with `fmt.Sprint`, `strings.Trim` and `strings.Replace`. -/
theorem hostScriptLine_tags_metadata (host : Host) (hclean : host.Clean) :
    replaceSpaces (stringsTrim (sprintSlice host.Tags) "[]") = ",".intercalate host.Tags ∧
    replaceSpaces (stringsTrim (stringsTrimLeft (sprintMap host.Metadata) "map") "[]")
      = ",".intercalate (host.Metadata.map fun kv => kv.1 ++ ":" ++ kv.2) := by
  obtain ⟨_, _, _, _, _, _, _, htags, hmeta⟩ := hclean
  have hpairs : ∀ x ∈ host.Metadata.map (fun kv => kv.1 ++ ":" ++ kv.2),
      ∀ ch ∈ x.toList, ch ≠ '\t' ∧ ch ≠ '\n' ∧ ch ≠ ' ' ∧ ch ≠ '[' ∧ ch ≠ ']' := by
    intro x hx
    obtain ⟨kv, hkv, rfl⟩ := List.mem_map.mp hx
    exact cleanText_pair kv (hmeta kv hkv).1 (hmeta kv hkv).2
  constructor
  · unfold sprintSlice
    rw [stringsTrim_brackets, replaceSpaces_intercalate]
    · intro x hx hmem
      exact (htags x hx _ hmem).2.2.1 rfl
    · intro ch hch
      constructor
      · intro h
        subst h
        exact not_mem_intercalate _ _ _ (by decide)
          (fun x hx hmem => (htags x hx _ hmem).2.2.2.1 rfl) hch
      · intro h
        subst h
        exact not_mem_intercalate _ _ _ (by decide)
          (fun x hx hmem => (htags x hx _ hmem).2.2.2.2 rfl) hch
  · unfold sprintMap
    rw [stringsTrimLeft_map, stringsTrim_brackets, replaceSpaces_intercalate]
    · intro x hx hmem
      exact (hpairs x hx _ hmem).2.2.1 rfl
    · intro ch hch
      constructor
      · intro h
        subst h
        exact not_mem_intercalate _ _ _ (by decide)
          (fun x hx hmem => (hpairs x hx _ hmem).2.2.2.1 rfl) hch
      · intro h
        subst h
        exact not_mem_intercalate _ _ _ (by decide)
          (fun x hx hmem => (hpairs x hx _ hmem).2.2.2.2 rfl) hch

theorem hostScriptLine_eq (host : Host) (hclean : host.Clean) :
    hostScriptLine host = "\t".intercalate (hostFields host) ++ "\n" := by
  obtain ⟨htag, hmeta⟩ := hostScriptLine_tags_metadata host hclean
  unfold hostScriptLine
  simp only [htag, hmeta]
  apply String.ext
  simp [hostFields, String.intercalate, String.intercalate.go, String.toList]

theorem hostFields_toList (host : Host) :
    ("\t".intercalate (hostFields host)).toList
      = host.ID.toList ++ '\t' :: (host.Username.toList ++ '\t' :: (host.Password.toList ++ '\t' ::
        (host.Address.toList ++ '\t' :: ((",".intercalate host.Tags).toList ++ '\t' ::
        (host.State.toList ++ '\t' ::
        ((",".intercalate (host.Metadata.map fun kv => kv.1 ++ ":" ++ kv.2)).toList ++ '\t' ::
        (host.AvailabilityZone.toList ++ '\t' :: host.EsxVersion.toList))))))) := by
  simp [hostFields, String.intercalate, String.intercalate.go, String.toList]

theorem hostFields_plain (host : Host) (hclean : host.Clean) (ch : Char)
    (hch : ch = '\t' ∨ ch = '\n') :
    ∀ field ∈ hostFields host, ch ∉ field.toList := by
  obtain ⟨h1, h2, h3, h4, h5, h6, h7, htags, hmeta⟩ := hclean
  have hclean_of : ∀ s : String, CleanText s → ch ∉ s.toList := by
    intro s hs hmem
    rcases hch with rfl | rfl
    · exact (hs _ hmem).1 rfl
    · exact (hs _ hmem).2.1 rfl
  have hcomma : ch ∉ ",".toList := by
    rcases hch with rfl | rfl <;> decide
  have htagsField : ch ∉ (",".intercalate host.Tags).toList :=
    not_mem_intercalate _ _ _ hcomma (fun x hx => hclean_of x (htags x hx))
  have hmetaField :
      ch ∉ (",".intercalate (host.Metadata.map fun kv => kv.1 ++ ":" ++ kv.2)).toList := by
    apply not_mem_intercalate _ _ _ hcomma
    intro x hx hmem
    obtain ⟨kv, hkv, rfl⟩ := List.mem_map.mp hx
    have := cleanText_pair kv (hmeta kv hkv).1 (hmeta kv hkv).2 ch hmem
    rcases hch with rfl | rfl
    · exact this.1 rfl
    · exact this.2.1 rfl
  intro field hfield
  simp only [hostFields, List.mem_cons, List.mem_singleton, List.not_mem_nil, or_false] at hfield
  rcases hfield with rfl | rfl | rfl | rfl | rfl | rfl | rfl | rfl | rfl
  · exact hclean_of _ h1
  · exact hclean_of _ h2
  · exact hclean_of _ h3
  · exact hclean_of _ h4
  · exact htagsField
  · exact hclean_of _ h5
  · exact hmetaField
  · exact hclean_of _ h6
  · exact hclean_of _ h7

/-- C12: for every host whose string fields, tags and metadata keys and values
contain no tab, newline, space and square bracket, `showHost` in
non-interactive mode returns nil and its whole output is one printed line,
which splits at its tabs into exactly the nine fields ID, Username, Password,
Address, Tags, State, Metadata, AvailabilityZone, EsxVersion, the tags being
joined by `,` (empty for no tags) and the metadata being the `key:value` pairs
joined by `,`; no header and no label is printed. -/
theorem showHost_script_line (W : World) (c : Context) (host : Host)
    (hargs : W.checkArgNum c.args 1 "host show <id>" = none)
    (hclient : W.getClient (W.isNonInteractive c) = none)
    (hget : W.hostsGet c.first = .ok host)
    (hset : c.nonInteractiveSet = true)
    (hclean : host.Clean) :
    (showHost W c).result = .ok () ∧
    outputEvents (showHost W c).trace
      = [.stdout ("\t".intercalate (hostFields host) ++ "\n")] ∧
    linesOf (stdoutText (showHost W c).trace) = ["\t".intercalate (hostFields host), ""] ∧
    fieldsOf ("\t".intercalate (hostFields host))
      = [ host.ID, host.Username, host.Password, host.Address,
          ",".intercalate host.Tags, host.State,
          ",".intercalate (host.Metadata.map fun kv => kv.1 ++ ":" ++ kv.2),
          host.AvailabilityZone, host.EsxVersion ] ∧
    (host.Tags = [] → ",".intercalate host.Tags = "") := by
  have hrun : showHost W c = ⟨[.checkArgNum c.args 1 "host show <id>",
      .getClient (W.isNonInteractive c), .api (.hostsGet c.first),
      .stdout ("\t".intercalate (hostFields host) ++ "\n")], .ok ()⟩ := by
    simp [showHost, checkArgs, getClient, callErr, call, printf, emit, Run.bind_def, Run.bind,
      hargs, hclient, hget, hset, hostScriptLine_eq host hclean]
  have htab := hostFields_plain host hclean '\t' (Or.inl rfl)
  have hnl := hostFields_plain host hclean '\n' (Or.inr rfl)
  refine ⟨by rw [hrun], by rw [hrun]; rfl, ?_, ?_, ?_⟩
  · rw [hrun]
    have e : stdoutText [.checkArgNum c.args 1 "host show <id>",
        .getClient (W.isNonInteractive c), .api (.hostsGet c.first),
        .stdout ("\t".intercalate (hostFields host) ++ "\n")]
        = String.join (["\t".intercalate (hostFields host)].map fun b => b ++ "\n") := by
      apply String.ext
      simp [stdoutText, String.join, String.toList]
    rw [e]
    apply linesOf_join
    intro b hb
    simp only [List.mem_singleton] at hb
    subst hb
    rw [hostFields_toList]
    have m : ∀ field ∈ hostFields host, '\n' ∉ field.toList := hnl
    simp only [hostFields, List.mem_cons, List.mem_singleton, List.not_mem_nil, or_false,
      forall_eq_or_imp, forall_eq] at m
    obtain ⟨m1, m2, m3, m4, m5, m6, m7, m8, m9⟩ := m
    simp only [List.mem_append, List.mem_cons, not_or]
    exact ⟨m1, by decide, m2, by decide, m3, by decide, m4, by decide, m5, by decide, m6,
      by decide, m7, by decide, m8, by decide, m9⟩
  · have m : ∀ field ∈ hostFields host, '\t' ∉ field.toList := htab
    simp only [hostFields, List.mem_cons, List.mem_singleton, List.not_mem_nil, or_false,
      forall_eq_or_imp, forall_eq] at m
    obtain ⟨m1, m2, m3, m4, m5, m6, m7, m8, m9⟩ := m
    unfold fieldsOf
    rw [hostFields_toList, splitOn_first _ _ _ m1, splitOn_first _ _ _ m2,
      splitOn_first _ _ _ m3, splitOn_first _ _ _ m4, splitOn_first _ _ _ m5,
      splitOn_first _ _ _ m6, splitOn_first _ _ _ m7, splitOn_first _ _ _ m8,
      splitOn_single _ _ m9]
    rfl
  · intro h
    rw [h]
    rfl

/-- C12 on a host with the tags `CLOUD`, `MGMT` and the metadata `a:b`,
`dns:10.0.0.1`. -/
theorem showHost_script_line_witness :
    linesOf (stdoutText (showHost managementWorld (sampleContext ["h9"] true "")).trace)
      = ["h9\troot\tpw\t10.0.0.9\tCLOUD,MGMT\tREADY\ta:b,dns:10.0.0.1\tz1\t6.0", ""] ∧
    fieldsOf "h9\troot\tpw\t10.0.0.9\tCLOUD,MGMT\tREADY\ta:b,dns:10.0.0.1\tz1\t6.0"
      = ["h9", "root", "pw", "10.0.0.9", "CLOUD,MGMT", "READY", "a:b,dns:10.0.0.1", "z1", "6.0"] :=
  ⟨(showHost_script_line managementWorld (sampleContext ["h9"] true "") managementHost
      rfl rfl rfl rfl (by decide)).2.2.1,
   (showHost_script_line managementWorld (sampleContext ["h9"] true "") managementHost
      rfl rfl rfl rfl (by decide)).2.2.2.1⟩

/-! ## The wait on a task -/

theorem queryCount_polls (taskID : String) (interval k : Nat) (rest : List WaitEvent) :
    queryCount (polls taskID interval k ++ rest) = k + queryCount rest := by
  induction k with
  | zero => simp [polls]
  | succ k ih =>
    have h : queryCount (polls taskID interval (k + 1) ++ rest)
        = queryCount (polls taskID interval k ++ rest) + 1 := by
      simp [polls, queryCount, List.filter_cons, WaitEvent.isQuery]
    rw [h, ih]
    omega

/-- One round of the loop on a task that is not terminal, before the deadline. -/
theorem specWaitLoop_pending (tasksGet : String → Nat → Except Err TaskStatus)
    (taskID : String) (policy : PollPolicy) (fuel n : Nat)
    (hpending : pending (tasksGet taskID n) = true)
    (hdeadline : (n + 1) * policy.interval ≤ policy.deadline) :
    specWaitLoop tasksGet taskID policy (fuel + 1) n
      = (specWaitLoop tasksGet taskID policy fuel (n + 1)).map fun r =>
          { r with events := .query taskID :: .sleep policy.interval :: r.events } := by
  rw [specWaitLoop]
  cases h : tasksGet taskID n with
  | error e => simp [h, pending] at hpending
  | ok status =>
    simp only [h, pending, Bool.and_eq_true, bne_iff_ne, ne_eq] at hpending
    simp only [if_neg hpending.1, if_neg hpending.2, if_neg (Nat.not_lt.mpr hdeadline)]

/-- The round of the loop that finds the deadline elapsed. -/
theorem specWaitLoop_timeout (tasksGet : String → Nat → Except Err TaskStatus)
    (taskID : String) (policy : PollPolicy) (fuel n : Nat)
    (hpending : pending (tasksGet taskID n) = true)
    (hdeadline : policy.deadline < (n + 1) * policy.interval) :
    specWaitLoop tasksGet taskID policy (fuel + 1) n
      = some ⟨[.query taskID, .sleep policy.interval], "", some .pollTimeout⟩ := by
  rw [specWaitLoop]
  cases h : tasksGet taskID n with
  | error e => simp [h, pending] at hpending
  | ok status =>
    simp only [h, pending, Bool.and_eq_true, bne_iff_ne, ne_eq] at hpending
    simp only [if_neg hpending.1, if_neg hpending.2, if_pos hdeadline]

/-- After `k` polls that found the task not terminal, within the deadline, the
loop goes on from query number `n + k`. -/
theorem specWaitLoop_polls (tasksGet : String → Nat → Except Err TaskStatus)
    (taskID : String) (policy : PollPolicy) (k : Nat) :
    ∀ fuel n, (∀ i < k, pending (tasksGet taskID (n + i)) = true) →
      (n + k) * policy.interval ≤ policy.deadline →
      specWaitLoop tasksGet taskID policy (fuel + k) n
        = (specWaitLoop tasksGet taskID policy fuel (n + k)).map fun r =>
            { r with events := polls taskID policy.interval k ++ r.events } := by
  induction k with
  | zero =>
    intro fuel n _ _
    cases specWaitLoop tasksGet taskID policy fuel n <;> simp [polls]
  | succ k ih =>
    intro fuel n hpending hdeadline
    have h0 : pending (tasksGet taskID n) = true := by simpa using hpending 0 (by omega)
    have hd0 : (n + 1) * policy.interval ≤ policy.deadline :=
      le_trans (Nat.mul_le_mul_right _ (by omega)) hdeadline
    have hrest : ∀ i < k, pending (tasksGet taskID (n + 1 + i)) = true := by
      intro i hi
      have := hpending (i + 1) (by omega)
      rwa [show n + (i + 1) = n + 1 + i by omega] at this
    have hdk : (n + 1 + k) * policy.interval ≤ policy.deadline := by
      rwa [show n + 1 + k = n + (k + 1) by omega]
    rw [show fuel + (k + 1) = (fuel + k) + 1 by omega,
      specWaitLoop_pending tasksGet taskID policy (fuel + k) n h0 hd0,
      ih fuel (n + 1) hrest hdk, show n + 1 + k = n + (k + 1) by omega]
    cases specWaitLoop tasksGet taskID policy fuel (n + (k + 1)) <;> simp [polls]

/-- With a positive interval the loop returns, from every query number up to
`deadline / interval` on, once it may take the queries left up to there; the
queries it takes and the ones before are at most `deadline / interval + 1`. -/
theorem specWaitLoop_returns (tasksGet : String → Nat → Except Err TaskStatus)
    (taskID : String) (policy : PollPolicy) (hpos : 0 < policy.interval) :
    ∀ fuel n, n ≤ policy.deadline / policy.interval →
      policy.deadline / policy.interval < n + fuel →
      ∃ r, specWaitLoop tasksGet taskID policy fuel n = some r ∧
        queryCount r.events + n ≤ policy.deadline / policy.interval + 1 := by
  intro fuel
  induction fuel with
  | zero => intro n h1 h2; omega
  | succ fuel ih =>
    intro n h1 h2
    unfold specWaitLoop
    cases h : tasksGet taskID n with
    | error e => exact ⟨_, rfl, by simp [queryCount, WaitEvent.isQuery]; omega⟩
    | ok status =>
      dsimp only
      split
      · exact ⟨_, rfl, by simp [queryCount, WaitEvent.isQuery]; omega⟩
      · split
        · exact ⟨_, rfl, by simp [queryCount, WaitEvent.isQuery]; omega⟩
        · split
          · exact ⟨_, rfl, by simp [queryCount, WaitEvent.isQuery]; omega⟩
          · rename_i hd
            have hn : n + 1 ≤ policy.deadline / policy.interval := by
              rw [Nat.le_div_iff_mul_le hpos]
              omega
            obtain ⟨r, hr, hcount⟩ := ih (n + 1) hn (by omega)
            refine ⟨_, by rw [hr]; rfl, ?_⟩
            simp only [queryCount, List.filter_cons, WaitEvent.isQuery] at hcount ⊢
            simp only [if_true, Bool.false_eq_true, if_false, List.length_cons]
            omega

/-- C13: when the first `k` status queries show the task not terminal and query
number `k + 1` shows it COMPLETED, within the deadline (the `k` sleeps before
that query do not exceed it), the wait returns the entity identifier recorded on
the task and no error, after `k` polls followed by one more query, so after
exactly `k + 1` queries. -/
theorem wait_returns_entity (tasksGet : String → Nat → Except Err TaskStatus)
    (taskID : String) (policy : PollPolicy) (k : Nat) (status : TaskStatus)
    (hpending : ∀ i < k, pending (tasksGet taskID i) = true)
    (hdone : tasksGet taskID k = .ok status)
    (hstate : status.state = .completed)
    (hdeadline : k * policy.interval ≤ policy.deadline)
    (fuel : Nat) (hfuel : k < fuel) :
    specWaitOnTaskOperation tasksGet taskID policy fuel
      = some ⟨polls taskID policy.interval k ++ [.query taskID], status.entityID, none⟩ ∧
    queryCount (polls taskID policy.interval k ++ [.query taskID]) = k + 1 := by
  obtain ⟨m, rfl⟩ : ∃ m, fuel = (m + 1) + k := ⟨fuel - k - 1, by omega⟩
  refine ⟨?_, by rw [queryCount_polls]; simp [queryCount, WaitEvent.isQuery]⟩
  unfold specWaitOnTaskOperation
  rw [specWaitLoop_polls tasksGet taskID policy k (m + 1) 0
    (by simpa using hpending) (by simpa using hdeadline)]
  simp [specWaitLoop, hdone, hstate]

/-- C13 on its scenario: task `t1` is STARTED twice and then COMPLETED with
entity `e1`; the wait returns `("e1", nil)` after exactly 3 queries. -/
theorem wait_returns_entity_witness :
    specWaitOnTaskOperation startedTwice "t1" samplePolicy 3
      = some ⟨[.query "t1", .sleep 2, .query "t1", .sleep 2, .query "t1"], "e1", none⟩ ∧
    queryCount [.query "t1", .sleep 2, .query "t1", .sleep 2, .query "t1"] = 3 :=
  wait_returns_entity startedTwice "t1" samplePolicy 2 ⟨.completed, "e1", ""⟩
    (by decide) rfl rfl (by decide) 3 (by decide)

/-- C14: when the first `k` status queries show the task not terminal and query
number `k + 1`, taken before the deadline has elapsed, shows it in ERROR, the
wait returns the empty entity identifier and `OperationFailed` with the detail
supplied by the remote; that query is its last event, so it has taken exactly
`k + 1` queries and takes no further one. -/
theorem wait_operation_failed (tasksGet : String → Nat → Except Err TaskStatus)
    (taskID : String) (policy : PollPolicy) (k : Nat) (status : TaskStatus)
    (hpending : ∀ i < k, pending (tasksGet taskID i) = true)
    (hfailed : tasksGet taskID k = .ok status)
    (hstate : status.state = .error)
    (hdeadline : k * policy.interval ≤ policy.deadline)
    (fuel : Nat) (hfuel : k < fuel) :
    specWaitOnTaskOperation tasksGet taskID policy fuel
      = some ⟨polls taskID policy.interval k ++ [.query taskID], "",
          some (.operationFailed status.detail)⟩ ∧
    queryCount (polls taskID policy.interval k ++ [.query taskID]) = k + 1 := by
  obtain ⟨m, rfl⟩ : ∃ m, fuel = (m + 1) + k := ⟨fuel - k - 1, by omega⟩
  refine ⟨?_, by rw [queryCount_polls]; simp [queryCount, WaitEvent.isQuery]⟩
  unfold specWaitOnTaskOperation
  rw [specWaitLoop_polls tasksGet taskID policy k (m + 1) 0
    (by simpa using hpending) (by simpa using hdeadline)]
  simp [specWaitLoop, hfailed, hstate]

/-- C14 on its scenario: the first query for task `t2` shows ERROR with the
detail `disk full`; the wait returns `("", OperationFailed "disk full")` after
exactly 1 query, whatever the number of queries it may take. -/
theorem wait_operation_failed_witness :
    specWaitOnTaskOperation diskFull "t2" samplePolicy 5
      = some ⟨[.query "t2"], "", some (.operationFailed "disk full")⟩ ∧
    queryCount [.query "t2"] = 1 :=
  wait_operation_failed diskFull "t2" samplePolicy 0 ⟨.error, "", "disk full"⟩
    (by decide) rfl rfl (by decide) 5 (by decide)

/-- C15: with a positive poll interval the wait returns for every sequence of
status results, once it may take `deadline / interval + 1` queries, and it has
then taken at most `deadline / interval + 1` queries; and when every query up to
the deadline shows the task not terminal, it returns `PollTimeout` with the
empty entity identifier after exactly `deadline / interval + 1` queries. -/
theorem wait_poll_timeout (tasksGet : String → Nat → Except Err TaskStatus)
    (taskID : String) (policy : PollPolicy) (hpos : 0 < policy.interval)
    (fuel : Nat) (hfuel : policy.deadline / policy.interval < fuel) :
    (∃ r, specWaitOnTaskOperation tasksGet taskID policy fuel = some r ∧
      queryCount r.events ≤ policy.deadline / policy.interval + 1) ∧
    ((∀ i ≤ policy.deadline / policy.interval, pending (tasksGet taskID i) = true) →
      specWaitOnTaskOperation tasksGet taskID policy fuel
        = some ⟨polls taskID policy.interval (policy.deadline / policy.interval)
            ++ [.query taskID, .sleep policy.interval], "", some .pollTimeout⟩ ∧
      queryCount (polls taskID policy.interval (policy.deadline / policy.interval)
        ++ [.query taskID, .sleep policy.interval]) = policy.deadline / policy.interval + 1) := by
  constructor
  · obtain ⟨r, hr, hcount⟩ := specWaitLoop_returns tasksGet taskID policy hpos fuel 0
      (Nat.zero_le _) (by omega)
    exact ⟨r, hr, by omega⟩
  · intro hpending
    obtain ⟨m, rfl⟩ : ∃ m, fuel = (m + 1) + policy.deadline / policy.interval :=
      ⟨fuel - policy.deadline / policy.interval - 1, by omega⟩
    refine ⟨?_, by rw [queryCount_polls]; simp [queryCount, WaitEvent.isQuery]⟩
    unfold specWaitOnTaskOperation
    rw [specWaitLoop_polls tasksGet taskID policy (policy.deadline / policy.interval) (m + 1) 0
      (fun i hi => by simpa using hpending i (le_of_lt hi))
      (by simpa using Nat.div_mul_le_self policy.deadline policy.interval)]
    rw [Nat.zero_add, specWaitLoop_timeout tasksGet taskID policy m _
      (hpending _ (le_refl _))
      ((Nat.div_lt_iff_lt_mul hpos).mp (Nat.lt_succ_self _))]
    rfl

/-- C15 on a task that stays QUEUED, with the interval 2 and the deadline 7: the
wait returns `PollTimeout` after the 4 queries at the times 0, 2, 4 and 6. -/
theorem wait_poll_timeout_witness :
    specWaitOnTaskOperation neverDone "t3" samplePolicy 4
      = some ⟨[.query "t3", .sleep 2, .query "t3", .sleep 2, .query "t3", .sleep 2,
          .query "t3", .sleep 2], "", some .pollTimeout⟩ ∧
    queryCount [.query "t3", .sleep 2, .query "t3", .sleep 2, .query "t3", .sleep 2,
      .query "t3", .sleep 2] = 4 :=
  (wait_poll_timeout neverDone "t3" samplePolicy (by decide) 4 (by decide)).2 (by decide)

/-- With the interval 0 no time passes: on a task that is never terminal the
loop does not return, however many queries it may take. -/
theorem specWaitLoop_zero_interval (tasksGet : String → Nat → Except Err TaskStatus)
    (taskID : String) (policy : PollPolicy) (hzero : policy.interval = 0)
    (hpending : ∀ i, pending (tasksGet taskID i) = true) :
    ∀ fuel n, specWaitLoop tasksGet taskID policy fuel n = none := by
  intro fuel
  induction fuel with
  | zero => intro n; rfl
  | succ fuel ih =>
    intro n
    rw [specWaitLoop_pending tasksGet taskID policy fuel n (hpending n) (by simp [hzero]), ih]
    rfl

/-! ## The login token -/

/-- C24: `showLoginTokenWriter`, given a configuration and no surplus argument.
When the stored token is empty it returns `No login token available` and
writes nothing to the writer.  Otherwise it returns nil and what it writes is
selected by the two flags alone: with non-interactive set, the token and a
newline, whatever the `raw` flag; with non-interactive unset and `raw` set, the
raw token dump; otherwise the human summary.  The stored configuration is never
loaded. -/
theorem showLoginTokenWriter_output (W : World) (c : Context) (config : Configuration)
    (hargs : W.checkArgNum c.args 0 "auth show-login-token" = none) :
    (config.Token = "" →
      (showLoginTokenWriter W c (some config)).result = .error ⟨"No login token available"⟩ ∧
      ∀ ev ∈ (showLoginTokenWriter W c (some config)).trace, ev.isWriterOutput = false) ∧
    (config.Token ≠ "" →
      (showLoginTokenWriter W c (some config)).result = .ok () ∧
      outputEvents (showLoginTokenWriter W c (some config)).trace
        = (if c.nonInteractiveSet then [.write (config.Token ++ "\n")]
          else if c.boolFlag "raw" then
            (dumpTokenDetailsRaw W "Login Access Token" config.Token).map .write
          else (dumpTokenDetails W "Login Access Token" config.Token).map .write)) ∧
    Event.loadConfig ∉ (showLoginTokenWriter W c (some config)).trace := by
  refine ⟨?_, ?_, ?_⟩
  · intro htoken
    have hrun : showLoginTokenWriter W c (some config)
        = ⟨[.checkArgNum c.args 0 "auth show-login-token"],
            .error ⟨"No login token available"⟩⟩ := by
      simp [showLoginTokenWriter, checkArgs, callErr, fail, Run.bind_def, Run.bind, Run.pure,
        hargs, htoken]
    rw [hrun]
    exact ⟨rfl, by simp [Event.isWriterOutput]⟩
  · intro htoken
    cases hni : c.nonInteractiveSet with
    | true =>
      have hrun : showLoginTokenWriter W c (some config)
          = ⟨[.checkArgNum c.args 0 "auth show-login-token", .write (config.Token ++ "\n")],
              .ok ()⟩ := by
        simp [showLoginTokenWriter, checkArgs, callErr, emit, Run.bind_def, Run.bind, Run.pure,
          hargs, htoken, hni]
      rw [hrun]
      exact ⟨rfl, by simp [outputEvents, Event.isOutput]⟩
    | false =>
      cases hraw : c.boolFlag "raw" with
      | true =>
        have hrun : showLoginTokenWriter W c (some config)
            = ⟨.checkArgNum c.args 0 "auth show-login-token"
                :: (dumpTokenDetailsRaw W "Login Access Token" config.Token).map .write,
                .ok ()⟩ := by
          simp [showLoginTokenWriter, checkArgs, callErr, writeAll, Run.bind_def, Run.bind,
            Run.pure, hargs, htoken, hni, hraw]
        rw [hrun]
        refine ⟨rfl, ?_⟩
        simp [outputEvents, List.filter_cons, Event.isOutput, List.filter_map, Function.comp_def]
      | false =>
        have hrun : showLoginTokenWriter W c (some config)
            = ⟨.checkArgNum c.args 0 "auth show-login-token"
                :: (dumpTokenDetails W "Login Access Token" config.Token).map .write,
                .ok ()⟩ := by
          simp [showLoginTokenWriter, checkArgs, callErr, writeAll, Run.bind_def, Run.bind,
            Run.pure, hargs, htoken, hni, hraw]
        rw [hrun]
        refine ⟨rfl, ?_⟩
        simp [outputEvents, List.filter_cons, Event.isOutput, List.filter_map, Function.comp_def]
  · by_cases htoken : config.Token = ""
    · simp [showLoginTokenWriter, checkArgs, callErr, fail, Run.bind_def, Run.bind, Run.pure,
        hargs, htoken]
    · cases hni : c.nonInteractiveSet <;> cases hraw : c.boolFlag "raw" <;>
        simp [showLoginTokenWriter, checkArgs, callErr, emit, writeAll, Run.bind_def, Run.bind,
          Run.pure, hargs, htoken, hni, hraw]

/-- C24 on the token `tok`: with non-interactive set the writer receives
`tok` and a newline, with the `raw` flag set and with it unset; and an empty
stored token gives the error. -/
theorem showLoginTokenWriter_output_witness :
    outputEvents (showLoginTokenWriter sampleWorld (tokenContext true true)
      (some ⟨"tok", none⟩)).trace = [.write "tok\n"] ∧
    outputEvents (showLoginTokenWriter sampleWorld (tokenContext true false)
      (some ⟨"tok", none⟩)).trace = [.write "tok\n"] ∧
    (showLoginTokenWriter sampleWorld (tokenContext false true) (some ⟨"", none⟩)).result
      = .error ⟨"No login token available"⟩ :=
  ⟨((showLoginTokenWriter_output sampleWorld (tokenContext true true) ⟨"tok", none⟩ rfl).2.1
      (by decide)).2,
   ((showLoginTokenWriter_output sampleWorld (tokenContext true false) ⟨"tok", none⟩ rfl).2.1
      (by decide)).2,
   ((showLoginTokenWriter_output sampleWorld (tokenContext false true) ⟨"", none⟩ rfl).1
      rfl).1⟩

/-! ## Deleting a tenant -/

/-- The run of `deleteTenant`, step by step. -/
theorem deleteTenant_run (W : World) (c : Context) :
    (∀ e, W.checkArgNum c.args 1 "tenant delete <id>" = some e →
      deleteTenant W c = ⟨[.checkArgNum c.args 1 "tenant delete <id>"], .error e⟩) ∧
    (W.checkArgNum c.args 1 "tenant delete <id>" = none →
      (∀ e, W.getClient (W.isNonInteractive c) = some e →
        deleteTenant W c = ⟨[.checkArgNum c.args 1 "tenant delete <id>",
          .getClient (W.isNonInteractive c)], .error e⟩) ∧
      (W.getClient (W.isNonInteractive c) = none →
        (∀ e, W.task (.tenantsDelete c.first) = .error e →
          deleteTenant W c = ⟨[.checkArgNum c.args 1 "tenant delete <id>",
            .getClient (W.isNonInteractive c), .api (.tenantsDelete c.first)], .error e⟩) ∧
        (∀ task, W.task (.tenantsDelete c.first) = .ok task →
          (∀ e, W.waitOnTaskOperation task.ID = .error e →
            deleteTenant W c = ⟨[.checkArgNum c.args 1 "tenant delete <id>",
              .getClient (W.isNonInteractive c), .api (.tenantsDelete c.first),
              .waitOnTaskOperation task.ID], .error e⟩) ∧
          (∀ entity, W.waitOnTaskOperation task.ID = .ok entity →
            deleteTenant W c = ⟨[.checkArgNum c.args 1 "tenant delete <id>",
              .getClient (W.isNonInteractive c), .api (.tenantsDelete c.first),
              .waitOnTaskOperation task.ID, .clearConfigTenant c.first],
              match W.clearConfigTenant c.first with
              | none => .ok ()
              | some e => .error e⟩)))) := by
  refine ⟨?_, ?_⟩
  · intro e h
    simp [deleteTenant, checkArgs, callErr, Run.bind_def, Run.bind, h]
  · intro h1
    refine ⟨?_, ?_⟩
    · intro e h
      simp [deleteTenant, checkArgs, getClient, callErr, Run.bind_def, Run.bind, h1, h]
    · intro h2
      refine ⟨?_, ?_⟩
      · intro e h
        simp [deleteTenant, checkArgs, getClient, taskCall, call, callErr, Run.bind_def,
          Run.bind, h1, h2, h]
      · intro task h3
        refine ⟨?_, ?_⟩
        · intro e h
          simp [deleteTenant, checkArgs, getClient, taskCall, wait, call, callErr, Run.bind_def,
            Run.bind, h1, h2, h3, h]
        · intro entity h
          cases h5 : W.clearConfigTenant c.first <;>
            simp [deleteTenant, checkArgs, getClient, taskCall, wait, call, callErr,
              Run.bind_def, Run.bind, h1, h2, h3, h, h5]

/-- C22: `deleteTenant` clears the locally selected tenant only after a
confirmed deletion.  `clearConfigTenant(id)` is called exactly when the argument
check, the client, `Tenants.Delete` and the wait on its task all succeeded, and
then with the first argument, which is also the only id passed to
`Tenants.Delete`; it is then the only write to the persisted configuration.
When the argument check, the client, `Tenants.Delete` or the wait fails, the
run has no write to the persisted configuration and returns that error. -/
theorem deleteTenant_clears_config_after_delete (W : World) (c : Context) :
    (∀ id, Event.clearConfigTenant id ∈ (deleteTenant W c).trace ↔
      (id = c.first ∧ DeleteConfirmed W c)) ∧
    (∀ id, Event.api (.tenantsDelete id) ∈ (deleteTenant W c).trace → id = c.first) ∧
    (DeleteConfirmed W c →
      (deleteTenant W c).trace.filter Event.touchesConfig = [.clearConfigTenant c.first]) ∧
    (¬ DeleteConfirmed W c → ∀ ev ∈ (deleteTenant W c).trace, ev.touchesConfig = false) ∧
    (∀ e, W.checkArgNum c.args 1 "tenant delete <id>" = some e →
      (deleteTenant W c).result = .error e) ∧
    (W.checkArgNum c.args 1 "tenant delete <id>" = none →
      (∀ e, W.getClient (W.isNonInteractive c) = some e →
        (deleteTenant W c).result = .error e) ∧
      (W.getClient (W.isNonInteractive c) = none →
        (∀ e, W.task (.tenantsDelete c.first) = .error e →
          (deleteTenant W c).result = .error e) ∧
        (∀ task e, W.task (.tenantsDelete c.first) = .ok task →
          W.waitOnTaskOperation task.ID = .error e →
          (deleteTenant W c).result = .error e))) := by
  obtain ⟨r1, r2⟩ := deleteTenant_run W c
  have hresults : (∀ e, W.checkArgNum c.args 1 "tenant delete <id>" = some e →
      (deleteTenant W c).result = .error e) ∧
    (W.checkArgNum c.args 1 "tenant delete <id>" = none →
      (∀ e, W.getClient (W.isNonInteractive c) = some e →
        (deleteTenant W c).result = .error e) ∧
      (W.getClient (W.isNonInteractive c) = none →
        (∀ e, W.task (.tenantsDelete c.first) = .error e →
          (deleteTenant W c).result = .error e) ∧
        (∀ task e, W.task (.tenantsDelete c.first) = .ok task →
          W.waitOnTaskOperation task.ID = .error e →
          (deleteTenant W c).result = .error e))) := by
    refine ⟨fun e h => by rw [r1 e h], fun h1 => ⟨fun e h => by rw [(r2 h1).1 e h], fun h2 =>
      ⟨fun e h => by rw [((r2 h1).2 h2).1 e h], fun task e h3 h => ?_⟩⟩⟩
    rw [(((r2 h1).2 h2).2 task h3).1 e h]
  refine ⟨?_, ?_, ?_, ?_, hresults⟩
  · intro id
    cases h1 : W.checkArgNum c.args 1 "tenant delete <id>" with
    | some e => rw [r1 e h1]; simp [DeleteConfirmed, h1]
    | none =>
      cases h2 : W.getClient (W.isNonInteractive c) with
      | some e => rw [(r2 h1).1 e h2]; simp [DeleteConfirmed, h2]
      | none =>
        cases h3 : W.task (.tenantsDelete c.first) with
        | error e => rw [((r2 h1).2 h2).1 e h3]; simp [DeleteConfirmed, h3]
        | ok task =>
          cases h4 : W.waitOnTaskOperation task.ID with
          | error e => rw [(((r2 h1).2 h2).2 task h3).1 e h4]; simp [DeleteConfirmed, h3, h4]
          | ok entity =>
            rw [(((r2 h1).2 h2).2 task h3).2 entity h4]
            simp [DeleteConfirmed, h1, h2, h3, h4]
  · intro id
    cases h1 : W.checkArgNum c.args 1 "tenant delete <id>" with
    | some e => rw [r1 e h1]; simp
    | none =>
      cases h2 : W.getClient (W.isNonInteractive c) with
      | some e => rw [(r2 h1).1 e h2]; simp
      | none =>
        cases h3 : W.task (.tenantsDelete c.first) with
        | error e => rw [((r2 h1).2 h2).1 e h3]; simp
        | ok task =>
          cases h4 : W.waitOnTaskOperation task.ID with
          | error e => rw [(((r2 h1).2 h2).2 task h3).1 e h4]; simp
          | ok entity => rw [(((r2 h1).2 h2).2 task h3).2 entity h4]; simp
  · rintro ⟨h1, h2, task, entity, h3, h4⟩
    rw [(((r2 h1).2 h2).2 task h3).2 entity h4]
    simp [List.filter_cons, Event.touchesConfig]
  · intro hnot
    cases h1 : W.checkArgNum c.args 1 "tenant delete <id>" with
    | some e => rw [r1 e h1]; simp [Event.touchesConfig]
    | none =>
      cases h2 : W.getClient (W.isNonInteractive c) with
      | some e => rw [(r2 h1).1 e h2]; simp [Event.touchesConfig]
      | none =>
        cases h3 : W.task (.tenantsDelete c.first) with
        | error e => rw [((r2 h1).2 h2).1 e h3]; simp [Event.touchesConfig]
        | ok task =>
          cases h4 : W.waitOnTaskOperation task.ID with
          | error e => rw [(((r2 h1).2 h2).2 task h3).1 e h4]; simp [Event.touchesConfig]
          | ok entity => exact absurd ⟨h1, h2, task, entity, h3, h4⟩ hnot

/-- C22 on the tenant `t9`: when every step succeeds `clearConfigTenant("t9")`
is the one write to the configuration; when the wait fails with `disk full`
the run returns that error. -/
theorem deleteTenant_clears_config_after_delete_witness :
    (deleteTenant sampleWorld (sampleContext ["t9"] true "")).trace.filter Event.touchesConfig
      = [.clearConfigTenant "t9"] ∧
    (deleteTenant failedWaitWorld (sampleContext ["t9"] true "")).result
      = .error ⟨"disk full"⟩ :=
  ⟨(deleteTenant_clears_config_after_delete sampleWorld (sampleContext ["t9"] true "")).2.2.1
      ⟨rfl, rfl, ⟨"t1"⟩, "e1", rfl, rfl⟩,
   (((deleteTenant_clears_config_after_delete failedWaitWorld
      (sampleContext ["t9"] true "")).2.2.2.2.2 rfl).2 rfl).2 ⟨"t1"⟩ ⟨"disk full"⟩ rfl rfl⟩

/-! ## Selecting a tenant -/

/-- What `setTenant` does with the answer of `findTenantID`: the configuration
is saved only after a lookup that gave an id that is not empty and no error,
and then with the tenant set to the command argument and that id; after a
lookup that gave the empty id or an error the run neither loads nor writes the
configuration and prints nothing; and an error of the lookup is returned. -/
theorem setTenant_saves_found_tenant (W : World) (c : Context) :
    (∀ config, Event.saveConfig config ∈ (setTenant W c).trace →
      ∃ id old, W.findTenantID c.first = (id, none) ∧ id ≠ "" ∧ W.loadConfig = .ok old ∧
        config = { old with Tenant := some ⟨c.first, id⟩ }) ∧
    (((W.findTenantID c.first).1 = "" ∨ (W.findTenantID c.first).2 ≠ none) →
      ∀ ev ∈ (setTenant W c).trace,
        ev.touchesConfig = false ∧ ev.isOutput = false ∧ ev ≠ .loadConfig) ∧
    (∀ e, W.checkArgNum c.args 1 "tenant set <name>" = none →
      W.getClient (W.isNonInteractive c) = none →
      (W.findTenantID c.first).2 = some e → (setTenant W c).result = .error e) := by
  have key : ∀ b, W.isNonInteractive c = b →
      (∀ config, Event.saveConfig config ∈ (setTenant W c).trace →
        ∃ id old, W.findTenantID c.first = (id, none) ∧ id ≠ "" ∧ W.loadConfig = .ok old ∧
          config = { old with Tenant := some ⟨c.first, id⟩ }) ∧
      (((W.findTenantID c.first).1 = "" ∨ (W.findTenantID c.first).2 ≠ none) →
        ∀ ev ∈ (setTenant W c).trace,
          ev.touchesConfig = false ∧ ev.isOutput = false ∧ ev ≠ .loadConfig) ∧
      (∀ e, W.checkArgNum c.args 1 "tenant set <name>" = none →
        W.getClient b = none →
        (W.findTenantID c.first).2 = some e → (setTenant W c).result = .error e) := by
    intro b hb
    rcases hfind : W.findTenantID c.first with ⟨id, err⟩
    cases h1 : W.checkArgNum c.args 1 "tenant set <name>" with
    | some e =>
      simp [setTenant, checkArgs, callErr, Run.bind_def, Run.bind, h1, Event.touchesConfig,
        Event.isOutput]
    | none =>
      cases h2 : W.getClient b with
      | some e =>
        simp [setTenant, checkArgs, getClient, callErr, Run.bind_def, Run.bind, h1, h2, hb,
          Event.touchesConfig, Event.isOutput]
      | none =>
        cases err with
        | some e =>
          simp [setTenant, checkArgs, getClient, callErr, emit, fail, Run.bind_def, Run.bind,
            h1, h2, hb, hfind, Event.touchesConfig, Event.isOutput]
        | none =>
          by_cases hid : id = ""
          · subst hid
            simp [setTenant, checkArgs, getClient, callErr, emit, fail, Run.bind_def, Run.bind,
              Run.pure, Run.pure_def, h1, h2, hb, hfind, Event.touchesConfig, Event.isOutput]
          · have hlen : ¬ id.length = 0 := fun h => hid (String.ext (List.length_eq_zero.mp h))
            cases h3 : W.loadConfig with
            | error e =>
              simp [setTenant, checkArgs, getClient, callErr, call, emit, fail, Run.bind_def,
                Run.bind, Run.pure, Run.pure_def, h1, h2, hb, hfind, hid, hlen, h3]
            | ok old =>
              cases h4 : W.saveConfig { old with Tenant := some ⟨c.first, id⟩ } <;>
              cases h5 : W.clearConfigProject "" <;>
              cases b <;>
                simp [setTenant, checkArgs, getClient, callErr, call, emit, printf, fail,
                  Run.bind_def, Run.bind, Run.pure, Run.pure_def, h1, h2, hb, hfind, hid, hlen,
                  h3, h4, h5]
  exact key _ rfl

/-- C21 at its failing input: `tenant set t` when `findTenantID("t")` returns
the empty id and no error.  The configuration is left unchanged and nothing is
printed, but `setTenant` returns nil: `return err` returns the nil error of the
lookup.  After a lookup that fails with an error the same statement returns
that error. -/
theorem setTenant_empty_lookup_returns_nil :
    (setTenant emptyLookupWorld (sampleContext ["t"] false "")).result = .ok () ∧
    (setTenant emptyLookupWorld (sampleContext ["t"] false "")).trace
      = [.checkArgNum ["t"] 1 "tenant set <name>", .getClient false, .findTenantID "t"] ∧
    (setTenant { sampleWorld with findTenantID := fun _ => ("", some ⟨"not found"⟩) }
      (sampleContext ["t"] false "")).result = .error ⟨"not found"⟩ ∧
    (setTenant sampleWorld (sampleContext ["t"] false "")).trace
      = [.checkArgNum ["t"] 1 "tenant set <name>", .getClient false, .findTenantID "t",
          .loadConfig, .saveConfig ⟨"", some ⟨"t", "1"⟩⟩, .clearConfigProject "",
          .stdout "Tenant set to 't'\n"] := by
  decide

/-! ## The tags of a new host -/

theorem splitScan_letters_any (n : List Char) (hn : ∀ ch ∈ n, ch ≠ ',' ∧ isSpace ch = false)
    (cur : List Char) (skip : Bool) (rest : List Char) :
    ∃ skip', splitScan cur [] skip (n ++ rest) = splitScan (n.reverse ++ cur) [] skip' rest := by
  cases n with
  | nil => exact ⟨skip, rfl⟩
  | cons ch n =>
    refine ⟨false, ?_⟩
    rw [splitScan_name (ch :: n) (List.cons_ne_nil _ _) hn cur [] skip rest]
    simp

theorem splitScan_plain (names : List String) (hnames : ∀ n ∈ names, IsTagName n) :
    ∀ (cur : List Char) (skip : Bool),
      splitScan cur [] skip (names.map fun y => ",".toList ++ y.toList).flatten
        = String.mk cur.reverse :: names := by
  induction names with
  | nil => intro cur skip; simp [splitScan]
  | cons y ys ih =>
    intro cur skip
    have e : ((y :: ys).map fun y => ",".toList ++ y.toList).flatten
        = ',' :: (y.toList ++ (ys.map fun y => ",".toList ++ y.toList).flatten) := by
      simp [String.toList]
    obtain ⟨skip', h⟩ := splitScan_letters_any y.toList (hnames y (List.mem_cons_self _ _)) []
      true (ys.map fun y => ",".toList ++ y.toList).flatten
    rw [e, splitScan_comma, h, ih (fun n hn => hnames n (List.mem_cons_of_mem _ hn))]
    simp [String.toList]

/-- Splitting the names joined by plain commas gives the names back. -/
theorem splitCommaList_intercalate (names : List String) (hne : names ≠ [])
    (hnames : ∀ n ∈ names, IsTagName n) :
    splitCommaList (",".intercalate names) = names := by
  cases names with
  | nil => exact absurd rfl hne
  | cons x xs =>
    unfold splitCommaList
    obtain ⟨skip', h⟩ := splitScan_letters_any x.toList (hnames x (List.mem_cons_self _ _)) []
      false (xs.map fun y => ",".toList ++ y.toList).flatten
    rw [intercalate_cons_toList, h, splitScan_plain xs
      (fun n hn => hnames n (List.mem_cons_of_mem _ hn))]
    simp [String.toList]

theorem forall_trace_bind {α β : Type} {x : Run α} {f : α → Run β} {Q : Event → Prop}
    (hx : ∀ ev ∈ x.trace, Q ev)
    (hf : ∀ a, x.result = .ok a → ∀ ev ∈ (f a).trace, Q ev) :
    ∀ ev ∈ (x >>= f).trace, Q ev := by
  rw [Run.bind_def]
  unfold Run.bind
  cases h : x.result with
  | ok a =>
    intro ev hev
    rcases List.mem_append.mp hev with h' | h'
    · exact hx ev h'
    · exact hf a h ev h'
  | error e => exact hx
  | panic m => exact hx

/-- The tag string among the values `createHost` collects. -/
theorem createHostPrompts_tags (W : World) (c : Context) (input : HostInput)
    (h : (createHostPrompts W c).result = .ok input) : IsTagInput W c input.tags := by
  unfold IsTagInput
  cases hni : W.isNonInteractive c with
  | true =>
    simp [createHostPrompts, hni, Run.pure] at h
    simp [← h]
  | false =>
    revert h
    simp only [createHostPrompts, hni, ask, call, Run.bind_def, Run.bind, Run.pure,
      Bool.not_false, if_true]
    cases W.askForInput "Username: " (c.stringFlag "username") <;> simp
    cases W.askForInput "Password: " (c.stringFlag "password") <;> simp
    cases W.askForInput "Host Address: " (c.stringFlag "address") <;> simp
    cases W.askForInput "Host Tags (Options [CLOUD,MGMT]. ',' separated): "
      (c.stringFlag "tag") <;> simp
    cases W.askForInput "Host Metadata (\x7b'key':'value'\x7d. required by host of 'MGMT' tag): "
      (c.stringFlag "metadata") <;> simp
    cases W.askForInput "Deployment ID: " (c.stringFlag "deployment_id") <;> simp
    intro h
    simp [← h]

/-- Every `Hosts.Create` of `createHost` sends the split of the tag string. -/
theorem createHost_sends_split (W : World) (c : Context) :
    ∀ ev ∈ (createHost W c).trace, ∀ spec dep, ev = Event.api (.hostsCreate spec dep) →
      ∃ tags, spec.Tags = splitCommaList tags ∧ IsTagInput W c tags := by
  unfold createHost
  apply forall_trace_bind
  · simp [checkArgs, callErr]
  intro _ _
  apply forall_trace_bind
  · intro ev hev spec dep he
    subst he
    exfalso
    revert hev
    simp only [createHostPrompts, ask, call, Run.bind_def, Run.bind, Run.pure]
    split
    · repeat (first | split | simp)
    · simp
  intro input hinput
  apply forall_trace_bind
  · split <;> simp [Run.pure, call]
  intro data _
  apply forall_trace_bind
  · simp [getClient, callErr]
  intro _ _
  apply forall_trace_bind
  · intro ev hev spec dep he
    subst he
    simp only [taskCall, call, List.mem_singleton, Event.api.injEq,
      ApiCall.hostsCreate.injEq] at hev
    exact ⟨input.tags, by rw [hev.1], createHostPrompts_tags W c input hinput⟩
  intro task _
  apply forall_trace_bind
  · simp [wait, call]
  intro id _
  split
  · apply forall_trace_bind
    · simp [call]
    intro host _
    simp [emit]
  · simp [Run.pure_def, Run.pure]

/-- In non-interactive mode, with no metadata, `createHost` calls `Hosts.Create`
with the split of the `tag` flag. -/
theorem createHost_sends_tags (W : World) (c : Context)
    (hni : W.isNonInteractive c = true)
    (hcheck : W.checkArgNum c.args 0 "host create [<options>]" = none)
    (hmeta : c.stringFlag "metadata" = "")
    (hclient : W.getClient true = none) :
    Event.api (.hostsCreate ⟨c.stringFlag "username", c.stringFlag "password",
        c.stringFlag "address", c.stringFlag "availability_zone",
        splitCommaList (c.stringFlag "tag"), []⟩ (c.stringFlag "deployment_id"))
      ∈ (createHost W c).trace := by
  unfold createHost
  apply mem_bind_right (a := ()) (by simp [checkArgs, callErr, hcheck])
  apply mem_bind_right (a := ⟨c.stringFlag "username", c.stringFlag "password",
    c.stringFlag "address", c.stringFlag "tag", c.stringFlag "metadata",
    c.stringFlag "deployment_id"⟩) (by simp [createHostPrompts, hni, Run.pure])
  apply mem_bind_right (a := []) (by simp [hmeta, Run.pure])
  apply mem_bind_right (a := ()) (by simp [getClient, callErr, hni, hclient])
  apply mem_bind_left
  simp [taskCall, call]

/-- C23: `createHost` always splits the tag string at the pattern `\s*,\s*`,
with no special case for the empty string.  Every `Hosts.Create` it makes sends
the split of the tag string (the `tag` flag in non-interactive mode, the answer
to the prompt otherwise); the split of the empty string is the list of one empty
tag, and the split of one or more names without comma and white space joined by
commas is these names in order.  So in non-interactive mode an empty `tag` flag
sends the tags `[""]`, whereas `createTenant` sends the empty list of security
groups for the empty string. -/
theorem createHost_tags_always_split (W : World) (c : Context) (names : List String)
    (hne : names ≠ []) (hnames : ∀ n ∈ names, IsTagName n) :
    splitCommaList "" = [""] ∧
    splitCommaList (",".intercalate names) = names ∧
    (∀ spec dep, Event.api (.hostsCreate spec dep) ∈ (createHost W c).trace →
      ∃ tags, spec.Tags = splitCommaList tags ∧ IsTagInput W c tags) ∧
    (W.isNonInteractive c = true →
      W.checkArgNum c.args 0 "host create [<options>]" = none →
      c.stringFlag "metadata" = "" → W.getClient true = none →
      (c.stringFlag "tag" = "" →
        Event.api (.hostsCreate ⟨c.stringFlag "username", c.stringFlag "password",
          c.stringFlag "address", c.stringFlag "availability_zone", [""], []⟩
          (c.stringFlag "deployment_id")) ∈ (createHost W c).trace) ∧
      (c.stringFlag "tag" = ",".intercalate names →
        Event.api (.hostsCreate ⟨c.stringFlag "username", c.stringFlag "password",
          c.stringFlag "address", c.stringFlag "availability_zone", names, []⟩
          (c.stringFlag "deployment_id")) ∈ (createHost W c).trace)) ∧
    (W.isNonInteractive c = true → c.args.length ≤ 1 → c.first ≠ "" →
      W.getClient true = none → c.stringFlag "security-groups" = "" →
      Event.api (.tenantsCreate ⟨c.first, []⟩) ∈ (createTenant W c).trace) := by
  have hempty : splitCommaList "" = [""] := by decide
  have hsplit := splitCommaList_intercalate names hne hnames
  refine ⟨hempty, hsplit, ?_, ?_, ?_⟩
  · intro spec dep hmem
    exact createHost_sends_split W c _ hmem spec dep rfl
  · intro hni hcheck hmeta hclient
    have h := createHost_sends_tags W c hni hcheck hmeta hclient
    constructor
    · intro htag
      rw [htag, hempty] at h
      exact h
    · intro htag
      rw [htag, hsplit] at h
      exact h
  · intro hni hargs hname hclient hflag
    have h := createTenant_sends_groups W c hni hargs hname hclient
    rw [hflag] at h
    simpa using h

/-- C23 on the names `CLOUD` and `MGMT`, and on a non-interactive `host create`
with no flag set: the host is created with the one empty tag. -/
theorem createHost_tags_always_split_witness :
    splitCommaList "CLOUD,MGMT" = ["CLOUD", "MGMT"] ∧
    Event.api (.hostsCreate ⟨"", "", "", "", [""], []⟩ "")
      ∈ (createHost sampleWorld (sampleContext [] true "")).trace :=
  ⟨(createHost_tags_always_split sampleWorld (sampleContext [] true "") ["CLOUD", "MGMT"]
      (by decide) (by decide)).2.1,
   ((createHost_tags_always_split sampleWorld (sampleContext [] true "") ["CLOUD", "MGMT"]
      (by decide) (by decide)).2.2.2.1 rfl rfl rfl rfl).1 rfl⟩

/-- C8 fails as stated.  For a token whose list of groups is empty but not nil,
`dumpTokenDetails` writes an empty `Groups` line and not `<none>`: the source
tests `jwtToken.Groups == nil`.  And for a token whose subject holds a newline
the summary has seven lines, not six. -/
theorem dumpTokenDetails_empty_groups_not_none :
    (emptyGroupsWorld.parseTokenDetails "e30.e30.sig").Groups = some [] ∧
    linesOf (String.join (dumpTokenDetails emptyGroupsWorld "Login Access Token" "e30.e30.sig"))
      = [ "Login Access Token:", "\tSubject: admin", "\tGroups: ", "\tIssued: 1000",
          "\tExpires: 2000", "\tToken: e30.e30.sig", "" ] ∧
    "\tGroups: <none>" ∉
      linesOf (String.join (dumpTokenDetails emptyGroupsWorld "Login Access Token" "e30.e30.sig")) ∧
    linesOf (String.join (dumpTokenDetails newlineSubjectWorld "Login Access Token" "e30.e30.sig"))
      = [ "Login Access Token:", "\tSubject: ad", "min", "\tGroups: <none>", "\tIssued: 1000",
          "\tExpires: 2000", "\tToken: e30.e30.sig", "" ] := by
  decide

/-! ## The renderings of the code are those of the spec -/

theorem fieldMatches_some (v : String) : FieldMatches (some v) v := by
  intro w h
  cases h
  rfl

theorem fieldMatches_none (text : String) : FieldMatches none text := by
  intro w h
  cases h

theorem hostScriptLine_record (host : Host) :
    hostScriptLine host = recordLine [ host.ID, host.Username, host.Password, host.Address,
      replaceSpaces (stringsTrim (sprintSlice host.Tags) "[]"), host.State,
      replaceSpaces (stringsTrim (stringsTrimLeft (sprintMap host.Metadata) "map") "[]"),
      host.AvailabilityZone, host.EsxVersion ] := by
  simp only [hostScriptLine, recordLine, String.intercalate, String.intercalate.go]

theorem tenantScriptLine_record (tenant : Tenant) :
    tenantScriptLine tenant = recordLine [ tenant.ID, tenant.Name, ",".intercalate
      (tenant.SecurityGroups.map fun (s : SecurityGroup) =>
        s.Name ++ ":" ++ toString s.Inherited) ] := by
  simp only [tenantScriptLine, recordLine, String.intercalate, String.intercalate.go]

theorem imageScriptLine_record (image : Image) :
    imageScriptLine image = recordLine [ image.ID, image.Name, image.State,
      toString image.Size, image.ReplicationType, image.ReplicationProgress,
      image.SeedingProgress, ",".intercalate
        (image.Settings.map fun (s : ImageSetting) => s.Name ++ ":" ++ s.DefaultValue) ] := by
  simp only [imageScriptLine, recordLine, String.intercalate, String.intercalate.go]

theorem tenantRow_record (tenant : Tenant) :
    tenantRow tenant = recordLine [tenant.ID, tenant.Name] := by
  simp only [tenantRow, recordLine, String.intercalate, String.intercalate.go]

theorem imageRow_record (image : Image) :
    imageRow image = recordLine [ image.ID, image.Name, image.State, toString image.Size,
      image.ReplicationType, image.ReplicationProgress, image.SeedingProgress ] := by
  simp only [imageRow, recordLine, String.intercalate, String.intercalate.go]

theorem tenantRecords_match (tenants : List Tenant) :
    List.Forall₂ RecordMatches (scriptRecords (.tenants tenants))
      (tenants.map fun (tenant : Tenant) => [tenant.ID, tenant.Name]) := by
  simp only [scriptRecords, List.forall₂_map_left_iff, List.forall₂_map_right_iff]
  exact List.forall₂_same.mpr fun t _ => by simp [RecordMatches, fieldMatches_some]

theorem imageRecords_match (images : List Image) :
    List.Forall₂ RecordMatches (scriptRecords (.images images))
      (images.map fun (image : Image) => [ image.ID, image.Name, image.State,
        toString image.Size, image.ReplicationType, image.ReplicationProgress,
        image.SeedingProgress ]) := by
  simp only [scriptRecords, List.forall₂_map_left_iff, List.forall₂_map_right_iff]
  exact List.forall₂_same.mpr fun t _ => by simp [RecordMatches, fieldMatches_some]

/-- What the code prints in script mode is the script rendering of the spec. -/
theorem scriptRendering_isScript (o : Obj) : IsScriptRendering o (scriptRendering o) := by
  cases o with
  | host host =>
    refine ⟨[[ host.ID, host.Username, host.Password, host.Address,
      replaceSpaces (stringsTrim (sprintSlice host.Tags) "[]"), host.State,
      replaceSpaces (stringsTrim (stringsTrimLeft (sprintMap host.Metadata) "map") "[]"),
      host.AvailabilityZone, host.EsxVersion ]], ?_, ?_⟩
    · simp [scriptRecords, RecordMatches, fieldMatches_some, fieldMatches_none]
    · simp only [scriptRendering, hostScriptLine_record, List.map]
  | tenant tenant =>
    refine ⟨[[ tenant.ID, tenant.Name, ",".intercalate
      (tenant.SecurityGroups.map fun (s : SecurityGroup) =>
        s.Name ++ ":" ++ toString s.Inherited) ]], ?_, ?_⟩
    · simp [scriptRecords, RecordMatches, fieldMatches_some]
    · simp only [scriptRendering, tenantScriptLine_record, List.map]
  | image image =>
    refine ⟨[[ image.ID, image.Name, image.State, toString image.Size, image.ReplicationType,
      image.ReplicationProgress, image.SeedingProgress, ",".intercalate
        (image.Settings.map fun (s : ImageSetting) => s.Name ++ ":" ++ s.DefaultValue) ]],
      ?_, ?_⟩
    · simp [scriptRecords, RecordMatches, fieldMatches_some]
    · simp only [scriptRendering, imageScriptLine_record, List.map]
  | tenants tenants =>
    refine ⟨_, tenantRecords_match tenants, ?_⟩
    simp only [scriptRendering, List.map_map, tenantRow_record]
    rfl
  | images images =>
    refine ⟨_, imageRecords_match images, ?_⟩
    simp only [scriptRendering, List.map_map, imageRow_record]
    rfl
  | tenantConfiguration tenant =>
    refine ⟨[[tenant.ID, tenant.Name]], ?_, ?_⟩
    · simp [scriptRecords, RecordMatches, fieldMatches_some]
    · simp only [scriptRendering, recordLine, String.intercalate, String.intercalate.go, List.map]

theorem mem_toList_append_left (ch : Char) (a b : String) (h : ch ∈ a.toList) :
    ch ∈ (a ++ b).toList := by
  simp only [String.toList, String.data_append, List.mem_append]
  exact Or.inl h

theorem mem_toList_append_right (ch : Char) (a b : String) (h : ch ∈ b.toList) :
    ch ∈ (a ++ b).toList := by
  simp only [String.toList, String.data_append, List.mem_append]
  exact Or.inr h

/-- A line printed by `fmt.Println(label, value)` is a labelled line. -/
theorem isLabelledLine_println (pattern : Option String) (label value : String)
    (hlabel : ':' ∈ label.toList) (hvalue : FieldMatches pattern value) :
    IsLabelledLine pattern (println [label, value]) :=
  ⟨label ++ " ", value, mem_toList_append_left _ _ _ hlabel, hvalue, by
    simp only [println, String.intercalate, String.intercalate.go]⟩

/-- A line printed as label, value, newline is a labelled line. -/
theorem isLabelledLine_append (pattern : Option String) (label value : String)
    (hlabel : ':' ∈ label.toList) (hvalue : FieldMatches pattern value) :
    IsLabelledLine pattern (label ++ value ++ "\n") :=
  ⟨label, value, hlabel, hvalue, rfl⟩

theorem securityGroupReport_labelled (groups : List SecurityGroup) :
    ∀ i, List.Forall₂ IsLabelledLine
      (groups.map fun (s : SecurityGroup) =>
        [some "", some s.Name, some (toString s.Inherited)]).flatten
      (securityGroupReport i groups) := by
  induction groups with
  | nil => intro i; simp [securityGroupReport]
  | cons s rest ih =>
    intro i
    simp only [List.map_cons, List.flatten_cons, securityGroupReport, List.cons_append,
      List.nil_append]
    refine List.Forall₂.cons ?_ (List.Forall₂.cons ?_ (List.Forall₂.cons ?_ (ih (i + 1))))
    · refine ⟨"    SecurityGroups " ++ toString (i + 1) ++ ":", "",
        mem_toList_append_right _ _ _ (by decide), fieldMatches_some _, ?_⟩
      have e : (":" ++ "\n" : String) = ":\n" := by decide
      simp only [String.append_assoc, String.append_empty, e]
    · exact isLabelledLine_println _ _ _ (by decide) (fieldMatches_some _)
    · exact isLabelledLine_println _ _ _ (by decide) (fieldMatches_some _)

/-- What the code prints in interactive mode is the human-readable rendering of
the spec. -/
theorem humanRendering_isHuman (o : Obj) : IsHumanRendering o (humanRendering o) := by
  cases o with
  | host host =>
    refine ⟨hostReport host, ?_, rfl⟩
    simp only [reportValues, hostReport]
    refine List.Forall₂.cons ?_ (List.Forall₂.cons ?_ (List.Forall₂.cons ?_
      (List.Forall₂.cons ?_ (List.Forall₂.cons ?_ (List.Forall₂.cons ?_
      (List.Forall₂.cons ?_ (List.Forall₂.cons ?_ (List.Forall₂.cons ?_ List.Forall₂.nil))))))))
    all_goals first
      | exact isLabelledLine_println _ _ _ (by decide) (fieldMatches_some _)
      | exact isLabelledLine_println _ _ _ (by decide) (fieldMatches_none _)
  | tenant tenant =>
    refine ⟨tenantReport tenant, ?_, rfl⟩
    simp only [reportValues, tenantReport, List.cons_append, List.nil_append]
    refine List.Forall₂.cons ?_ (List.Forall₂.cons ?_
      (securityGroupReport_labelled tenant.SecurityGroups 0))
    · exact isLabelledLine_println _ _ _ (by decide) (fieldMatches_some _)
    · exact isLabelledLine_println _ _ _ (by decide) (fieldMatches_some _)
  | image image =>
    refine ⟨imageReport image, ?_, rfl⟩
    simp only [reportValues, imageReport, List.cons_append, List.nil_append]
    refine List.Forall₂.cons ?_ (List.Forall₂.cons ?_ (List.Forall₂.cons ?_
      (List.Forall₂.cons ?_ (List.Forall₂.cons ?_ (List.Forall₂.cons ?_
      (List.Forall₂.cons ?_ (List.Forall₂.cons ?_ ?_)))))))
    · exact isLabelledLine_append _ _ _ (by decide) (fieldMatches_some _)
    · exact isLabelledLine_append _ _ _ (by decide) (fieldMatches_some _)
    · exact isLabelledLine_append _ _ _ (by decide) (fieldMatches_some _)
    · refine ⟨"  Size:                       ", toString image.Size ++ " Byte(s)", by decide,
        fieldMatches_none _, ?_⟩
      have e : (" Byte(s)" ++ "\n" : String) = " Byte(s)\n" := by decide
      simp only [String.append_assoc, e]
    · exact isLabelledLine_append _ _ _ (by decide) (fieldMatches_some _)
    · exact isLabelledLine_append _ _ _ (by decide) (fieldMatches_some _)
    · exact isLabelledLine_append _ _ _ (by decide) (fieldMatches_some _)
    · exact ⟨"  Settings: ", "", by decide, fieldMatches_some _, by decide⟩
    · simp only [List.forall₂_map_left_iff, List.forall₂_map_right_iff]
      refine List.forall₂_same.mpr fun s _ => ?_
      exact isLabelledLine_append _ ("    " ++ s.Name ++ " : ") _
        (mem_toList_append_right _ _ _ (by decide)) (fieldMatches_some _)
  | tenants tenants =>
    refine ⟨["ID", "Name"], _, "\n", rfl, by decide, tenantRecords_match tenants, ?_⟩
    simp only [humanRendering, scriptRecords, List.map_map, List.length_map]
    have e1 : recordLine ["ID", "Name"] = "ID\tName\n" := by decide
    have e2 : ("\n" ++ "Total: " : String) = "\nTotal: " := by decide
    have e3 : (recordLine ∘ fun (tenant : Tenant) => [tenant.ID, tenant.Name]) = tenantRow := by
      funext t
      exact (tenantRow_record t).symm
    rw [e1, e2, e3]
  | images images =>
    refine ⟨["ID", "Name", "State", "Size(Byte)", "Replication_type", "ReplicationProgress",
      "SeedingProgress"], _, "\n", rfl, by decide, imageRecords_match images, ?_⟩
    simp only [humanRendering, scriptRecords, List.map_map, List.length_map]
    have e1 : recordLine ["ID", "Name", "State", "Size(Byte)", "Replication_type",
      "ReplicationProgress", "SeedingProgress"] = imageHeader := by decide
    have e2 : ("\n" ++ "Total: " : String) = "\nTotal: " := by decide
    have e3 : (recordLine ∘ fun (image : Image) => [ image.ID, image.Name, image.State,
        toString image.Size, image.ReplicationType, image.ReplicationProgress,
        image.SeedingProgress ]) = imageRow := by
      funext i
      exact (imageRow_record i).symm
    rw [e1, e2, e3]
  | tenantConfiguration tenant =>
    exact ⟨"Current tenant is '", "' with ID ", by decide, by decide, rfl⟩

/-! ## No output is of two modes -/

theorem isScript_stdout {o : Obj} {out : List Event} (h : IsScriptRendering o out) :
    (∀ ev ∈ out, ∃ text, ev = .stdout text) ∧ out.length = (scriptRecords o).length := by
  obtain ⟨records, hmatch, rfl⟩ := h
  constructor
  · intro ev hev
    obtain ⟨fields, _, rfl⟩ := List.mem_map.mp hev
    exact ⟨_, rfl⟩
  · rw [List.length_map, hmatch.length_eq]

theorem isReport_stdout {values : List (Option String)} {lines : List String}
    {out : List Event} (hmatch : List.Forall₂ IsLabelledLine values lines)
    (hout : out = lines.map Event.stdout) :
    (∀ ev ∈ out, ∃ text, ev = .stdout text) ∧ out.length = values.length := by
  subst hout
  constructor
  · intro ev hev
    obtain ⟨line, _, rfl⟩ := List.mem_map.mp hev
    exact ⟨_, rfl⟩
  · rw [List.length_map, hmatch.length_eq]

theorem script_not_structured {o : Obj} {out : List Event}
    (hs : IsScriptRendering o out) (hf : IsStructuredRendering o out) : False := by
  unfold IsStructuredRendering at hf
  subst hf
  obtain ⟨text, h⟩ := (isScript_stdout hs).1 (.formatObject o) (List.mem_singleton.mpr rfl)
  cases h

theorem human_not_structured {o : Obj} {out : List Event}
    (hh : IsHumanRendering o out) (hf : IsStructuredRendering o out) : False := by
  unfold IsStructuredRendering at hf
  subst hf
  cases o with
  | host host =>
    obtain ⟨lines, hmatch, hout⟩ := hh
    obtain ⟨text, h⟩ := (isReport_stdout hmatch hout).1 _ (List.mem_singleton.mpr rfl)
    cases h
  | tenant tenant =>
    obtain ⟨lines, hmatch, hout⟩ := hh
    obtain ⟨text, h⟩ := (isReport_stdout hmatch hout).1 _ (List.mem_singleton.mpr rfl)
    cases h
  | image image =>
    obtain ⟨lines, hmatch, hout⟩ := hh
    obtain ⟨text, h⟩ := (isReport_stdout hmatch hout).1 _ (List.mem_singleton.mpr rfl)
    cases h
  | tenants tenants =>
    obtain ⟨header, records, pre, _, _, _, hout⟩ := hh
    simp at hout
  | images images =>
    obtain ⟨header, records, pre, _, _, _, hout⟩ := hh
    simp at hout
  | tenantConfiguration tenant =>
    obtain ⟨pre, mid, _, _, hout⟩ := hh
    simp at hout

theorem length_pos_of_ne_empty {s : String} (h : s ≠ "") : 0 < s.length := by
  rcases Nat.eq_zero_or_pos s.length with h0 | h0
  · exact absurd (String.ext (List.length_eq_zero.mp h0)) h
  · exact h0

theorem script_not_human {o : Obj} {out : List Event}
    (hs : IsScriptRendering o out) (hh : IsHumanRendering o out) : False := by
  have hlen := (isScript_stdout hs).2
  cases o with
  | host host =>
    obtain ⟨lines, hmatch, hout⟩ := hh
    have h := (isReport_stdout hmatch hout).2
    simp [scriptRecords, reportValues] at hlen h
    omega
  | tenant tenant =>
    obtain ⟨lines, hmatch, hout⟩ := hh
    have h := (isReport_stdout hmatch hout).2
    simp [scriptRecords, reportValues] at hlen h
    omega
  | image image =>
    obtain ⟨lines, hmatch, hout⟩ := hh
    have h := (isReport_stdout hmatch hout).2
    simp [scriptRecords, reportValues] at hlen h
    omega
  | tenants tenants =>
    obtain ⟨header, records, pre, _, _, _, hout⟩ := hh
    obtain ⟨text, h⟩ := (isScript_stdout hs).1 (.tabFlush (recordLine header ++
      String.join (records.map recordLine))) (by rw [hout]; exact List.mem_cons_self _ _)
    cases h
  | images images =>
    obtain ⟨header, records, pre, _, _, _, hout⟩ := hh
    obtain ⟨text, h⟩ := (isScript_stdout hs).1 (.tabFlush (recordLine header ++
      String.join (records.map recordLine))) (by rw [hout]; exact List.mem_cons_self _ _)
    cases h
  | tenantConfiguration tenant =>
    obtain ⟨pre, mid, hpre, hmid, hout⟩ := hh
    obtain ⟨records, hmatch, hrec⟩ := hs
    simp only [scriptRecords] at hmatch
    cases hmatch with
    | cons hfields hnil =>
    cases hnil
    cases hfields with
    | cons hid hrest =>
    cases hrest with
    | cons hname hnil' =>
    cases hnil'
    have hid' := hid _ rfl
    have hname' := hname _ rfl
    subst hid' hname'
    rw [hout] at hrec
    simp only [List.map, List.cons.injEq, Event.stdout.injEq, and_true, recordLine,
      String.intercalate, String.intercalate.go] at hrec
    have hl := congrArg String.length hrec
    simp only [String.length_append] at hl
    have e1 : "\t".length = 1 := rfl
    have e2 : "\n".length = 1 := rfl
    have p1 := length_pos_of_ne_empty hpre
    have p2 := length_pos_of_ne_empty hmid
    omega

/-- The output a rendering command makes for the object it was given is, by
both flags, the script rendering, the structured dump or the human-readable
rendering of the spec. -/
theorem selectedRendering_isRendering (nonInteractive formatOverride : Bool) (o : Obj) :
    (nonInteractive = true →
      IsScriptRendering o (selectedRendering nonInteractive formatOverride o)) ∧
    (nonInteractive = false → formatOverride = true →
      IsStructuredRendering o (selectedRendering nonInteractive formatOverride o)) ∧
    (nonInteractive = false → formatOverride = false →
      IsHumanRendering o (selectedRendering nonInteractive formatOverride o)) := by
  refine ⟨?_, ?_, ?_⟩
  · intro h
    subst h
    exact scriptRendering_isScript o
  · intro h1 h2
    subst h1 h2
    exact rfl
  · intro h1 h2
    subst h1 h2
    exact humanRendering_isHuman o

/-- C9: for each of `showHost`, `showTenant`, `showImage`, `listTenants`,
`listImages` and `getTenant` (with a tenant selected), and for every value of
the non-interactive flag and of the format override, the output of a run that
returns nil is exactly one of the three renderings of the object it was given:
it is the script rendering (one tab-separated record line per entity, the
identifier first, no header and no summary) if and only if non-interactive is
set; the structured dump if and only if non-interactive is unset and the format
override is set; the human-readable rendering (a labelled report of a single
entity, a table with header row and count line for a list) if and only if both
are unset.  No output is of two modes. -/
theorem exactly_one_rendering (cmd : RenderCommand) (W : World) (c : Context)
    (hok : (cmd.run W c).result = .ok ())
    (hsel : cmd = .getTenant → ∀ config, W.loadConfig = .ok config → config.Tenant ≠ none) :
    ∃ o, cmd.Receives W c o ∧
      (IsScriptRendering o (outputEvents (cmd.run W c).trace) ↔ c.nonInteractiveSet = true) ∧
      (IsStructuredRendering o (outputEvents (cmd.run W c).trace) ↔
        (c.nonInteractiveSet = false ∧ W.needsFormatting c = true)) ∧
      (IsHumanRendering o (outputEvents (cmd.run W c).trace) ↔
        (c.nonInteractiveSet = false ∧ W.needsFormatting c = false)) := by
  have hsome : ∃ o, cmd.Receives W c o ∧ outputEvents (cmd.run W c).trace
      = selectedRendering c.nonInteractiveSet (W.needsFormatting c) o := by
    cases cmd
    · exact showHost_selected W c hok
    · exact showTenant_selected W c hok
    · exact showImage_selected W c hok
    · exact listTenants_selected W c hok
    · exact listImages_selected W c hok
    · exact getTenant_selected W c hok (hsel rfl)
  obtain ⟨o, hrecv, hout⟩ := hsome
  refine ⟨o, hrecv, ?_⟩
  rw [hout]
  obtain ⟨hscript, hdump, hhuman⟩ :=
    selectedRendering_isRendering c.nonInteractiveSet (W.needsFormatting c) o
  cases hni : c.nonInteractiveSet with
  | true =>
    rw [hni] at hscript
    have hs := hscript rfl
    refine ⟨⟨fun _ => rfl, fun _ => hs⟩, ⟨fun h => (script_not_structured hs h).elim,
      fun h => by simp at h⟩, ⟨fun h => (script_not_human hs h).elim, fun h => by simp at h⟩⟩
  | false =>
    cases hfmt : W.needsFormatting c with
    | true =>
      rw [hni, hfmt] at hdump
      have hd := hdump rfl rfl
      refine ⟨⟨fun h => (script_not_structured h hd).elim, fun h => by simp at h⟩,
        ⟨fun _ => ⟨rfl, rfl⟩, fun _ => hd⟩,
        ⟨fun h => (human_not_structured h hd).elim, fun h => by simp at h⟩⟩
    | false =>
      rw [hni, hfmt] at hhuman
      have hh := hhuman rfl rfl
      refine ⟨⟨fun h => (script_not_human h hh).elim, fun h => by simp at h⟩,
        ⟨fun h => (human_not_structured hh h).elim, fun h => by simp at h⟩,
        ⟨fun _ => ⟨rfl, rfl⟩, fun _ => hh⟩⟩

/-- C9 at `host show h1` in the sample world with non-interactive set and no
format override: the output is the script rendering of the host, and neither
the structured dump nor the labelled report. -/
theorem exactly_one_rendering_witness :
    ∃ o, RenderCommand.showHost.Receives sampleWorld (sampleContext ["h1"] true "") o ∧
      (IsScriptRendering o
          (outputEvents (RenderCommand.showHost.run sampleWorld
            (sampleContext ["h1"] true "")).trace) ↔
        (sampleContext ["h1"] true "").nonInteractiveSet = true) ∧
      (IsStructuredRendering o
          (outputEvents (RenderCommand.showHost.run sampleWorld
            (sampleContext ["h1"] true "")).trace) ↔
        ((sampleContext ["h1"] true "").nonInteractiveSet = false ∧
          sampleWorld.needsFormatting (sampleContext ["h1"] true "") = true)) ∧
      (IsHumanRendering o
          (outputEvents (RenderCommand.showHost.run sampleWorld
            (sampleContext ["h1"] true "")).trace) ↔
        ((sampleContext ["h1"] true "").nonInteractiveSet = false ∧
          sampleWorld.needsFormatting (sampleContext ["h1"] true "") = false)) :=
  exactly_one_rendering .showHost sampleWorld (sampleContext ["h1"] true "") rfl
    (fun h => by cases h)

end Photon
